import Mathlib

/-!
# Update invocation path

Shallow embedding of `service/history/api/updateworkflow/api.go`
(`Invoke` and `addWorkflowTaskToMatching`).

`Invoke` is straight-line orchestration code over collaborator interfaces
(consistency checker, workflow context, mutable state, update registry,
update, shard context, matching client).  None of the collaborators is
implemented in this package, so each interface value is embedded as a record
holding, for every method `Invoke` uses, the answer that method gives as a
function of the arguments it is called with.  `Invoke` calls every answering
method at most once per run (the only repeated calls are the release function
and the `GetWorkflowKey` getter of the workflow context), so a record of
answers describes an arbitrary behaviour of a stateful collaborator during
one run.

The embedded `Invoke` returns a `Run`: the ordered list of collaborator calls
it made (with their arguments) and the way it terminated.
-/

namespace updateworkflow

/-! ## Enumerations and errors -/

/-- Wait stages of `enumspb.UpdateWorkflowExecutionLifecycleStage`.  The Go
switch only names `ACCEPTED` and `COMPLETED`; every other value takes the
default branch. -/
inductive enumspb.UpdateWorkflowExecutionLifecycleStage
  | UNSPECIFIED
  | ADMITTED
  | ACCEPTED
  | COMPLETED
  deriving DecidableEq, Repr

/-- Workflow task types of `enumsspb.WorkflowTaskType`. -/
inductive enumsspb.WorkflowTaskType
  | UNSPECIFIED
  | NORMAL
  | TRANSIENT
  | SPECULATIVE
  deriving DecidableEq, Repr

/-- Lock priorities of package `workflow`. -/
inductive workflow.LockPriority
  | LockPriorityHigh
  | LockPriorityLow
  deriving DecidableEq, Repr

/-- Go `error` values.  `Unimplemented` is `serviceerror.NewUnimplemented`;
the three `Err...` constructors are the sentinels of package `consts` used by
`Invoke`; the remaining constructors are the kinds a collaborator may
return. -/
inductive Error
  | Unimplemented (message : String)
  | ErrWorkflowCompleted
  | ErrWorkflowExecutionNotFound
  | ErrWorkflowTaskStateInconsistent
  | ShardOwnershipLost
  | ConditionFailed
  | ResourceExhausted
  | Unavailable
  | DeadlineExceeded
  | Canceled
  | Internal (message : String)
  deriving DecidableEq, Repr

/-! ## Messages -/

/-- Go `definition.WorkflowKey`. -/
structure definition.WorkflowKey where
  NamespaceID : String
  WorkflowID : String
  RunID : String
  deriving DecidableEq, Repr

/-- Go `definition.NewWorkflowKey`. -/
def definition.NewWorkflowKey (namespaceID workflowID runID : String) :
    definition.WorkflowKey :=
  { NamespaceID := namespaceID, WorkflowID := workflowID, RunID := runID }

/-- Message `commonpb.WorkflowExecution`. -/
structure commonpb.WorkflowExecution where
  WorkflowId : String
  RunId : String
  deriving DecidableEq, Repr

/-- Message `updatepb.WaitPolicy`. -/
structure updatepb.WaitPolicy where
  LifecycleStage : enumspb.UpdateWorkflowExecutionLifecycleStage
  deriving DecidableEq, Repr

/-- Message `updatepb.Meta`. -/
structure updatepb.Meta where
  UpdateId : String
  Identity : String
  deriving DecidableEq, Repr

/-- Message `updatepb.Request`; the input payload is kept as text. -/
structure updatepb.Request where
  Meta : Option updatepb.Meta
  Input : String
  deriving DecidableEq, Repr

/-- Message `updatepb.Outcome`: a success payload or a failure. -/
inductive updatepb.Outcome
  | Success (payloads : String)
  | Failure (message : String)
  deriving DecidableEq, Repr

/-- Message `updatepb.UpdateRef`. -/
structure updatepb.UpdateRef where
  WorkflowExecution : commonpb.WorkflowExecution
  UpdateId : String
  deriving DecidableEq, Repr

/-- Message `workflowservice.UpdateWorkflowExecutionRequest`.  Message-typed
fields are pointers in Go and may be nil. -/
structure workflowservice.UpdateWorkflowExecutionRequest where
  Namespace : String
  WorkflowExecution : Option commonpb.WorkflowExecution
  FirstExecutionRunId : String
  WaitPolicy : Option updatepb.WaitPolicy
  Request : Option updatepb.Request
  deriving DecidableEq, Repr

/-- Message `workflowservice.UpdateWorkflowExecutionResponse`. -/
structure workflowservice.UpdateWorkflowExecutionResponse where
  UpdateRef : updatepb.UpdateRef
  Outcome : Option updatepb.Outcome
  deriving DecidableEq, Repr

/-- Message `historyservice.UpdateWorkflowExecutionRequest`. -/
structure historyservice.UpdateWorkflowExecutionRequest where
  NamespaceId : String
  Request : Option workflowservice.UpdateWorkflowExecutionRequest
  deriving DecidableEq, Repr

/-- Message `historyservice.UpdateWorkflowExecutionResponse`. -/
structure historyservice.UpdateWorkflowExecutionResponse where
  Response : workflowservice.UpdateWorkflowExecutionResponse
  deriving DecidableEq, Repr

/-- Message `taskqueuepb.TaskQueue`. -/
structure taskqueuepb.TaskQueue where
  Name : String
  Kind : Int
  deriving DecidableEq, Repr

/-- Message `clockspb.VectorClock`. -/
structure clockspb.VectorClock where
  ShardId : Int
  Clock : Int
  ClusterId : Int
  deriving DecidableEq, Repr

/-- Message `matchingservice.AddWorkflowTaskRequest`; the timeout is a
nullable duration in nanoseconds. -/
structure matchingservice.AddWorkflowTaskRequest where
  NamespaceId : String
  Execution : commonpb.WorkflowExecution
  TaskQueue : taskqueuepb.TaskQueue
  ScheduledEventId : Int
  ScheduleToStartTimeout : Option Int
  Clock : clockspb.VectorClock
  deriving DecidableEq, Repr

/-- Message `persistencespb.WorkflowExecutionInfo`, the field `Invoke` reads. -/
structure persistencespb.WorkflowExecutionInfo where
  FirstExecutionRunId : String
  deriving DecidableEq, Repr

/-! ### Nil-safe generated getters -/

/-- Getter `(*historyservice.UpdateWorkflowExecutionRequest).GetRequest`. -/
def historyservice.UpdateWorkflowExecutionRequest.GetRequest
    (req : historyservice.UpdateWorkflowExecutionRequest) :
    Option workflowservice.UpdateWorkflowExecutionRequest :=
  req.Request

/-- Getter `(*workflowservice.UpdateWorkflowExecutionRequest).GetWaitPolicy`. -/
def workflowservice.GetWaitPolicy :
    Option workflowservice.UpdateWorkflowExecutionRequest → Option updatepb.WaitPolicy
  | none => none
  | some r => r.WaitPolicy

/-- Getter `(*updatepb.WaitPolicy).GetLifecycleStage`: the zero value on nil. -/
def updatepb.GetLifecycleStage :
    Option updatepb.WaitPolicy → enumspb.UpdateWorkflowExecutionLifecycleStage
  | none => .UNSPECIFIED
  | some p => p.LifecycleStage

/-- Getter `(*workflowservice.UpdateWorkflowExecutionRequest).GetFirstExecutionRunId`. -/
def workflowservice.GetFirstExecutionRunId :
    Option workflowservice.UpdateWorkflowExecutionRequest → String
  | none => ""
  | some r => r.FirstExecutionRunId

/-- Getter `(*workflowservice.UpdateWorkflowExecutionRequest).GetRequest`. -/
def workflowservice.GetRequest :
    Option workflowservice.UpdateWorkflowExecutionRequest → Option updatepb.Request
  | none => none
  | some r => r.Request

/-- Getter `(*updatepb.Request).GetMeta`. -/
def updatepb.GetMeta : Option updatepb.Request → Option updatepb.Meta
  | none => none
  | some r => r.Meta

/-- Getter `(*updatepb.Meta).GetUpdateId`. -/
def updatepb.GetUpdateId : Option updatepb.Meta → String
  | none => ""
  | some m => m.UpdateId

/-- Getter `(*persistencespb.WorkflowExecutionInfo).GetFirstExecutionRunId`. -/
def persistencespb.GetFirstExecutionRunId :
    Option persistencespb.WorkflowExecutionInfo → String
  | none => ""
  | some i => i.FirstExecutionRunId

/-! ## Collaborators -/

/-- Go `workflow.WorkflowTaskInfo`, the fields `Invoke` reads. -/
structure workflow.WorkflowTaskInfo where
  Type_ : enumsspb.WorkflowTaskType
  TaskQueue : taskqueuepb.TaskQueue
  ScheduledEventID : Int
  deriving DecidableEq, Repr

/-- Interface `workflow.MutableState`, the methods `Invoke` uses.
`TaskQueueScheduleToStartTimeout` keeps the second component of the Go result
(the first is discarded by the caller). -/
structure workflow.MutableState where
  IsWorkflowExecutionRunning : Bool
  GetExecutionInfo : Option persistencespb.WorkflowExecutionInfo
  HasPendingWorkflowTask : Bool
  AddWorkflowTaskScheduledEvent :
    Bool → enumsspb.WorkflowTaskType → Except Error workflow.WorkflowTaskInfo
  TaskQueueScheduleToStartTimeout : String → Option Int
  GetWorkflowKey : definition.WorkflowKey

/-- Object `*update.Update`.  `id` stands for the identity of the object.
`OnMessage` answers `none` for a nil error; `Invoke` always passes it
`workflow.WithEffects(effect.Immediate(ctx), ms)` as event store, so its
answer depends on the message only. -/
structure update.Update where
  id : Nat
  OnMessage : Option updatepb.Request → Option Error
  WaitAccepted : Except Error (Option updatepb.Outcome)
  WaitOutcome : Except Error (Option updatepb.Outcome)

/-- Interface `update.Registry`: `FindOrCreate` answers the update and the
`alreadyExisted` flag, or an error. -/
structure update.Registry where
  FindOrCreate : String → Except Error (update.Update × Bool)

/-- Interface `api.WorkflowContext`.  The release function has no answer; its
invocations are recorded in the call list. -/
structure api.WorkflowContext where
  GetMutableState : workflow.MutableState
  GetWorkflowKey : definition.WorkflowKey
  GetUpdateRegistry : update.Registry

/-- Interface `api.WorkflowConsistencyChecker`.  `Invoke` always passes a nil
request clock and `BypassMutableStateConsistencyPredicate`; the answer depends
on the remaining arguments. -/
structure api.WorkflowConsistencyChecker where
  GetWorkflowContext :
    definition.WorkflowKey → workflow.LockPriority → Except Error api.WorkflowContext

/-- Interface `shard.Context`, the method `addWorkflowTaskToMatching` uses. -/
structure shard.Context where
  NewVectorClock : Except Error clockspb.VectorClock

/-- Interface `matchingservice.MatchingServiceClient`: `AddWorkflowTask`
answers `none` for a nil error (the response is discarded by the caller). -/
structure matchingservice.MatchingServiceClient where
  AddWorkflowTask : matchingservice.AddWorkflowTaskRequest → Option Error

/-! ## Recorded calls -/

/-- One collaborator call made by `Invoke`, with its arguments.
`ReleaseFn retErr` is `weCtx.GetReleaseFn()(retErr)`; `OnMessage`,
`WaitAccepted` and `WaitOutcome` carry the identity of the receiving update;
`MutableStateGetWorkflowKey` is `ms.GetWorkflowKey()` and
`ContextGetWorkflowKey` is `weCtx.GetWorkflowKey()`. -/
inductive Call
  | GetWorkflowContext (key : definition.WorkflowKey) (priority : workflow.LockPriority)
  | ReleaseFn (retErr : Option Error)
  | GetMutableState
  | IsWorkflowExecutionRunning
  | GetExecutionInfo
  | GetUpdateRegistry
  | FindOrCreate (updateID : String)
  | OnMessage (upd : Nat) (msg : Option updatepb.Request)
  | HasPendingWorkflowTask
  | AddWorkflowTaskScheduledEvent (bypassTaskGeneration : Bool)
      (workflowTaskType : enumsspb.WorkflowTaskType)
  | TaskQueueScheduleToStartTimeout (name : String)
  | MutableStateGetWorkflowKey
  | NewVectorClock
  | AddWorkflowTask (request : matchingservice.AddWorkflowTaskRequest)
  | WaitAccepted (upd : Nat)
  | WaitOutcome (upd : Nat)
  | ContextGetWorkflowKey
  deriving DecidableEq, Repr

/-- The method a recorded call belongs to, forgetting the arguments. -/
inductive Method
  | GetWorkflowContext
  | ReleaseFn
  | GetMutableState
  | IsWorkflowExecutionRunning
  | GetExecutionInfo
  | GetUpdateRegistry
  | FindOrCreate
  | OnMessage
  | HasPendingWorkflowTask
  | AddWorkflowTaskScheduledEvent
  | TaskQueueScheduleToStartTimeout
  | MutableStateGetWorkflowKey
  | NewVectorClock
  | AddWorkflowTask
  | WaitAccepted
  | WaitOutcome
  | ContextGetWorkflowKey
  deriving DecidableEq, Repr

/-- Method of a recorded call. -/
def Call.method : Call → Method
  | .GetWorkflowContext _ _ => .GetWorkflowContext
  | .ReleaseFn _ => .ReleaseFn
  | .GetMutableState => .GetMutableState
  | .IsWorkflowExecutionRunning => .IsWorkflowExecutionRunning
  | .GetExecutionInfo => .GetExecutionInfo
  | .GetUpdateRegistry => .GetUpdateRegistry
  | .FindOrCreate _ => .FindOrCreate
  | .OnMessage _ _ => .OnMessage
  | .HasPendingWorkflowTask => .HasPendingWorkflowTask
  | .AddWorkflowTaskScheduledEvent _ _ => .AddWorkflowTaskScheduledEvent
  | .TaskQueueScheduleToStartTimeout _ => .TaskQueueScheduleToStartTimeout
  | .MutableStateGetWorkflowKey => .MutableStateGetWorkflowKey
  | .NewVectorClock => .NewVectorClock
  | .AddWorkflowTask _ => .AddWorkflowTask
  | .WaitAccepted _ => .WaitAccepted
  | .WaitOutcome _ => .WaitOutcome
  | .ContextGetWorkflowKey => .ContextGetWorkflowKey

/-- How a run of `Invoke` ends: a Go return `(resp, retErr)`, or a nil-pointer
panic. -/
inductive Result
  | Return (resp : Option historyservice.UpdateWorkflowExecutionResponse)
      (retErr : Option Error)
  | Panic
  deriving DecidableEq, Repr

/-- A run of `Invoke`: the collaborator calls in the order made, and the
result. -/
structure Run where
  calls : List Call
  result : Result
  deriving DecidableEq, Repr

/-! ## The code -/

/-- Go `addWorkflowTaskToMatching` (api.go, lines 164-195): the calls it makes
and the error it returns (`none` for nil). -/
def addWorkflowTaskToMatching
    (shardCtx : shard.Context)
    (ms : workflow.MutableState)
    (matchingClient : matchingservice.MatchingServiceClient)
    (wt : workflow.WorkflowTaskInfo)
    (nsID : String) : List Call × Option Error :=
  let scheduleToStartTimeout := ms.TaskQueueScheduleToStartTimeout wt.TaskQueue.Name
  let wfKey := ms.GetWorkflowKey
  let calls := [Call.TaskQueueScheduleToStartTimeout wt.TaskQueue.Name,
    Call.MutableStateGetWorkflowKey, Call.NewVectorClock]
  match shardCtx.NewVectorClock with
  | .error err => (calls, some err)
  | .ok clock =>
    let request : matchingservice.AddWorkflowTaskRequest :=
      { NamespaceId := nsID
        Execution := { WorkflowId := wfKey.WorkflowID, RunId := wfKey.RunID }
        TaskQueue := wt.TaskQueue
        ScheduledEventId := wt.ScheduledEventID
        ScheduleToStartTimeout := scheduleToStartTimeout
        Clock := clock }
    match matchingClient.AddWorkflowTask request with
    | some err => (calls ++ [Call.AddWorkflowTask request], some err)
    | none => (calls ++ [Call.AddWorkflowTask request], none)

/-- The type of the local `waitLifecycleStage` closure of `Invoke`: given the
update, the wait call it makes and that call's answer. -/
abbrev WaitLifecycleStage :=
  update.Update → Call × Except Error (Option updatepb.Outcome)

/-- Lines 97-160 of `Invoke`: everything after the `defer` statement, up to
the `return` that ends the run.  The result is the calls made, `resp` and
`retErr`; the deferred release is added by `Invoke`. -/
def Invoke.afterDefer
    (req : historyservice.UpdateWorkflowExecutionRequest)
    (shardCtx : shard.Context)
    (matchingClient : matchingservice.MatchingServiceClient)
    (weCtx : api.WorkflowContext)
    (waitLifecycleStage : WaitLifecycleStage) :
    List Call × Option historyservice.UpdateWorkflowExecutionResponse × Option Error :=
  let ms := weCtx.GetMutableState
  let c1 := [Call.GetMutableState, Call.IsWorkflowExecutionRunning]
  if ms.IsWorkflowExecutionRunning = false then
    (c1, none, some Error.ErrWorkflowCompleted)
  else
  let pin := workflowservice.GetFirstExecutionRunId req.GetRequest
  -- `&&` evaluates its right operand only when the left one holds
  let c2 := if pin ≠ "" then c1 ++ [Call.GetExecutionInfo] else c1
  if pin ≠ "" ∧ persistencespb.GetFirstExecutionRunId ms.GetExecutionInfo ≠ pin then
    (c2, none, some Error.ErrWorkflowExecutionNotFound)
  else
  let updateID := updatepb.GetUpdateId (updatepb.GetMeta (workflowservice.GetRequest req.GetRequest))
  let updateReg := weCtx.GetUpdateRegistry
  let c3 := c2 ++ [Call.GetUpdateRegistry, Call.FindOrCreate updateID]
  match updateReg.FindOrCreate updateID with
  | .error err => (c3, none, some err)
  | .ok (upd, alreadyExisted) =>
  let msg := workflowservice.GetRequest req.GetRequest
  let c4 := c3 ++ [Call.OnMessage upd.id msg]
  match upd.OnMessage msg with
  | some err => (c4, none, some err)
  | none =>
  let createNewWorkflowTask := !ms.HasPendingWorkflowTask && !alreadyExisted
  let c5 := c4 ++ [Call.HasPendingWorkflowTask]
  -- lines 143-160, the statements that follow the `if ... else` statement;
  -- `c7` is the list of calls made before them
  let waitAndRespond (c7 : List Call) :
      List Call × Option historyservice.UpdateWorkflowExecutionResponse × Option Error :=
    let w := waitLifecycleStage upd
    match w.2 with
    | .error err => (c7 ++ [w.1], none, some err)
    | .ok updOutcome =>
      let resp : historyservice.UpdateWorkflowExecutionResponse :=
        { Response :=
            { UpdateRef :=
                { WorkflowExecution :=
                    { WorkflowId := weCtx.GetWorkflowKey.WorkflowID
                      RunId := weCtx.GetWorkflowKey.RunID }
                  UpdateId := updatepb.GetUpdateId
                    (updatepb.GetMeta (workflowservice.GetRequest req.GetRequest)) }
              Outcome := updOutcome } }
      (c7 ++ [w.1, Call.ContextGetWorkflowKey, Call.ContextGetWorkflowKey], some resp, none)
  if createNewWorkflowTask = true then
    let c6 := c5 ++ [Call.AddWorkflowTaskScheduledEvent false .SPECULATIVE]
    match ms.AddWorkflowTaskScheduledEvent false .SPECULATIVE with
    | .error err => (c6, none, some err)
    | .ok wt =>
      if wt.Type_ ≠ .SPECULATIVE then
        (c6, none, some Error.ErrWorkflowTaskStateInconsistent)
      else
        let m := addWorkflowTaskToMatching shardCtx ms matchingClient wt req.NamespaceId
        match m.2 with
        | some err => (c6 ++ [Call.ReleaseFn none] ++ m.1, none, some err)
        | none => waitAndRespond (c6 ++ [Call.ReleaseFn none] ++ m.1)
  else
    waitAndRespond (c5 ++ [Call.ReleaseFn none])

/-- The workflow key `Invoke` builds at lines 85-89.  `req.Request` and
`req.Request.WorkflowExecution` are dereferenced without a nil check, so the
key exists only when both are present. -/
def Invoke.workflowKey (req : historyservice.UpdateWorkflowExecutionRequest) :
    Option definition.WorkflowKey :=
  match req.Request with
  | none => none
  | some r =>
    match r.WorkflowExecution with
    | none => none
    | some we => some (definition.NewWorkflowKey req.NamespaceId we.WorkflowId we.RunId)

/-- Lines 59-79 of `Invoke`: the switch on the wait stage that selects the
`waitLifecycleStage` closure; `none` is the `default` branch, which returns
from `Invoke`. -/
def Invoke.waitLifecycleStage :
    enumspb.UpdateWorkflowExecutionLifecycleStage → Option WaitLifecycleStage
  | .ACCEPTED => some (fun u => (Call.WaitAccepted u.id, u.WaitAccepted))
  | .COMPLETED => some (fun u => (Call.WaitOutcome u.id, u.WaitOutcome))
  | _ => none

/-- Go `Invoke` (api.go, lines 51-161).  The `ctx` argument carries only
cancellation, which reaches `Invoke` as an error answered by a collaborator.
`stageText` is the `%v` rendering of the wait stage, which belongs to the
generated API package. -/
def Invoke
    (req : historyservice.UpdateWorkflowExecutionRequest)
    (shardCtx : shard.Context)
    (workflowConsistencyChecker : api.WorkflowConsistencyChecker)
    (matchingClient : matchingservice.MatchingServiceClient)
    (stageText : enumspb.UpdateWorkflowExecutionLifecycleStage → String) : Run :=
  let waitStage := updatepb.GetLifecycleStage (workflowservice.GetWaitPolicy req.GetRequest)
  match Invoke.waitLifecycleStage waitStage with
  | none =>
    { calls := []
      result := .Return none (some (.Unimplemented (stageText waitStage ++ " is not implemented"))) }
  | some waitLifecycleStage =>
  match Invoke.workflowKey req with
  | none => { calls := [], result := .Panic }
  | some key =>
  let c0 := [Call.GetWorkflowContext key .LockPriorityHigh]
  match workflowConsistencyChecker.GetWorkflowContext key .LockPriorityHigh with
  | .error err => { calls := c0, result := .Return none (some err) }
  | .ok weCtx =>
    -- `defer func() { weCtx.GetReleaseFn()(retErr) }()`
    let body := Invoke.afterDefer req shardCtx matchingClient weCtx waitLifecycleStage
    { calls := c0 ++ body.1 ++ [Call.ReleaseFn body.2.2]
      result := .Return body.2.1 body.2.2 }

/-- The wait stage of a request, as `Invoke` reads it at line 60. -/
def waitStageOf (req : historyservice.UpdateWorkflowExecutionRequest) :
    enumspb.UpdateWorkflowExecutionLifecycleStage :=
  updatepb.GetLifecycleStage (workflowservice.GetWaitPolicy req.GetRequest)

/-- The run-id pin of a request, as `Invoke` reads it at line 102. -/
def pinOf (req : historyservice.UpdateWorkflowExecutionRequest) : String :=
  workflowservice.GetFirstExecutionRunId req.GetRequest

/-- The update id of a request, as `Invoke` reads it at lines 106 and 154. -/
def updateIDOf (req : historyservice.UpdateWorkflowExecutionRequest) : String :=
  updatepb.GetUpdateId (updatepb.GetMeta (workflowservice.GetRequest req.GetRequest))

/-- The update message of a request, as `Invoke` passes it to `OnMessage`. -/
def messageOf (req : historyservice.UpdateWorkflowExecutionRequest) :
    Option updatepb.Request :=
  workflowservice.GetRequest req.GetRequest

/-! ## Concrete collaborators -/

/-- A request for update `u1` on run `run-req` of workflow `wf`. -/
def sample.req (stage : Option enumspb.UpdateWorkflowExecutionLifecycleStage)
    (pin : String) : historyservice.UpdateWorkflowExecutionRequest :=
  { NamespaceId := "ns"
    Request := some
      { Namespace := "default"
        WorkflowExecution := some { WorkflowId := "wf", RunId := "run-req" }
        FirstExecutionRunId := pin
        WaitPolicy := stage.map fun s => { LifecycleStage := s }
        Request := some { Meta := some { UpdateId := "u1", Identity := "me" }, Input := "in" } } }

/-- The workflow task the sample mutable state schedules. -/
def sample.wt (t : enumsspb.WorkflowTaskType) : workflow.WorkflowTaskInfo :=
  { Type_ := t, TaskQueue := { Name := "tq", Kind := 1 }, ScheduledEventID := 5 }

/-- A mutable state of run `run-ms` whose first run is `first`. -/
def sample.ms (running pending : Bool) (t : enumsspb.WorkflowTaskType) :
    workflow.MutableState :=
  { IsWorkflowExecutionRunning := running
    GetExecutionInfo := some { FirstExecutionRunId := "first" }
    HasPendingWorkflowTask := pending
    AddWorkflowTaskScheduledEvent := fun _ _ => .ok (sample.wt t)
    TaskQueueScheduleToStartTimeout := fun name => if name = "tq" then some 10 else none
    GetWorkflowKey := { NamespaceID := "ns", WorkflowID := "wf", RunID := "run-ms" } }

/-- An update that is accepted without outcome and completes with `done`. -/
def sample.upd : update.Update :=
  { id := 7
    OnMessage := fun _ => none
    WaitAccepted := .ok none
    WaitOutcome := .ok (some (.Success "done")) }

/-- A workflow context of run `run-ctx`. -/
def sample.weCtx (running pending existed : Bool) (t : enumsspb.WorkflowTaskType) :
    api.WorkflowContext :=
  { GetMutableState := sample.ms running pending t
    GetWorkflowKey := { NamespaceID := "ns", WorkflowID := "wf", RunID := "run-ctx" }
    GetUpdateRegistry := { FindOrCreate := fun _ => .ok (sample.upd, existed) } }

/-- A consistency checker that always hands out the sample context. -/
def sample.checker (running pending existed : Bool) (t : enumsspb.WorkflowTaskType) :
    api.WorkflowConsistencyChecker :=
  { GetWorkflowContext := fun _ _ => .ok (sample.weCtx running pending existed t) }

/-- A shard context whose clock is at 42, or whose clock fails. -/
def sample.shardCtx (ok : Bool) : shard.Context :=
  { NewVectorClock :=
      if ok then .ok { ShardId := 1, Clock := 42, ClusterId := 0 } else .error .ShardOwnershipLost }

/-- A matching client that accepts every task. -/
def sample.matchingClient : matchingservice.MatchingServiceClient :=
  { AddWorkflowTask := fun _ => none }

/-- A rendering of the wait stages. -/
def sample.stageText : enumspb.UpdateWorkflowExecutionLifecycleStage → String
  | .UNSPECIFIED => "Unspecified"
  | .ADMITTED => "Admitted"
  | .ACCEPTED => "Accepted"
  | .COMPLETED => "Completed"

/-- An update that already exists and rejects the message it is given. -/
def sample.rejectingUpd : update.Update :=
  { id := 8
    OnMessage := fun _ => some (.Internal "rejected")
    WaitAccepted := .ok none
    WaitOutcome := .ok (some (.Success "done")) }

/-- A workflow context whose registry answers the rejecting update as already
existing. -/
def sample.rejectingWeCtx : api.WorkflowContext :=
  { GetMutableState := sample.ms true false .SPECULATIVE
    GetWorkflowKey := { NamespaceID := "ns", WorkflowID := "wf", RunID := "run-ctx" }
    GetUpdateRegistry := { FindOrCreate := fun _ => .ok (sample.rejectingUpd, true) } }

/-- A consistency checker that hands out the context of the rejecting
update. -/
def sample.rejectingChecker : api.WorkflowConsistencyChecker :=
  { GetWorkflowContext := fun _ _ => .ok sample.rejectingWeCtx }

/-- The key `Invoke` builds for the sample request. -/
def sample.key : definition.WorkflowKey :=
  { NamespaceID := "ns", WorkflowID := "wf", RunID := "run-req" }

/-! ## Paths through `Invoke` -/

/-- Calls made up to and including the pin check at line 102. -/
def callsToPin (req : historyservice.UpdateWorkflowExecutionRequest) : List Call :=
  [Call.GetMutableState, Call.IsWorkflowExecutionRunning] ++
    (if pinOf req ≠ "" then [Call.GetExecutionInfo] else [])

/-- Calls made up to and including `FindOrCreate` at line 108. -/
def callsToFind (req : historyservice.UpdateWorkflowExecutionRequest) : List Call :=
  callsToPin req ++ [Call.GetUpdateRegistry, Call.FindOrCreate (updateIDOf req)]

/-- Calls made up to and including `HasPendingWorkflowTask` at line 119. -/
def callsToPending (req : historyservice.UpdateWorkflowExecutionRequest)
    (upd : update.Update) : List Call :=
  callsToFind req ++ [Call.OnMessage upd.id (messageOf req), Call.HasPendingWorkflowTask]

/-- Calls made up to and including `NewVectorClock` at line 174, on the branch
that schedules workflow task `wt`. -/
def callsToClock (req : historyservice.UpdateWorkflowExecutionRequest)
    (upd : update.Update) (wt : workflow.WorkflowTaskInfo) : List Call :=
  callsToPending req upd ++
    [Call.AddWorkflowTaskScheduledEvent false .SPECULATIVE, Call.ReleaseFn none,
      Call.TaskQueueScheduleToStartTimeout wt.TaskQueue.Name,
      Call.MutableStateGetWorkflowKey, Call.NewVectorClock]

/-- The request `addWorkflowTaskToMatching` builds at lines 179-189. -/
def matchingRequest (req : historyservice.UpdateWorkflowExecutionRequest)
    (ms : workflow.MutableState) (wt : workflow.WorkflowTaskInfo)
    (clock : clockspb.VectorClock) : matchingservice.AddWorkflowTaskRequest :=
  { NamespaceId := req.NamespaceId
    Execution := { WorkflowId := ms.GetWorkflowKey.WorkflowID, RunId := ms.GetWorkflowKey.RunID }
    TaskQueue := wt.TaskQueue
    ScheduledEventId := wt.ScheduledEventID
    ScheduleToStartTimeout := ms.TaskQueueScheduleToStartTimeout wt.TaskQueue.Name
    Clock := clock }

/-- The response `Invoke` builds at lines 147-158. -/
def responseOf (req : historyservice.UpdateWorkflowExecutionRequest)
    (weCtx : api.WorkflowContext) (updOutcome : Option updatepb.Outcome) :
    historyservice.UpdateWorkflowExecutionResponse :=
  { Response :=
      { UpdateRef :=
          { WorkflowExecution :=
              { WorkflowId := weCtx.GetWorkflowKey.WorkflowID
                RunId := weCtx.GetWorkflowKey.RunID }
            UpdateId := updateIDOf req }
        Outcome := updOutcome } }

/-- The workflow is running, the pin check passes, `FindOrCreate` answers
`(upd, alreadyExisted)` and `OnMessage` succeeds: the run reaches line 119. -/
def MessageApplied (req : historyservice.UpdateWorkflowExecutionRequest)
    (weCtx : api.WorkflowContext) (upd : update.Update) (alreadyExisted : Bool) : Prop :=
  weCtx.GetMutableState.IsWorkflowExecutionRunning = true ∧
  (pinOf req = "" ∨
    persistencespb.GetFirstExecutionRunId weCtx.GetMutableState.GetExecutionInfo = pinOf req) ∧
  weCtx.GetUpdateRegistry.FindOrCreate (updateIDOf req) = .ok (upd, alreadyExisted) ∧
  upd.OnMessage (messageOf req) = none

/-- The run is at the wait step (line 143) having made the calls `calls`
since the `defer`: either no task was scheduled, or a speculative task was
scheduled and handed to matching. -/
inductive AtWait (req : historyservice.UpdateWorkflowExecutionRequest)
    (shardCtx : shard.Context) (matchingClient : matchingservice.MatchingServiceClient)
    (weCtx : api.WorkflowContext) (upd : update.Update) (alreadyExisted : Bool) :
    List Call → Prop
  | notScheduled
      (hno : weCtx.GetMutableState.HasPendingWorkflowTask = true ∨ alreadyExisted = true) :
      AtWait req shardCtx matchingClient weCtx upd alreadyExisted
        (callsToPending req upd ++ [Call.ReleaseFn none])
  | scheduled (wt : workflow.WorkflowTaskInfo) (clock : clockspb.VectorClock)
      (hpending : weCtx.GetMutableState.HasPendingWorkflowTask = false)
      (hnew : alreadyExisted = false)
      (hwt : weCtx.GetMutableState.AddWorkflowTaskScheduledEvent false .SPECULATIVE = .ok wt)
      (hspec : wt.Type_ = .SPECULATIVE)
      (hclock : shardCtx.NewVectorClock = .ok clock)
      (hadd : matchingClient.AddWorkflowTask
        (matchingRequest req weCtx.GetMutableState wt clock) = none) :
      AtWait req shardCtx matchingClient weCtx upd alreadyExisted
        (callsToClock req upd wt ++
          [Call.AddWorkflowTask (matchingRequest req weCtx.GetMutableState wt clock)])

/-- The six ways through lines 119-160 of `Invoke`, for a run in which
`FindOrCreate` answered `(upd, alreadyExisted)` and `OnMessage` succeeded:
the answers that select each way and the calls, response and error it
produces. -/
inductive ScheduleWaitPath (req : historyservice.UpdateWorkflowExecutionRequest)
    (shardCtx : shard.Context) (matchingClient : matchingservice.MatchingServiceClient)
    (weCtx : api.WorkflowContext) (w : WaitLifecycleStage)
    (upd : update.Update) (alreadyExisted : Bool) :
    List Call × Option historyservice.UpdateWorkflowExecutionResponse × Option Error → Prop
  | scheduleFailed (err : Error)
      (hpending : weCtx.GetMutableState.HasPendingWorkflowTask = false)
      (hnew : alreadyExisted = false)
      (hwt : weCtx.GetMutableState.AddWorkflowTaskScheduledEvent false .SPECULATIVE
        = .error err) :
      ScheduleWaitPath req shardCtx matchingClient weCtx w upd alreadyExisted
        (callsToPending req upd ++ [Call.AddWorkflowTaskScheduledEvent false .SPECULATIVE],
          none, some err)
  | notSpeculative (wt : workflow.WorkflowTaskInfo)
      (hpending : weCtx.GetMutableState.HasPendingWorkflowTask = false)
      (hnew : alreadyExisted = false)
      (hwt : weCtx.GetMutableState.AddWorkflowTaskScheduledEvent false .SPECULATIVE = .ok wt)
      (hspec : wt.Type_ ≠ .SPECULATIVE) :
      ScheduleWaitPath req shardCtx matchingClient weCtx w upd alreadyExisted
        (callsToPending req upd ++ [Call.AddWorkflowTaskScheduledEvent false .SPECULATIVE],
          none, some .ErrWorkflowTaskStateInconsistent)
  | clockFailed (wt : workflow.WorkflowTaskInfo) (err : Error)
      (hpending : weCtx.GetMutableState.HasPendingWorkflowTask = false)
      (hnew : alreadyExisted = false)
      (hwt : weCtx.GetMutableState.AddWorkflowTaskScheduledEvent false .SPECULATIVE = .ok wt)
      (hspec : wt.Type_ = .SPECULATIVE)
      (hclock : shardCtx.NewVectorClock = .error err) :
      ScheduleWaitPath req shardCtx matchingClient weCtx w upd alreadyExisted
        (callsToClock req upd wt, none, some err)
  | matchingFailed (wt : workflow.WorkflowTaskInfo)
      (clock : clockspb.VectorClock) (err : Error)
      (hpending : weCtx.GetMutableState.HasPendingWorkflowTask = false)
      (hnew : alreadyExisted = false)
      (hwt : weCtx.GetMutableState.AddWorkflowTaskScheduledEvent false .SPECULATIVE = .ok wt)
      (hspec : wt.Type_ = .SPECULATIVE)
      (hclock : shardCtx.NewVectorClock = .ok clock)
      (hadd : matchingClient.AddWorkflowTask
        (matchingRequest req weCtx.GetMutableState wt clock) = some err) :
      ScheduleWaitPath req shardCtx matchingClient weCtx w upd alreadyExisted
        (callsToClock req upd wt ++
          [Call.AddWorkflowTask (matchingRequest req weCtx.GetMutableState wt clock)],
          none, some err)
  | waitFailed (calls : List Call) (err : Error)
      (hat : AtWait req shardCtx matchingClient weCtx upd alreadyExisted calls)
      (hwait : (w upd).2 = .error err) :
      ScheduleWaitPath req shardCtx matchingClient weCtx w upd alreadyExisted
        (calls ++ [(w upd).1], none, some err)
  | succeeded (calls : List Call) (updOutcome : Option updatepb.Outcome)
      (hat : AtWait req shardCtx matchingClient weCtx upd alreadyExisted calls)
      (hwait : (w upd).2 = .ok updOutcome) :
      ScheduleWaitPath req shardCtx matchingClient weCtx w upd alreadyExisted
        (calls ++ [(w upd).1, Call.ContextGetWorkflowKey, Call.ContextGetWorkflowKey],
          some (responseOf req weCtx updOutcome), none)

/-- The ways through lines 97-160 of `Invoke`: the four early returns before
line 119, each with the answers that select it and what it produces, and the
runs that reach line 119. -/
inductive AfterDeferPath (req : historyservice.UpdateWorkflowExecutionRequest)
    (shardCtx : shard.Context) (matchingClient : matchingservice.MatchingServiceClient)
    (weCtx : api.WorkflowContext) (w : WaitLifecycleStage) :
    List Call × Option historyservice.UpdateWorkflowExecutionResponse × Option Error → Prop
  | notRunning
      (hrun : weCtx.GetMutableState.IsWorkflowExecutionRunning = false) :
      AfterDeferPath req shardCtx matchingClient weCtx w
        ([Call.GetMutableState, Call.IsWorkflowExecutionRunning], none,
          some .ErrWorkflowCompleted)
  | pinMismatch
      (hrun : weCtx.GetMutableState.IsWorkflowExecutionRunning = true)
      (hpin : pinOf req ≠ "")
      (hfirst : persistencespb.GetFirstExecutionRunId
        weCtx.GetMutableState.GetExecutionInfo ≠ pinOf req) :
      AfterDeferPath req shardCtx matchingClient weCtx w
        ([Call.GetMutableState, Call.IsWorkflowExecutionRunning, Call.GetExecutionInfo], none,
          some .ErrWorkflowExecutionNotFound)
  | findFailed (err : Error)
      (hrun : weCtx.GetMutableState.IsWorkflowExecutionRunning = true)
      (hpin : pinOf req = "" ∨ persistencespb.GetFirstExecutionRunId
        weCtx.GetMutableState.GetExecutionInfo = pinOf req)
      (hfind : weCtx.GetUpdateRegistry.FindOrCreate (updateIDOf req) = .error err) :
      AfterDeferPath req shardCtx matchingClient weCtx w (callsToFind req, none, some err)
  | messageFailed (upd : update.Update) (alreadyExisted : Bool) (err : Error)
      (hrun : weCtx.GetMutableState.IsWorkflowExecutionRunning = true)
      (hpin : pinOf req = "" ∨ persistencespb.GetFirstExecutionRunId
        weCtx.GetMutableState.GetExecutionInfo = pinOf req)
      (hfind : weCtx.GetUpdateRegistry.FindOrCreate (updateIDOf req) = .ok (upd, alreadyExisted))
      (hmsg : upd.OnMessage (messageOf req) = some err) :
      AfterDeferPath req shardCtx matchingClient weCtx w
        (callsToFind req ++ [Call.OnMessage upd.id (messageOf req)], none, some err)
  | applied (upd : update.Update) (alreadyExisted : Bool)
      (body : List Call × Option historyservice.UpdateWorkflowExecutionResponse × Option Error)
      (happlied : MessageApplied req weCtx upd alreadyExisted)
      (hrest : ScheduleWaitPath req shardCtx matchingClient weCtx w upd alreadyExisted body) :
      AfterDeferPath req shardCtx matchingClient weCtx w body

/-- The four ways through `Invoke`: the `default` branch of the switch, a nil
dereference while building the workflow key, a failed `GetWorkflowContext`,
and a run of the code after the `defer` followed by the deferred release. -/
inductive InvokePath (req : historyservice.UpdateWorkflowExecutionRequest)
    (shardCtx : shard.Context) (checker : api.WorkflowConsistencyChecker)
    (matchingClient : matchingservice.MatchingServiceClient)
    (stageText : enumspb.UpdateWorkflowExecutionLifecycleStage → String) : Run → Prop
  | unsupportedStage
      (hw : Invoke.waitLifecycleStage (waitStageOf req) = none) :
      InvokePath req shardCtx checker matchingClient stageText
        { calls := []
          result := .Return none
            (some (.Unimplemented (stageText (waitStageOf req) ++ " is not implemented"))) }
  | nilDereference (w : WaitLifecycleStage)
      (hw : Invoke.waitLifecycleStage (waitStageOf req) = some w)
      (hkey : Invoke.workflowKey req = none) :
      InvokePath req shardCtx checker matchingClient stageText
        { calls := [], result := .Panic }
  | contextFailed (w : WaitLifecycleStage) (key : definition.WorkflowKey) (err : Error)
      (hw : Invoke.waitLifecycleStage (waitStageOf req) = some w)
      (hkey : Invoke.workflowKey req = some key)
      (hctx : checker.GetWorkflowContext key .LockPriorityHigh = .error err) :
      InvokePath req shardCtx checker matchingClient stageText
        { calls := [Call.GetWorkflowContext key .LockPriorityHigh]
          result := .Return none (some err) }
  | withContext (w : WaitLifecycleStage) (key : definition.WorkflowKey)
      (weCtx : api.WorkflowContext)
      (body : List Call × Option historyservice.UpdateWorkflowExecutionResponse × Option Error)
      (hw : Invoke.waitLifecycleStage (waitStageOf req) = some w)
      (hkey : Invoke.workflowKey req = some key)
      (hctx : checker.GetWorkflowContext key .LockPriorityHigh = .ok weCtx)
      (hbody : AfterDeferPath req shardCtx matchingClient weCtx w body) :
      InvokePath req shardCtx checker matchingClient stageText
        { calls := [Call.GetWorkflowContext key .LockPriorityHigh] ++ body.1
            ++ [Call.ReleaseFn body.2.2]
          result := .Return body.2.1 body.2.2 }

end updateworkflow

/-!
# Task refresher

Shallow embedding of `service/history/workflow/task_refresher.go`.

The refresher reads and writes a mutable state through the `MutableState`
interface, the task generator, the timer sequence and the events cache, none
of which is implemented in this file of the repository.  Their state is an
explicit value of a type `σ` that is passed from call to call: a getter is a
function of the state, a call that can fail or write answers together with
the state it leaves.  Every embedded function returns a `Run`: the error it
returns, the state it leaves and the log of the collaborator calls it made,
each with the error it answered.
-/

namespace workflow

/-! ## Constants and messages -/

/-- Modelled from the spec: the event id that stands for no event (the ids of
events start at 1); the constant `common.EmptyEventID` is declared outside the
files of the repository given here. -/
def common.EmptyEventID : Int := 0

/-- Modelled from the spec: the timer task status in which no timer task is
recorded as generated ("zero means all must be regenerated"); the constant
`TimerTaskStatusNone` is declared with the timer sequence. -/
def TimerTaskStatusNone : Int := 0

/-- Workflow execution statuses of `enumspb.WorkflowExecutionStatus`. -/
inductive enumspb.WorkflowExecutionStatus
  | UNSPECIFIED
  | RUNNING
  | COMPLETED
  | FAILED
  | CANCELED
  | TERMINATED
  | CONTINUED_AS_NEW
  | TIMED_OUT
  deriving DecidableEq, Repr

/-- Message `historypb.WorkflowExecutionStartedEventAttributes`, the field the
refresher reads: a nullable duration in nanoseconds. -/
structure historypb.WorkflowExecutionStartedEventAttributes where
  FirstWorkflowTaskBackoff : Option Int
  deriving DecidableEq, Repr

/-- Message `historypb.HistoryEvent`. -/
structure historypb.HistoryEvent where
  EventId : Int
  Version : Int
  WorkflowExecutionStartedEventAttributes :
    Option historypb.WorkflowExecutionStartedEventAttributes
  deriving DecidableEq, Repr

/-- Getter `(*historypb.HistoryEvent).GetWorkflowExecutionStartedEventAttributes`. -/
def historypb.HistoryEvent.GetWorkflowExecutionStartedEventAttributes
    (e : historypb.HistoryEvent) : Option historypb.WorkflowExecutionStartedEventAttributes :=
  e.WorkflowExecutionStartedEventAttributes

/-- Getter `(*historypb.WorkflowExecutionStartedEventAttributes).GetFirstWorkflowTaskBackoff`. -/
def historypb.GetFirstWorkflowTaskBackoff :
    Option historypb.WorkflowExecutionStartedEventAttributes → Option Int
  | none => none
  | some a => a.FirstWorkflowTaskBackoff

/-- Go `timestamp.DurationValue`: the duration pointed to, zero for nil. -/
def timestamp.DurationValue : Option Int → Int
  | none => 0
  | some d => d

/-- Message `persistencespb.WorkflowExecutionInfo`, the fields the refresher
reads. -/
structure persistencespb.WorkflowExecutionInfo where
  NamespaceId : String
  WorkflowId : String
  deriving DecidableEq, Repr

/-- Message `persistencespb.WorkflowExecutionState`. -/
structure persistencespb.WorkflowExecutionState where
  RunId : String
  Status : enumspb.WorkflowExecutionStatus
  deriving DecidableEq, Repr

/-- Message `persistencespb.ActivityInfo`, the fields the refresher reads or
writes. -/
structure persistencespb.ActivityInfo where
  Version : Int
  ScheduledEventBatchId : Int
  ScheduledEventId : Int
  StartedEventId : Int
  ActivityId : String
  TimerTaskStatus : Int
  deriving DecidableEq, Repr

/-- Message `persistencespb.TimerInfo`. -/
structure persistencespb.TimerInfo where
  Version : Int
  StartedEventId : Int
  TimerId : String
  TaskStatus : Int
  deriving DecidableEq, Repr

/-- Message `persistencespb.ChildExecutionInfo`. -/
structure persistencespb.ChildExecutionInfo where
  Version : Int
  InitiatedEventBatchId : Int
  InitiatedEventId : Int
  StartedEventId : Int
  deriving DecidableEq, Repr

/-- Message `persistencespb.RequestCancelInfo`. -/
structure persistencespb.RequestCancelInfo where
  Version : Int
  InitiatedEventBatchId : Int
  InitiatedEventId : Int
  deriving DecidableEq, Repr

/-- Message `persistencespb.SignalInfo`. -/
structure persistencespb.SignalInfo where
  Version : Int
  InitiatedEventBatchId : Int
  InitiatedEventId : Int
  deriving DecidableEq, Repr

/-- Go `workflow.WorkflowTaskInfo`, the fields the refresher reads. -/
structure WorkflowTaskInfo where
  Type_ : updateworkflow.enumsspb.WorkflowTaskType
  ScheduledEventID : Int
  StartedEventID : Int
  deriving DecidableEq, Repr

/-- Go `events.EventKey`. -/
structure events.EventKey where
  NamespaceID : String
  WorkflowID : String
  RunID : String
  EventID : Int
  Version : Int
  deriving DecidableEq, Repr

/-! ## Collaborators -/

/-- Interface `MutableState`, the methods the refresher uses, over a state
`σ`.  The map-valued getters answer the entries in the order in which the
`for ... range` loop of the caller visits them. -/
structure MutableState (σ : Type) where
  GetStartEvent : σ → Except updateworkflow.Error historypb.HistoryEvent × σ
  GetCompletionEvent : σ → Except updateworkflow.Error historypb.HistoryEvent × σ
  HadOrHasWorkflowTask : σ → Bool
  GetExecutionState : σ → persistencespb.WorkflowExecutionState
  GetExecutionInfo : σ → persistencespb.WorkflowExecutionInfo
  HasPendingWorkflowTask : σ → Bool
  GetPendingWorkflowTask : σ → Option WorkflowTaskInfo
  GetPendingActivityInfos : σ → List persistencespb.ActivityInfo
  GetPendingTimerInfos : σ → List persistencespb.TimerInfo
  GetPendingChildExecutionInfos : σ → List persistencespb.ChildExecutionInfo
  GetPendingRequestCancelExternalInfos : σ → List persistencespb.RequestCancelInfo
  GetPendingSignalExternalInfos : σ → List persistencespb.SignalInfo
  GetCurrentBranchToken : σ → Except updateworkflow.Error (List Nat)
  UpdateActivity : persistencespb.ActivityInfo → σ → Option updateworkflow.Error × σ
  UpdateUserTimer : persistencespb.TimerInfo → σ → Option updateworkflow.Error × σ

/-- Interface `TaskGenerator`, the methods the refresher uses; each answers
`none` for a nil error. -/
structure TaskGenerator (σ : Type) where
  GenerateWorkflowStartTasks : historypb.HistoryEvent → σ → Option updateworkflow.Error × σ
  GenerateDelayedWorkflowTasks : historypb.HistoryEvent → σ → Option updateworkflow.Error × σ
  GenerateWorkflowCloseTasks :
    historypb.HistoryEvent → Bool → σ → Option updateworkflow.Error × σ
  GenerateRecordWorkflowStartedTasks :
    historypb.HistoryEvent → σ → Option updateworkflow.Error × σ
  GenerateStartWorkflowTaskTasks : Int → σ → Option updateworkflow.Error × σ
  GenerateScheduleWorkflowTaskTasks : Int → Bool → σ → Option updateworkflow.Error × σ
  GenerateActivityTasks : historypb.HistoryEvent → σ → Option updateworkflow.Error × σ
  GenerateChildWorkflowTasks : historypb.HistoryEvent → σ → Option updateworkflow.Error × σ
  GenerateRequestCancelExternalTasks :
    historypb.HistoryEvent → σ → Option updateworkflow.Error × σ
  GenerateSignalExternalTasks : historypb.HistoryEvent → σ → Option updateworkflow.Error × σ
  GenerateUpsertVisibilityTask : σ → Option updateworkflow.Error × σ

/-- Interface `TimerSequence`, the methods the refresher uses. -/
structure TimerSequence (σ : Type) where
  CreateNextActivityTimer : σ → Except updateworkflow.Error Bool × σ
  CreateNextUserTimer : σ → Except updateworkflow.Error Bool × σ

/-- Interface `events.Cache`: `GetEvent(ctx, key, firstEventID, branchToken)`. -/
structure events.Cache (σ : Type) where
  GetEvent : events.EventKey → Int → List Nat → σ →
    Except updateworkflow.Error historypb.HistoryEvent × σ

/-- The package-level constructors the refresher calls:
`taskGeneratorProvider.NewTaskGenerator(shard, mutableState)` and
`NewTimerSequence(mutableState)`, for the mutable state whose state is `σ`. -/
structure Constructors (σ : Type) where
  NewTaskGenerator : Nat → TaskGenerator σ
  NewTimerSequence : TimerSequence σ

/-- Go `TaskRefresherImpl`.  The shard, the config, the namespace registry and
the logger are kept as the identities of the objects. -/
structure TaskRefresherImpl (σ : Type) where
  shard : Nat
  config : Nat
  namespaceRegistry : Nat
  eventsCache : events.Cache σ
  logger : Nat

/-! ## Recorded calls -/

/-- One collaborator call made by the refresher, with its arguments. -/
inductive Call
  | NewTaskGenerator (shard : Nat)
  | NewTimerSequence
  | GetStartEvent
  | GetCompletionEvent
  | HadOrHasWorkflowTask
  | GetExecutionState
  | GetExecutionInfo
  | HasPendingWorkflowTask
  | GetPendingWorkflowTask
  | GetPendingActivityInfos
  | GetPendingTimerInfos
  | GetPendingChildExecutionInfos
  | GetPendingRequestCancelExternalInfos
  | GetPendingSignalExternalInfos
  | GetCurrentBranchToken
  | UpdateActivity (activityInfo : persistencespb.ActivityInfo)
  | UpdateUserTimer (timerInfo : persistencespb.TimerInfo)
  | GetEvent (key : events.EventKey) (firstEventID : Int) (branchToken : List Nat)
  | GenerateWorkflowStartTasks (startEvent : historypb.HistoryEvent)
  | GenerateDelayedWorkflowTasks (startEvent : historypb.HistoryEvent)
  | GenerateWorkflowCloseTasks (closeEvent : historypb.HistoryEvent) (deleteAfterClose : Bool)
  | GenerateRecordWorkflowStartedTasks (startEvent : historypb.HistoryEvent)
  | GenerateStartWorkflowTaskTasks (workflowTaskScheduledEventID : Int)
  | GenerateScheduleWorkflowTaskTasks (workflowTaskScheduledEventID : Int)
      (generateTimeoutTaskOnly : Bool)
  | GenerateActivityTasks (event : historypb.HistoryEvent)
  | GenerateChildWorkflowTasks (event : historypb.HistoryEvent)
  | GenerateRequestCancelExternalTasks (event : historypb.HistoryEvent)
  | GenerateSignalExternalTasks (event : historypb.HistoryEvent)
  | GenerateUpsertVisibilityTask
  | CreateNextActivityTimer
  | CreateNextUserTimer
  deriving DecidableEq, Repr

/-- A logged call: the call and the error it answered (`none` for nil). -/
structure Entry where
  call : Call
  err : Option updateworkflow.Error
  deriving DecidableEq, Repr

/-- What an embedded function of the refresher produces: the error it returns
(`none` for nil), the state it leaves, and the calls it made, in order. -/
structure Run (σ : Type) where
  err : Option updateworkflow.Error
  state : σ
  log : List Entry

/-- A run that returns nil without calling anything. -/
def Run.done {σ : Type} (s : σ) : Run σ :=
  { err := none, state := s, log := [] }

/-- A run that returns `err` without calling anything. -/
def Run.fail {σ : Type} (err : updateworkflow.Error) (s : σ) : Run σ :=
  { err := some err, state := s, log := [] }

/-- The run `r` preceded by the logged calls `entries`. -/
def Run.after {σ : Type} (entries : List Entry) (r : Run σ) : Run σ :=
  { r with log := entries ++ r.log }

/-- A getter call `c` followed by `rest`. -/
def Run.read {σ : Type} (c : Call) (rest : Run σ) : Run σ :=
  rest.after [{ call := c, err := none }]

/-- The statement `if err := c(...); err != nil { return err }` followed by
`rest`: `answer` is what the call answers in the current state. -/
def Run.call {σ : Type} (c : Call) (answer : Option updateworkflow.Error × σ)
    (rest : σ → Run σ) : Run σ :=
  match answer with
  | (some err, s) => { err := some err, state := s, log := [{ call := c, err := some err }] }
  | (none, s) => (rest s).after [{ call := c, err := none }]

/-- The statements `v, err := c(...); if err != nil { return err }` followed
by `rest`, which uses the value. -/
def Run.fetch {σ α : Type} (c : Call) (answer : Except updateworkflow.Error α × σ)
    (rest : α → σ → Run σ) : Run σ :=
  match answer with
  | (.error err, s) => { err := some err, state := s, log := [{ call := c, err := some err }] }
  | (.ok v, s) => (rest v s).after [{ call := c, err := none }]

/-- The statement `if err := stage(...); err != nil { return err }` followed
by `rest`, for a stage whose run is `r`. -/
def Run.andThen {σ : Type} (r : Run σ) (rest : σ → Run σ) : Run σ :=
  match r.err with
  | some _ => r
  | none => (rest r.state).after r.log

/-- The statement `for _, x := range xs { body }`: the body runs for each
element in order; a `continue` ends the body with nil, and a `return err` in
the body ends the loop and the function with that error. -/
def Run.forEach {σ α : Type} (body : α → σ → Run σ) : List α → σ → Run σ
  | [], s => Run.done s
  | x :: xs, s => (body x s).andThen (Run.forEach body xs)

/-! ## The code -/

/-- Go `refreshTasksForWorkflowStart` (task_refresher.go, lines 158-185). -/
def TaskRefresherImpl.refreshTasksForWorkflowStart {σ : Type} (_r : TaskRefresherImpl σ)
    (mutableState : MutableState σ) (taskGenerator : TaskGenerator σ) (s : σ) : Run σ :=
  Run.fetch .GetStartEvent (mutableState.GetStartEvent s) fun startEvent s =>
  Run.call (.GenerateWorkflowStartTasks startEvent)
    (taskGenerator.GenerateWorkflowStartTasks startEvent s) fun s =>
  let startAttr := startEvent.GetWorkflowExecutionStartedEventAttributes
  Run.read .HadOrHasWorkflowTask <|
  if (!mutableState.HadOrHasWorkflowTask s &&
      decide (timestamp.DurationValue (historypb.GetFirstWorkflowTaskBackoff startAttr) > 0))
      = true then
    Run.call (.GenerateDelayedWorkflowTasks startEvent)
      (taskGenerator.GenerateDelayedWorkflowTasks startEvent s) fun s =>
    Run.done s
  else
    Run.done s

/-- Go `refreshTasksForWorkflowClose` (lines 187-208). -/
def TaskRefresherImpl.refreshTasksForWorkflowClose {σ : Type} (_r : TaskRefresherImpl σ)
    (mutableState : MutableState σ) (taskGenerator : TaskGenerator σ) (s : σ) : Run σ :=
  let executionState := mutableState.GetExecutionState s
  Run.read .GetExecutionState <|
  if executionState.Status ≠ .RUNNING then
    Run.fetch .GetCompletionEvent (mutableState.GetCompletionEvent s) fun closeEvent s =>
    Run.call (.GenerateWorkflowCloseTasks closeEvent false)
      (taskGenerator.GenerateWorkflowCloseTasks closeEvent false s) fun s =>
    Run.done s
  else
    Run.done s

/-- Go `refreshTasksForRecordWorkflowStarted` (lines 210-230). -/
def TaskRefresherImpl.refreshTasksForRecordWorkflowStarted {σ : Type}
    (_r : TaskRefresherImpl σ)
    (mutableState : MutableState σ) (taskGenerator : TaskGenerator σ) (s : σ) : Run σ :=
  Run.fetch .GetStartEvent (mutableState.GetStartEvent s) fun startEvent s =>
  let executionState := mutableState.GetExecutionState s
  Run.read .GetExecutionState <|
  if executionState.Status = .RUNNING then
    Run.call (.GenerateRecordWorkflowStartedTasks startEvent)
      (taskGenerator.GenerateRecordWorkflowStartedTasks startEvent s) fun s =>
    Run.done s
  else
    Run.done s

/-- Go `refreshWorkflowTaskTasks` (lines 232-264). -/
def TaskRefresherImpl.refreshWorkflowTaskTasks {σ : Type} (_r : TaskRefresherImpl σ)
    (mutableState : MutableState σ) (taskGenerator : TaskGenerator σ) (s : σ) : Run σ :=
  Run.read .HasPendingWorkflowTask <|
  if mutableState.HasPendingWorkflowTask s = false then
    -- no workflow task at all
    Run.done s
  else
  Run.read .GetPendingWorkflowTask <|
  match mutableState.GetPendingWorkflowTask s with
  | none =>
    Run.fail (.Internal "it could be a bug, cannot get pending workflow task") s
  | some workflowTask =>
  if workflowTask.Type_ = .SPECULATIVE then
    Run.done s
  else
  -- workflowTask already started
  if workflowTask.StartedEventID ≠ common.EmptyEventID then
    Run.call (.GenerateStartWorkflowTaskTasks workflowTask.ScheduledEventID)
      (taskGenerator.GenerateStartWorkflowTaskTasks workflowTask.ScheduledEventID s) fun s =>
    Run.done s
  else
  -- workflowTask only scheduled
  Run.call (.GenerateScheduleWorkflowTaskTasks workflowTask.ScheduledEventID false)
    (taskGenerator.GenerateScheduleWorkflowTaskTasks workflowTask.ScheduledEventID false s)
    fun s =>
  Run.done s

/-- The body of the `for ... range pendingActivityInfos` loop of
`refreshTasksForActivity` (lines 281-318).  The assignment at line 284 writes
through the pointer the map holds; the info with the cleared status is what
`UpdateActivity` receives in the next statement. -/
def TaskRefresherImpl.refreshTasksForActivity.body {σ : Type} (r : TaskRefresherImpl σ)
    (mutableState : MutableState σ) (taskGenerator : TaskGenerator σ)
    (executionInfo : persistencespb.WorkflowExecutionInfo)
    (executionState : persistencespb.WorkflowExecutionState)
    (currentBranchToken : List Nat)
    (activityInfo : persistencespb.ActivityInfo) (s : σ) : Run σ :=
  -- clear all activity timer task mask for later activity timer task re-generation
  let activityInfo := { activityInfo with TimerTaskStatus := TimerTaskStatusNone }
  -- need to update activity timer task mask for which task is generated
  Run.call (.UpdateActivity activityInfo) (mutableState.UpdateActivity activityInfo s)
    fun s =>
  if activityInfo.StartedEventId ≠ common.EmptyEventID then
    -- continue Loop
    Run.done s
  else
  let key : events.EventKey :=
    { NamespaceID := executionInfo.NamespaceId
      WorkflowID := executionInfo.WorkflowId
      RunID := executionState.RunId
      EventID := activityInfo.ScheduledEventId
      Version := activityInfo.Version }
  Run.fetch (.GetEvent key activityInfo.ScheduledEventBatchId currentBranchToken)
    (r.eventsCache.GetEvent key activityInfo.ScheduledEventBatchId currentBranchToken s)
    fun scheduleEvent s =>
  Run.call (.GenerateActivityTasks scheduleEvent)
    (taskGenerator.GenerateActivityTasks scheduleEvent s) fun s =>
  Run.done s

/-- Go `refreshTasksForActivity` (lines 266-327). -/
def TaskRefresherImpl.refreshTasksForActivity {σ : Type} (r : TaskRefresherImpl σ)
    (ctors : Constructors σ)
    (mutableState : MutableState σ) (taskGenerator : TaskGenerator σ) (s : σ) : Run σ :=
  let executionInfo := mutableState.GetExecutionInfo s
  Run.read .GetExecutionInfo <|
  let executionState := mutableState.GetExecutionState s
  Run.read .GetExecutionState <|
  let pendingActivityInfos := mutableState.GetPendingActivityInfos s
  Run.read .GetPendingActivityInfos <|
  Run.fetch .GetCurrentBranchToken (mutableState.GetCurrentBranchToken s, s)
    fun currentBranchToken s =>
  (Run.forEach
    (TaskRefresherImpl.refreshTasksForActivity.body r mutableState taskGenerator
      executionInfo executionState currentBranchToken)
    pendingActivityInfos s).andThen fun s =>
  Run.read .NewTimerSequence <|
  Run.fetch .CreateNextActivityTimer (ctors.NewTimerSequence.CreateNextActivityTimer s)
    fun _ s =>
  Run.done s

/-- The body of the `for ... range pendingTimerInfos` loop of
`refreshTasksForTimer` (lines 335-345). -/
def TaskRefresherImpl.refreshTasksForTimer.body {σ : Type}
    (mutableState : MutableState σ) (timerInfo : persistencespb.TimerInfo) (s : σ) :
    Run σ :=
  -- clear all timer task mask for later timer task re-generation
  let timerInfo := { timerInfo with TaskStatus := TimerTaskStatusNone }
  -- need to update user timer task mask for which task is generated
  Run.call (.UpdateUserTimer timerInfo) (mutableState.UpdateUserTimer timerInfo s) fun s =>
  Run.done s

/-- Go `refreshTasksForTimer` (lines 329-354). -/
def TaskRefresherImpl.refreshTasksForTimer {σ : Type} (_r : TaskRefresherImpl σ)
    (ctors : Constructors σ) (mutableState : MutableState σ) (s : σ) : Run σ :=
  let pendingTimerInfos := mutableState.GetPendingTimerInfos s
  Run.read .GetPendingTimerInfos <|
  (Run.forEach (TaskRefresherImpl.refreshTasksForTimer.body mutableState)
    pendingTimerInfos s).andThen fun s =>
  Run.read .NewTimerSequence <|
  Run.fetch .CreateNextUserTimer (ctors.NewTimerSequence.CreateNextUserTimer s) fun _ s =>
  Run.done s

/-- The body of the `for ... range pendingChildWorkflowInfos` loop of
`refreshTasksForChildWorkflow` (lines 371-398). -/
def TaskRefresherImpl.refreshTasksForChildWorkflow.body {σ : Type}
    (r : TaskRefresherImpl σ) (taskGenerator : TaskGenerator σ)
    (executionInfo : persistencespb.WorkflowExecutionInfo)
    (executionState : persistencespb.WorkflowExecutionState)
    (currentBranchToken : List Nat)
    (childWorkflowInfo : persistencespb.ChildExecutionInfo) (s : σ) : Run σ :=
  if childWorkflowInfo.StartedEventId ≠ common.EmptyEventID then
    -- continue Loop
    Run.done s
  else
  let key : events.EventKey :=
    { NamespaceID := executionInfo.NamespaceId
      WorkflowID := executionInfo.WorkflowId
      RunID := executionState.RunId
      EventID := childWorkflowInfo.InitiatedEventId
      Version := childWorkflowInfo.Version }
  Run.fetch (.GetEvent key childWorkflowInfo.InitiatedEventBatchId currentBranchToken)
    (r.eventsCache.GetEvent key childWorkflowInfo.InitiatedEventBatchId currentBranchToken s)
    fun scheduleEvent s =>
  Run.call (.GenerateChildWorkflowTasks scheduleEvent)
    (taskGenerator.GenerateChildWorkflowTasks scheduleEvent s) fun s =>
  Run.done s

/-- Go `refreshTasksForChildWorkflow` (lines 356-401). -/
def TaskRefresherImpl.refreshTasksForChildWorkflow {σ : Type} (r : TaskRefresherImpl σ)
    (mutableState : MutableState σ) (taskGenerator : TaskGenerator σ) (s : σ) : Run σ :=
  let executionInfo := mutableState.GetExecutionInfo s
  Run.read .GetExecutionInfo <|
  let executionState := mutableState.GetExecutionState s
  Run.read .GetExecutionState <|
  let pendingChildWorkflowInfos := mutableState.GetPendingChildExecutionInfos s
  Run.read .GetPendingChildExecutionInfos <|
  Run.fetch .GetCurrentBranchToken (mutableState.GetCurrentBranchToken s, s)
    fun currentBranchToken s =>
  Run.forEach
    (TaskRefresherImpl.refreshTasksForChildWorkflow.body r taskGenerator
      executionInfo executionState currentBranchToken)
    pendingChildWorkflowInfos s

/-- The body of the `for ... range pendingRequestCancelInfos` loop of
`refreshTasksForRequestCancelExternalWorkflow` (lines 418-440). -/
def TaskRefresherImpl.refreshTasksForRequestCancelExternalWorkflow.body {σ : Type}
    (r : TaskRefresherImpl σ) (taskGenerator : TaskGenerator σ)
    (executionInfo : persistencespb.WorkflowExecutionInfo)
    (executionState : persistencespb.WorkflowExecutionState)
    (currentBranchToken : List Nat)
    (requestCancelInfo : persistencespb.RequestCancelInfo) (s : σ) : Run σ :=
  let key : events.EventKey :=
    { NamespaceID := executionInfo.NamespaceId
      WorkflowID := executionInfo.WorkflowId
      RunID := executionState.RunId
      EventID := requestCancelInfo.InitiatedEventId
      Version := requestCancelInfo.Version }
  Run.fetch (.GetEvent key requestCancelInfo.InitiatedEventBatchId currentBranchToken)
    (r.eventsCache.GetEvent key requestCancelInfo.InitiatedEventBatchId currentBranchToken s)
    fun initiateEvent s =>
  Run.call (.GenerateRequestCancelExternalTasks initiateEvent)
    (taskGenerator.GenerateRequestCancelExternalTasks initiateEvent s) fun s =>
  Run.done s

/-- Go `refreshTasksForRequestCancelExternalWorkflow` (lines 403-443). -/
def TaskRefresherImpl.refreshTasksForRequestCancelExternalWorkflow {σ : Type}
    (r : TaskRefresherImpl σ)
    (mutableState : MutableState σ) (taskGenerator : TaskGenerator σ) (s : σ) : Run σ :=
  let executionInfo := mutableState.GetExecutionInfo s
  Run.read .GetExecutionInfo <|
  let executionState := mutableState.GetExecutionState s
  Run.read .GetExecutionState <|
  let pendingRequestCancelInfos := mutableState.GetPendingRequestCancelExternalInfos s
  Run.read .GetPendingRequestCancelExternalInfos <|
  Run.fetch .GetCurrentBranchToken (mutableState.GetCurrentBranchToken s, s)
    fun currentBranchToken s =>
  Run.forEach
    (TaskRefresherImpl.refreshTasksForRequestCancelExternalWorkflow.body r taskGenerator
      executionInfo executionState currentBranchToken)
    pendingRequestCancelInfos s

/-- The body of the `for ... range pendingSignalInfos` loop of
`refreshTasksForSignalExternalWorkflow` (lines 460-482). -/
def TaskRefresherImpl.refreshTasksForSignalExternalWorkflow.body {σ : Type}
    (r : TaskRefresherImpl σ) (taskGenerator : TaskGenerator σ)
    (executionInfo : persistencespb.WorkflowExecutionInfo)
    (executionState : persistencespb.WorkflowExecutionState)
    (currentBranchToken : List Nat)
    (signalInfo : persistencespb.SignalInfo) (s : σ) : Run σ :=
  let key : events.EventKey :=
    { NamespaceID := executionInfo.NamespaceId
      WorkflowID := executionInfo.WorkflowId
      RunID := executionState.RunId
      EventID := signalInfo.InitiatedEventId
      Version := signalInfo.Version }
  Run.fetch (.GetEvent key signalInfo.InitiatedEventBatchId currentBranchToken)
    (r.eventsCache.GetEvent key signalInfo.InitiatedEventBatchId currentBranchToken s)
    fun initiateEvent s =>
  Run.call (.GenerateSignalExternalTasks initiateEvent)
    (taskGenerator.GenerateSignalExternalTasks initiateEvent s) fun s =>
  Run.done s

/-- Go `refreshTasksForSignalExternalWorkflow` (lines 445-485). -/
def TaskRefresherImpl.refreshTasksForSignalExternalWorkflow {σ : Type}
    (r : TaskRefresherImpl σ)
    (mutableState : MutableState σ) (taskGenerator : TaskGenerator σ) (s : σ) : Run σ :=
  let executionInfo := mutableState.GetExecutionInfo s
  Run.read .GetExecutionInfo <|
  let executionState := mutableState.GetExecutionState s
  Run.read .GetExecutionState <|
  let pendingSignalInfos := mutableState.GetPendingSignalExternalInfos s
  Run.read .GetPendingSignalExternalInfos <|
  Run.fetch .GetCurrentBranchToken (mutableState.GetCurrentBranchToken s, s)
    fun currentBranchToken s =>
  Run.forEach
    (TaskRefresherImpl.refreshTasksForSignalExternalWorkflow.body r taskGenerator
      executionInfo executionState currentBranchToken)
    pendingSignalInfos s

/-- Go `refreshTasksForWorkflowSearchAttr` (lines 487-492). -/
def TaskRefresherImpl.refreshTasksForWorkflowSearchAttr {σ : Type}
    (_r : TaskRefresherImpl σ) (taskGenerator : TaskGenerator σ) (s : σ) : Run σ :=
  Run.call .GenerateUpsertVisibilityTask (taskGenerator.GenerateUpsertVisibilityTask s)
    fun s =>
  Run.done s

/-- Go `RefreshTasks` (lines 76-156).  The `ctx` argument carries only
cancellation, which reaches the refresher as an error answered by a
collaborator. -/
def TaskRefresherImpl.RefreshTasks {σ : Type} (r : TaskRefresherImpl σ)
    (ctors : Constructors σ) (mutableState : MutableState σ) (s : σ) : Run σ :=
  let taskGenerator := ctors.NewTaskGenerator r.shard
  Run.read (.NewTaskGenerator r.shard) <|
  (r.refreshTasksForWorkflowStart mutableState taskGenerator s).andThen fun s =>
  (r.refreshTasksForWorkflowClose mutableState taskGenerator s).andThen fun s =>
  (r.refreshTasksForRecordWorkflowStarted mutableState taskGenerator s).andThen fun s =>
  (r.refreshWorkflowTaskTasks mutableState taskGenerator s).andThen fun s =>
  (r.refreshTasksForActivity ctors mutableState taskGenerator s).andThen fun s =>
  (r.refreshTasksForTimer ctors mutableState s).andThen fun s =>
  (r.refreshTasksForChildWorkflow mutableState taskGenerator s).andThen fun s =>
  (r.refreshTasksForRequestCancelExternalWorkflow mutableState taskGenerator s).andThen
    fun s =>
  (r.refreshTasksForSignalExternalWorkflow mutableState taskGenerator s).andThen fun s =>
  r.refreshTasksForWorkflowSearchAttr taskGenerator s

/-! ## What a logged call does -/

/-- The state a logged call leaves when made in state `s`: getters and
constructors leave the state as it is. -/
def Call.effect {σ : Type} (r : TaskRefresherImpl σ) (ctors : Constructors σ)
    (mutableState : MutableState σ) : Call → σ → σ
  | .GetStartEvent, s => (mutableState.GetStartEvent s).2
  | .GetCompletionEvent, s => (mutableState.GetCompletionEvent s).2
  | .UpdateActivity activityInfo, s => (mutableState.UpdateActivity activityInfo s).2
  | .UpdateUserTimer timerInfo, s => (mutableState.UpdateUserTimer timerInfo s).2
  | .GetEvent key firstEventID branchToken, s =>
    (r.eventsCache.GetEvent key firstEventID branchToken s).2
  | .GenerateWorkflowStartTasks e, s =>
    ((ctors.NewTaskGenerator r.shard).GenerateWorkflowStartTasks e s).2
  | .GenerateDelayedWorkflowTasks e, s =>
    ((ctors.NewTaskGenerator r.shard).GenerateDelayedWorkflowTasks e s).2
  | .GenerateWorkflowCloseTasks e b, s =>
    ((ctors.NewTaskGenerator r.shard).GenerateWorkflowCloseTasks e b s).2
  | .GenerateRecordWorkflowStartedTasks e, s =>
    ((ctors.NewTaskGenerator r.shard).GenerateRecordWorkflowStartedTasks e s).2
  | .GenerateStartWorkflowTaskTasks i, s =>
    ((ctors.NewTaskGenerator r.shard).GenerateStartWorkflowTaskTasks i s).2
  | .GenerateScheduleWorkflowTaskTasks i b, s =>
    ((ctors.NewTaskGenerator r.shard).GenerateScheduleWorkflowTaskTasks i b s).2
  | .GenerateActivityTasks e, s =>
    ((ctors.NewTaskGenerator r.shard).GenerateActivityTasks e s).2
  | .GenerateChildWorkflowTasks e, s =>
    ((ctors.NewTaskGenerator r.shard).GenerateChildWorkflowTasks e s).2
  | .GenerateRequestCancelExternalTasks e, s =>
    ((ctors.NewTaskGenerator r.shard).GenerateRequestCancelExternalTasks e s).2
  | .GenerateSignalExternalTasks e, s =>
    ((ctors.NewTaskGenerator r.shard).GenerateSignalExternalTasks e s).2
  | .GenerateUpsertVisibilityTask, s =>
    ((ctors.NewTaskGenerator r.shard).GenerateUpsertVisibilityTask s).2
  | .CreateNextActivityTimer, s => (ctors.NewTimerSequence.CreateNextActivityTimer s).2
  | .CreateNextUserTimer, s => (ctors.NewTimerSequence.CreateNextUserTimer s).2
  | _, s => s

/-- The error of an answer that carries a value. -/
def errorOf {α : Type} : Except updateworkflow.Error α → Option updateworkflow.Error
  | .ok _ => none
  | .error err => some err

/-- The error a logged call answers when made in state `s` (`none` for nil);
getters and constructors answer no error. -/
def Call.answer {σ : Type} (r : TaskRefresherImpl σ) (ctors : Constructors σ)
    (mutableState : MutableState σ) : Call → σ → Option updateworkflow.Error
  | .GetStartEvent, s => errorOf (mutableState.GetStartEvent s).1
  | .GetCompletionEvent, s => errorOf (mutableState.GetCompletionEvent s).1
  | .GetCurrentBranchToken, s => errorOf (mutableState.GetCurrentBranchToken s)
  | .UpdateActivity activityInfo, s => (mutableState.UpdateActivity activityInfo s).1
  | .UpdateUserTimer timerInfo, s => (mutableState.UpdateUserTimer timerInfo s).1
  | .GetEvent key firstEventID branchToken, s =>
    errorOf (r.eventsCache.GetEvent key firstEventID branchToken s).1
  | .GenerateWorkflowStartTasks e, s =>
    ((ctors.NewTaskGenerator r.shard).GenerateWorkflowStartTasks e s).1
  | .GenerateDelayedWorkflowTasks e, s =>
    ((ctors.NewTaskGenerator r.shard).GenerateDelayedWorkflowTasks e s).1
  | .GenerateWorkflowCloseTasks e b, s =>
    ((ctors.NewTaskGenerator r.shard).GenerateWorkflowCloseTasks e b s).1
  | .GenerateRecordWorkflowStartedTasks e, s =>
    ((ctors.NewTaskGenerator r.shard).GenerateRecordWorkflowStartedTasks e s).1
  | .GenerateStartWorkflowTaskTasks i, s =>
    ((ctors.NewTaskGenerator r.shard).GenerateStartWorkflowTaskTasks i s).1
  | .GenerateScheduleWorkflowTaskTasks i b, s =>
    ((ctors.NewTaskGenerator r.shard).GenerateScheduleWorkflowTaskTasks i b s).1
  | .GenerateActivityTasks e, s =>
    ((ctors.NewTaskGenerator r.shard).GenerateActivityTasks e s).1
  | .GenerateChildWorkflowTasks e, s =>
    ((ctors.NewTaskGenerator r.shard).GenerateChildWorkflowTasks e s).1
  | .GenerateRequestCancelExternalTasks e, s =>
    ((ctors.NewTaskGenerator r.shard).GenerateRequestCancelExternalTasks e s).1
  | .GenerateSignalExternalTasks e, s =>
    ((ctors.NewTaskGenerator r.shard).GenerateSignalExternalTasks e s).1
  | .GenerateUpsertVisibilityTask, s =>
    ((ctors.NewTaskGenerator r.shard).GenerateUpsertVisibilityTask s).1
  | .CreateNextActivityTimer, s => errorOf (ctors.NewTimerSequence.CreateNextActivityTimer s).1
  | .CreateNextUserTimer, s => errorOf (ctors.NewTimerSequence.CreateNextUserTimer s).1
  | _, _ => none

/-- The log `log` is what making its calls one after the other from state `s`
produces, leaving state `t`: each entry carries the error its call answers in
the state the entries before it leave, and a call that answers an error is
the last one. -/
inductive Trace {σ : Type} (r : TaskRefresherImpl σ) (ctors : Constructors σ)
    (mutableState : MutableState σ) : σ → List Entry → σ → Prop
  | nil (s : σ) : Trace r ctors mutableState s [] s
  | last (s : σ) (c : Call) (err : updateworkflow.Error)
      (h : c.answer r ctors mutableState s = some err) :
      Trace r ctors mutableState s [{ call := c, err := some err }]
        (c.effect r ctors mutableState s)
  | cons (s t : σ) (c : Call) (rest : List Entry)
      (h : c.answer r ctors mutableState s = none)
      (hrest : Trace r ctors mutableState (c.effect r ctors mutableState s) rest t) :
      Trace r ctors mutableState s ({ call := c, err := none } :: rest) t

/-- The error a log ends with: the error of its last entry. -/
def lastError : List Entry → Option updateworkflow.Error
  | [] => none
  | [x] => x.err
  | _ :: y :: rest => lastError (y :: rest)

/-- The run `run` is an execution from state `s`: its log is a trace from
`s` to the state it leaves, and it returns the error its log ends with, or,
when every call succeeded, nil or an error of its own. -/
def Run.From {σ : Type} (r : TaskRefresherImpl σ) (ctors : Constructors σ)
    (mutableState : MutableState σ) (s : σ) (run : Run σ) : Prop :=
  Trace r ctors mutableState s run.log run.state ∧
  (lastError run.log = none ∨ run.err = lastError run.log)

/-! ## Stages -/

/-- The regeneration stage a writing call belongs to, in the order of
`RefreshTasks`: 1 workflow start, 2 workflow close, 3 record workflow started,
4 workflow task, 5 activities, 6 user timers, 7 child workflows,
8 request-cancel-external, 9 signal-external, 10 search attributes.  Getters,
constructors and event fetches belong to no stage of their own. -/
def Call.stage : Call → Option Nat
  | .GenerateWorkflowStartTasks _ => some 1
  | .GenerateDelayedWorkflowTasks _ => some 1
  | .GenerateWorkflowCloseTasks _ _ => some 2
  | .GenerateRecordWorkflowStartedTasks _ => some 3
  | .GenerateStartWorkflowTaskTasks _ => some 4
  | .GenerateScheduleWorkflowTaskTasks _ _ => some 4
  | .UpdateActivity _ => some 5
  | .GenerateActivityTasks _ => some 5
  | .CreateNextActivityTimer => some 5
  | .UpdateUserTimer _ => some 6
  | .CreateNextUserTimer => some 6
  | .GenerateChildWorkflowTasks _ => some 7
  | .GenerateRequestCancelExternalTasks _ => some 8
  | .GenerateSignalExternalTasks _ => some 9
  | .GenerateUpsertVisibilityTask => some 10
  | _ => none

/-- Whether the stage function number `k` of `RefreshTasks` may make the call:
its writing calls and the getters, constructors and fetches it uses. -/
def Call.allowedIn (k : Nat) : Call → Bool
  | .GetStartEvent => k = 1 || k = 3
  | .HadOrHasWorkflowTask => k = 1
  | .GetCompletionEvent => k = 2
  | .GetExecutionState => k = 2 || k = 3 || k = 5 || k = 7 || k = 8 || k = 9
  | .HasPendingWorkflowTask => k = 4
  | .GetPendingWorkflowTask => k = 4
  | .GetExecutionInfo => k = 5 || k = 7 || k = 8 || k = 9
  | .GetCurrentBranchToken => k = 5 || k = 7 || k = 8 || k = 9
  | .GetEvent _ _ _ => k = 5 || k = 7 || k = 8 || k = 9
  | .GetPendingActivityInfos => k = 5
  | .NewTimerSequence => k = 5 || k = 6
  | .GetPendingTimerInfos => k = 6
  | .GetPendingChildExecutionInfos => k = 7
  | .GetPendingRequestCancelExternalInfos => k = 8
  | .GetPendingSignalExternalInfos => k = 9
  | .NewTaskGenerator _ => false
  | c => c.stage = some k

/-- A run that is an execution from `s` and makes only calls satisfying `P`. -/
def Good {σ : Type} (r : TaskRefresherImpl σ) (ctors : Constructors σ)
    (ms : MutableState σ) (P : Call → Prop) (s : σ) (run : Run σ) : Prop :=
  Run.From r ctors ms s run ∧ ∀ x ∈ run.log, P x.call

/-! ## Observations of a log -/

/-- Whether the call is a request to the task generator or to the timer
sequence: the calls that generate tasks. -/
def Call.isRequest : Call → Bool
  | .GenerateWorkflowStartTasks _ => true
  | .GenerateDelayedWorkflowTasks _ => true
  | .GenerateWorkflowCloseTasks _ _ => true
  | .GenerateRecordWorkflowStartedTasks _ => true
  | .GenerateStartWorkflowTaskTasks _ => true
  | .GenerateScheduleWorkflowTaskTasks _ _ => true
  | .GenerateActivityTasks _ => true
  | .GenerateChildWorkflowTasks _ => true
  | .GenerateRequestCancelExternalTasks _ => true
  | .GenerateSignalExternalTasks _ => true
  | .GenerateUpsertVisibilityTask => true
  | .CreateNextActivityTimer => true
  | .CreateNextUserTimer => true
  | _ => false

/-- The requests to the task generator and the timer sequence in a log, in
order. -/
def requests (log : List Entry) : List Call :=
  (log.map fun x => x.call).filter Call.isRequest

/-- Whether the call writes an info back to the mutable state. -/
def Call.isUpdate : Call → Bool
  | .UpdateActivity _ => true
  | .UpdateUserTimer _ => true
  | _ => false

/-- The activity infos written back with `UpdateActivity` in a log, in order. -/
def updatedActivities (log : List Entry) : List persistencespb.ActivityInfo :=
  log.filterMap fun x =>
    match x.call with
    | .UpdateActivity activityInfo => some activityInfo
    | _ => none

/-- The timer infos written back with `UpdateUserTimer` in a log, in order. -/
def updatedTimers (log : List Entry) : List persistencespb.TimerInfo :=
  log.filterMap fun x =>
    match x.call with
    | .UpdateUserTimer timerInfo => some timerInfo
    | _ => none

/-- The activity info with its timer task status cleared (line 284). -/
def persistencespb.ActivityInfo.cleared (activityInfo : persistencespb.ActivityInfo) :
    persistencespb.ActivityInfo :=
  { activityInfo with TimerTaskStatus := TimerTaskStatusNone }

/-- The timer info with its task status cleared (line 337). -/
def persistencespb.TimerInfo.cleared (timerInfo : persistencespb.TimerInfo) :
    persistencespb.TimerInfo :=
  { timerInfo with TaskStatus := TimerTaskStatusNone }

/-- The number of calls `c` in a log. -/
def timesCalled (c : Call) (log : List Entry) : Nat :=
  (log.filter fun x => x.call = c).length

/-- The stages of the writing calls of a log, in order. -/
def stagesOf (log : List Entry) : List Nat :=
  log.filterMap fun x => x.call.stage

/-- A successful entry for a call. -/
def Entry.ok (c : Call) : Entry :=
  { call := c, err := none }

/-! ## Collaborators that keep to a frame -/

/-- The collaborators keep to a frame with respect to an observation `view`
of the state (what a refresh is meant to leave alone: the state without its
queued tasks, the recorded timer task statuses and the iteration order of its
collections):

* no call other than a write-back changes the view, and writing back a
  pending info with its status cleared does not change it either;
* what a call answers (its error, and the value of a fetch or a getter)
  depends on the view only, the pending collections up to iteration order
  and, for activities and user timers, up to the recorded status. -/
structure Frame {σ V : Type} (r : TaskRefresherImpl σ) (ctors : Constructors σ)
    (ms : MutableState σ) (view : σ → V) : Prop where
  effect : ∀ (c : Call) (s : σ), c.isUpdate = false →
    view (c.effect r ctors ms s) = view s
  updateActivity : ∀ (s : σ) (a : persistencespb.ActivityInfo),
    a ∈ ms.GetPendingActivityInfos s → view (ms.UpdateActivity a.cleared s).2 = view s
  updateUserTimer : ∀ (s : σ) (t : persistencespb.TimerInfo),
    t ∈ ms.GetPendingTimerInfos s → view (ms.UpdateUserTimer t.cleared s).2 = view s
  answer : ∀ (c : Call) (s s' : σ), view s = view s' →
    c.answer r ctors ms s = c.answer r ctors ms s'
  getStartEvent : ∀ s s' : σ, view s = view s' →
    (ms.GetStartEvent s).1 = (ms.GetStartEvent s').1
  getCompletionEvent : ∀ s s' : σ, view s = view s' →
    (ms.GetCompletionEvent s).1 = (ms.GetCompletionEvent s').1
  getEvent : ∀ (key : events.EventKey) (firstEventID : Int) (branchToken : List Nat)
    (s s' : σ), view s = view s' →
    (r.eventsCache.GetEvent key firstEventID branchToken s).1 =
      (r.eventsCache.GetEvent key firstEventID branchToken s').1
  getCurrentBranchToken : ∀ s s' : σ, view s = view s' →
    ms.GetCurrentBranchToken s = ms.GetCurrentBranchToken s'
  hadOrHasWorkflowTask : ∀ s s' : σ, view s = view s' →
    ms.HadOrHasWorkflowTask s = ms.HadOrHasWorkflowTask s'
  getExecutionState : ∀ s s' : σ, view s = view s' →
    ms.GetExecutionState s = ms.GetExecutionState s'
  getExecutionInfo : ∀ s s' : σ, view s = view s' →
    ms.GetExecutionInfo s = ms.GetExecutionInfo s'
  hasPendingWorkflowTask : ∀ s s' : σ, view s = view s' →
    ms.HasPendingWorkflowTask s = ms.HasPendingWorkflowTask s'
  getPendingWorkflowTask : ∀ s s' : σ, view s = view s' →
    ms.GetPendingWorkflowTask s = ms.GetPendingWorkflowTask s'
  getPendingActivityInfos : ∀ s s' : σ, view s = view s' →
    ((ms.GetPendingActivityInfos s).map persistencespb.ActivityInfo.cleared).Perm
      ((ms.GetPendingActivityInfos s').map persistencespb.ActivityInfo.cleared)
  getPendingTimerInfos : ∀ s s' : σ, view s = view s' →
    ((ms.GetPendingTimerInfos s).map persistencespb.TimerInfo.cleared).Perm
      ((ms.GetPendingTimerInfos s').map persistencespb.TimerInfo.cleared)
  getPendingChildExecutionInfos : ∀ s s' : σ, view s = view s' →
    (ms.GetPendingChildExecutionInfos s).Perm (ms.GetPendingChildExecutionInfos s')
  getPendingRequestCancelExternalInfos : ∀ s s' : σ, view s = view s' →
    (ms.GetPendingRequestCancelExternalInfos s).Perm
      (ms.GetPendingRequestCancelExternalInfos s')
  getPendingSignalExternalInfos : ∀ s s' : σ, view s = view s' →
    (ms.GetPendingSignalExternalInfos s).Perm (ms.GetPendingSignalExternalInfos s')

/-- The run `run'` follows the run `run` at the view `v`: if `run` returns
nil, so does `run'`, both leave a state with view `v`, and they make the same
requests up to order. -/
def Follows {σ V : Type} (view : σ → V) (v : V) (run run' : Run σ) : Prop :=
  run.err = none →
    run'.err = none ∧ view run.state = v ∧ view run'.state = v ∧
      (requests run'.log).Perm (requests run.log)

/-! ## A concrete world -/

/-- Modelled from the spec: the state of a mutable state with its events
cache, small enough to evaluate.  It holds the execution status, the workflow
task fields, the five pending collections in iteration order, the ids of the
events that cannot be loaded, and the queued tasks, each kept as the request
that queued it. -/
structure sample.State where
  status : enumspb.WorkflowExecutionStatus
  hadOrHasWorkflowTask : Bool
  hasPendingWorkflowTask : Bool
  pendingWorkflowTask : Option WorkflowTaskInfo
  activities : List persistencespb.ActivityInfo
  timers : List persistencespb.TimerInfo
  children : List persistencespb.ChildExecutionInfo
  requestCancels : List persistencespb.RequestCancelInfo
  signals : List persistencespb.SignalInfo
  missing : List Int
  tasks : List Call
  deriving DecidableEq, Repr

/-- The event with id `id` of the sample history; event 1 is the start event
and carries a first workflow task backoff of 5. -/
def sample.event (id : Int) : historypb.HistoryEvent :=
  { EventId := id
    Version := 1
    WorkflowExecutionStartedEventAttributes :=
      if id = 1 then some { FirstWorkflowTaskBackoff := some 5 } else none }

/-- Loading event `id` in state `s`: it fails with `Unavailable` when the
event is among the missing ones. -/
def sample.load (id : Int) (s : sample.State) :
    Except updateworkflow.Error historypb.HistoryEvent × sample.State :=
  if id ∈ s.missing then (.error .Unavailable, s) else (.ok (sample.event id), s)

/-- Queueing a task, kept as the request that queues it. -/
def sample.enqueue (c : Call) (s : sample.State) : Option updateworkflow.Error × sample.State :=
  (none, { s with tasks := s.tasks ++ [c] })

/-- Modelled from the spec: a mutable state over `sample.State`.  The start
event is event 1 and the completion event is event 2; a write-back replaces
the pending info that is equal up to the recorded status. -/
def sample.mutableState : MutableState sample.State :=
  { GetStartEvent := sample.load 1
    GetCompletionEvent := sample.load 2
    HadOrHasWorkflowTask := fun s => s.hadOrHasWorkflowTask
    GetExecutionState := fun s => { RunId := "run", Status := s.status }
    GetExecutionInfo := fun _ => { NamespaceId := "ns", WorkflowId := "wf" }
    HasPendingWorkflowTask := fun s => s.hasPendingWorkflowTask
    GetPendingWorkflowTask := fun s => s.pendingWorkflowTask
    GetPendingActivityInfos := fun s => s.activities
    GetPendingTimerInfos := fun s => s.timers
    GetPendingChildExecutionInfos := fun s => s.children
    GetPendingRequestCancelExternalInfos := fun s => s.requestCancels
    GetPendingSignalExternalInfos := fun s => s.signals
    GetCurrentBranchToken := fun _ => .ok [7]
    UpdateActivity := fun a s =>
      (none, { s with
        activities := s.activities.map (fun b => if b.cleared = a.cleared then a else b) })
    UpdateUserTimer := fun t s =>
      (none, { s with
        timers := s.timers.map (fun b => if b.cleared = t.cleared then t else b) }) }

/-- Modelled from the spec: a task generator over `sample.State`; every
request succeeds and queues a task. -/
def sample.taskGenerator : TaskGenerator sample.State :=
  { GenerateWorkflowStartTasks := fun e => sample.enqueue (.GenerateWorkflowStartTasks e)
    GenerateDelayedWorkflowTasks := fun e => sample.enqueue (.GenerateDelayedWorkflowTasks e)
    GenerateWorkflowCloseTasks := fun e b => sample.enqueue (.GenerateWorkflowCloseTasks e b)
    GenerateRecordWorkflowStartedTasks := fun e =>
      sample.enqueue (.GenerateRecordWorkflowStartedTasks e)
    GenerateStartWorkflowTaskTasks := fun i =>
      sample.enqueue (.GenerateStartWorkflowTaskTasks i)
    GenerateScheduleWorkflowTaskTasks := fun i b =>
      sample.enqueue (.GenerateScheduleWorkflowTaskTasks i b)
    GenerateActivityTasks := fun e => sample.enqueue (.GenerateActivityTasks e)
    GenerateChildWorkflowTasks := fun e => sample.enqueue (.GenerateChildWorkflowTasks e)
    GenerateRequestCancelExternalTasks := fun e =>
      sample.enqueue (.GenerateRequestCancelExternalTasks e)
    GenerateSignalExternalTasks := fun e => sample.enqueue (.GenerateSignalExternalTasks e)
    GenerateUpsertVisibilityTask := sample.enqueue .GenerateUpsertVisibilityTask }

/-- Modelled from the spec: a timer sequence over `sample.State`.  The next
timer is the one of the first pending info; when its status records no timer
task, a timer task is queued and recorded in the status. -/
def sample.timerSequence : TimerSequence sample.State :=
  { CreateNextActivityTimer := fun s =>
      match s.activities with
      | [] => (.ok false, s)
      | a :: rest =>
        if a.TimerTaskStatus = TimerTaskStatusNone then
          (.ok true,
            { s with
              activities := { a with TimerTaskStatus := 1 } :: rest
              tasks := s.tasks ++ [.CreateNextActivityTimer] })
        else (.ok false, s)
    CreateNextUserTimer := fun s =>
      match s.timers with
      | [] => (.ok false, s)
      | t :: rest =>
        if t.TaskStatus = TimerTaskStatusNone then
          (.ok true,
            { s with
              timers := { t with TaskStatus := 1 } :: rest
              tasks := s.tasks ++ [.CreateNextUserTimer] })
        else (.ok false, s) }

/-- Modelled from the spec: an events cache over `sample.State`. -/
def sample.eventsCache : events.Cache sample.State :=
  { GetEvent := fun key _ _ => sample.load key.EventID }

/-- The constructors of the sample world. -/
def sample.ctors : Constructors sample.State :=
  { NewTaskGenerator := fun _ => sample.taskGenerator
    NewTimerSequence := sample.timerSequence }

/-- The refresher of shard 1 over the sample events cache. -/
def sample.refresher : TaskRefresherImpl sample.State :=
  { shard := 1, config := 0, namespaceRegistry := 0, eventsCache := sample.eventsCache,
    logger := 0 }

/-- A pending activity scheduled by event `id`, started by event `started`
(0 when not started), whose status records a timer task. -/
def sample.activity (id started : Int) : persistencespb.ActivityInfo :=
  { Version := 1, ScheduledEventBatchId := id, ScheduledEventId := id,
    StartedEventId := started, ActivityId := "a", TimerTaskStatus := 1 }

/-- A pending user timer started by event `id`, whose status records a timer
task. -/
def sample.timer (id : Int) : persistencespb.TimerInfo :=
  { Version := 1, StartedEventId := id, TimerId := "t", TaskStatus := 1 }

/-- A running workflow with three pending activities (two scheduled, one
started), two user timers, an unstarted child workflow, a pending cancel
request and a pending signal, no pending workflow task, and one task queued
before any refresh. -/
def sample.state : sample.State :=
  { status := .RUNNING
    hadOrHasWorkflowTask := true
    hasPendingWorkflowTask := false
    pendingWorkflowTask := none
    activities := [sample.activity 5 0, sample.activity 6 0, sample.activity 7 8]
    timers := [sample.timer 9, sample.timer 10]
    children := [{ Version := 1, InitiatedEventBatchId := 11, InitiatedEventId := 11,
                   StartedEventId := 0 }]
    requestCancels := [{ Version := 1, InitiatedEventBatchId := 12, InitiatedEventId := 12 }]
    signals := [{ Version := 1, InitiatedEventBatchId := 13, InitiatedEventId := 13 }]
    missing := []
    tasks := [.GenerateActivityTasks (sample.event 3)] }

/-- The sample state with a pending workflow task of type `t`, scheduled by
event 20 and started by event `started` (0 when only scheduled). -/
def sample.withWorkflowTask (t : updateworkflow.enumsspb.WorkflowTaskType) (started : Int) :
    sample.State :=
  { sample.state with
    hasPendingWorkflowTask := true
    pendingWorkflowTask := some { Type_ := t, ScheduledEventID := 20, StartedEventID := started } }

/-- The sample state reporting a pending workflow task that cannot be
retrieved. -/
def sample.inconsistent : sample.State :=
  { sample.state with hasPendingWorkflowTask := true }

/-- The sample state in which the events in `ids` cannot be loaded. -/
def sample.without (ids : List Int) : sample.State :=
  { sample.state with missing := ids }

/-- The view of a sample state that a refresh leaves alone: the state without
its queued tasks and its recorded statuses. -/
def sample.view (s : sample.State) : sample.State :=
  { s with
    tasks := []
    activities := s.activities.map persistencespb.ActivityInfo.cleared
    timers := s.timers.map persistencespb.TimerInfo.cleared }

/-! ## Calls of one kind -/

/-- The calls of a log that satisfy `p`, in order. -/
def callsWhere (p : Call → Bool) (log : List Entry) : List Call :=
  (log.map fun x => x.call).filter p

/-- Whether the call is `GenerateWorkflowStartTasks`. -/
def Call.isGenerateWorkflowStartTasks : Call → Bool
  | .GenerateWorkflowStartTasks _ => true
  | _ => false

/-- Whether the call is `GenerateDelayedWorkflowTasks`. -/
def Call.isGenerateDelayedWorkflowTasks : Call → Bool
  | .GenerateDelayedWorkflowTasks _ => true
  | _ => false

/-- Whether the call is `GenerateWorkflowCloseTasks`. -/
def Call.isGenerateWorkflowCloseTasks : Call → Bool
  | .GenerateWorkflowCloseTasks _ _ => true
  | _ => false

/-- Whether the call is `GenerateRecordWorkflowStartedTasks`. -/
def Call.isGenerateRecordWorkflowStartedTasks : Call → Bool
  | .GenerateRecordWorkflowStartedTasks _ => true
  | _ => false

/-- Whether the call is `GetEvent` on the events cache. -/
def Call.isGetEvent : Call → Bool
  | .GetEvent _ _ _ => true
  | _ => false

/-- Whether the call is `GenerateActivityTasks`. -/
def Call.isGenerateActivityTasks : Call → Bool
  | .GenerateActivityTasks _ => true
  | _ => false

/-- Whether the call is `GenerateChildWorkflowTasks`. -/
def Call.isGenerateChildWorkflowTasks : Call → Bool
  | .GenerateChildWorkflowTasks _ => true
  | _ => false

/-- Whether the call is `GenerateRequestCancelExternalTasks`. -/
def Call.isGenerateRequestCancelExternalTasks : Call → Bool
  | .GenerateRequestCancelExternalTasks _ => true
  | _ => false

/-- Whether the call is `GenerateSignalExternalTasks`. -/
def Call.isGenerateSignalExternalTasks : Call → Bool
  | .GenerateSignalExternalTasks _ => true
  | _ => false

/-! ## Events fetched for pending infos -/

/-- The key under which the stage functions fetch the event `eventID` of
version `version` (lines 298-304, 376-382, 420-426, 462-468). -/
def events.keyOf (executionInfo : persistencespb.WorkflowExecutionInfo)
    (executionState : persistencespb.WorkflowExecutionState) (eventID version : Int) :
    events.EventKey :=
  { NamespaceID := executionInfo.NamespaceId
    WorkflowID := executionInfo.WorkflowId
    RunID := executionState.RunId
    EventID := eventID
    Version := version }

/-- The calls `calls` are, for each of the infos in order, the fetch of its
event from the events cache, under the key `key` and the batch id `batch` of
the info, followed by the request `request` with an event the cache answers
to that fetch in some state. -/
def FetchedEach {σ α : Type} (cache : events.Cache σ) (key : α → events.EventKey)
    (batch : α → Int) (branchToken : List Nat) (request : historypb.HistoryEvent → Call) :
    List α → List Call → Prop
  | [], calls => calls = []
  | info :: infos, calls =>
    ∃ event t rest,
      (cache.GetEvent (key info) (batch info) branchToken t).1 = .ok event ∧
      calls = Call.GetEvent (key info) (batch info) branchToken :: request event :: rest ∧
      FetchedEach cache key batch branchToken request infos rest

/-! ## More of the concrete world -/

/-- Modelled from the spec: a task generator over `sample.State` whose
`GenerateWorkflowStartTasks` answers an `Internal` error and queues nothing;
its other requests succeed as those of `sample.taskGenerator`. -/
def sample.failingTaskGenerator : TaskGenerator sample.State :=
  { sample.taskGenerator with
    GenerateWorkflowStartTasks := fun _ s => (some (.Internal "cannot generate"), s) }

/-- The constructors of the sample world with the failing task generator. -/
def sample.failingCtors : Constructors sample.State :=
  { NewTaskGenerator := fun _ => sample.failingTaskGenerator
    NewTimerSequence := sample.timerSequence }

/-- The sample state of a workflow that never had a workflow task. -/
def sample.fresh : sample.State :=
  { sample.state with hadOrHasWorkflowTask := false }

/-- The sample state of a completed workflow. -/
def sample.completed : sample.State :=
  { sample.state with status := .COMPLETED }

/-- The sample refresher with another config, namespace registry and logger. -/
def sample.otherRefresher : TaskRefresherImpl sample.State :=
  { sample.refresher with config := 7, namespaceRegistry := 8, logger := 9 }

/-- The sample refresher of another shard. -/
def sample.refresherOfShard (shard : Nat) : TaskRefresherImpl sample.State :=
  { sample.refresher with shard := shard }

/-- Modelled from the spec: constructors whose task generator depends on the
shard it is constructed for: the one of shard 1 is `sample.taskGenerator`,
the one of any other shard is `sample.failingTaskGenerator`. -/
def sample.ctorsByShard : Constructors sample.State :=
  { NewTaskGenerator := fun shard =>
      if shard = 1 then sample.taskGenerator else sample.failingTaskGenerator
    NewTimerSequence := sample.timerSequence }

/-! ## Tasks queued in the concrete world -/

end workflow

/-!
# Pipe

The pipe of `internal/nettest`.  Its implementation is not among the sources
this development is built on; its tests (`pipe_test.go`) are.
-/

namespace nettest

/-- Modelled from the spec: the error `Canceled` of the pipe (`ErrCanceled`
in `pipe_test.go`); the package that declares it is missing. -/
inductive Error
  | ErrCanceled
  deriving DecidableEq, Repr

/-- Modelled from the spec: the cancel token of `Accept(cancel_token)` and
`Connect(cancel_token)`, missing with the pipe: as the tests build it, no
token (`nil`), a token not yet cancelled, or an already-cancelled token (a
closed channel). -/
inductive CancelToken
  | absent
  | pending
  | cancelled
  deriving DecidableEq, Repr

/-- Modelled from the spec: the endpoint a rendezvous returns to one side,
missing with the pipe; the two endpoints of a rendezvous are paired by its
number. -/
structure Conn where
  rendezvous : Nat
  accepted : Bool
  deriving DecidableEq, Repr

/-- Modelled from the spec: the pipe listener, "a synchronous in-memory
bidirectional endpoint", whose implementation is missing.  Its state is
the peers that wait for a rendezvous: the number of callers blocked in
`Accept`, the number blocked in `Connect`, and the number of rendezvous so
far. -/
structure Pipe where
  accepting : Nat
  connecting : Nat
  rendezvous : Nat
  deriving DecidableEq, Repr

/-- Modelled from the spec: `NewPipe()`, a freshly created pipe: no peer is
waiting. -/
def NewPipe : Pipe :=
  { accepting := 0, connecting := 0, rendezvous := 0 }

/-- Modelled from the spec: what a call of `Accept` or `Connect` can do: return
a connection and no error, return no connection and an error, or block until
a peer arrives or the token is cancelled. -/
inductive Outcome
  | returned (conn : Option Conn) (err : Option Error)
  | blocks
  deriving DecidableEq, Repr

/-- Modelled from the spec: the outcomes a call can have that waits for a
peer of which `waiting` are blocked, with the cancel token `cancel`:
"Cancellation before rendezvous returns `Canceled`; a successful rendezvous
returns paired endpoints."  With the token cancelled the call can return
`Canceled`; with a peer waiting the rendezvous can succeed; with neither the
call blocks. -/
def Pipe.meet (waiting : Nat) (cancel : CancelToken) (conn : Conn) : List Outcome :=
  (if cancel = .cancelled then [.returned none (some .ErrCanceled)] else []) ++
  (if 0 < waiting then [.returned (some conn) none] else []) ++
  (if cancel ≠ .cancelled ∧ waiting = 0 then [.blocks] else [])

/-- Modelled from the spec: `Connect(cancel_token)`: the caller meets a peer
blocked in `Accept`. -/
def Pipe.Connect (p : Pipe) (cancel : CancelToken) : List Outcome :=
  Pipe.meet p.accepting cancel { rendezvous := p.rendezvous, accepted := false }

/-- Modelled from the spec: `Accept(cancel_token)`: the caller meets a peer
blocked in `Connect`. -/
def Pipe.Accept (p : Pipe) (cancel : CancelToken) : List Outcome :=
  Pipe.meet p.connecting cancel { rendezvous := p.rendezvous, accepted := true }

end nettest

namespace updateworkflow

/-! ## Shared lemmas -/

/-- A supported wait stage selects a wait closure. -/
theorem waitLifecycleStage_supported
    (stage : enumspb.UpdateWorkflowExecutionLifecycleStage)
    (h : stage = .ACCEPTED ∨ stage = .COMPLETED) :
    ∃ w, Invoke.waitLifecycleStage stage = some w ∧
      ((stage = .ACCEPTED ∧ w = fun u => (Call.WaitAccepted u.id, u.WaitAccepted)) ∨
       (stage = .COMPLETED ∧ w = fun u => (Call.WaitOutcome u.id, u.WaitOutcome))) := by
  rcases h with h | h <;> subst h
  · exact ⟨_, rfl, Or.inl ⟨rfl, rfl⟩⟩
  · exact ⟨_, rfl, Or.inr ⟨rfl, rfl⟩⟩

/-- Once the wait closure is selected and the workflow context acquired,
`Invoke` is the code after the `defer` followed by the deferred release. -/
theorem Invoke_of_context
    (req : historyservice.UpdateWorkflowExecutionRequest)
    (shardCtx : shard.Context)
    (checker : api.WorkflowConsistencyChecker)
    (matchingClient : matchingservice.MatchingServiceClient)
    (stageText : enumspb.UpdateWorkflowExecutionLifecycleStage → String)
    (w : WaitLifecycleStage) (key : definition.WorkflowKey) (weCtx : api.WorkflowContext)
    (hw : Invoke.waitLifecycleStage (waitStageOf req) = some w)
    (hkey : Invoke.workflowKey req = some key)
    (hctx : checker.GetWorkflowContext key .LockPriorityHigh = .ok weCtx) :
    Invoke req shardCtx checker matchingClient stageText =
      { calls := [Call.GetWorkflowContext key .LockPriorityHigh]
          ++ (Invoke.afterDefer req shardCtx matchingClient weCtx w).1
          ++ [Call.ReleaseFn (Invoke.afterDefer req shardCtx matchingClient weCtx w).2.2]
        result := .Return (Invoke.afterDefer req shardCtx matchingClient weCtx w).2.1
          (Invoke.afterDefer req shardCtx matchingClient weCtx w).2.2 } := by
  unfold waitStageOf at hw
  simp only [Invoke, hw, hkey, hctx]

/-- A path statement may be transported along an equation of its outcome. -/
theorem AfterDeferPath.of_eq
    {req : historyservice.UpdateWorkflowExecutionRequest}
    {shardCtx : shard.Context}
    {matchingClient : matchingservice.MatchingServiceClient}
    {weCtx : api.WorkflowContext} {w : WaitLifecycleStage}
    {x y : List Call × Option historyservice.UpdateWorkflowExecutionResponse × Option Error}
    (h : AfterDeferPath req shardCtx matchingClient weCtx w x) (e : y = x) :
    AfterDeferPath req shardCtx matchingClient weCtx w y := e ▸ h

/-- Every run of lines 97-160 follows one of the paths. -/
theorem afterDefer_path
    (req : historyservice.UpdateWorkflowExecutionRequest)
    (shardCtx : shard.Context)
    (matchingClient : matchingservice.MatchingServiceClient)
    (weCtx : api.WorkflowContext) (w : WaitLifecycleStage) :
    AfterDeferPath req shardCtx matchingClient weCtx w
      (Invoke.afterDefer req shardCtx matchingClient weCtx w) := by
  cases hrun : weCtx.GetMutableState.IsWorkflowExecutionRunning
  · exact (AfterDeferPath.notRunning hrun).of_eq (by simp [Invoke.afterDefer, hrun])
  by_cases hpin : pinOf req = "" ∨
      persistencespb.GetFirstExecutionRunId weCtx.GetMutableState.GetExecutionInfo = pinOf req
  swap
  · have h1 : pinOf req ≠ "" := fun h => hpin (Or.inl h)
    have h2 : persistencespb.GetFirstExecutionRunId weCtx.GetMutableState.GetExecutionInfo
        ≠ pinOf req := fun h => hpin (Or.inr h)
    refine (AfterDeferPath.pinMismatch hrun h1 h2).of_eq ?_
    unfold pinOf at h1 h2
    simp [Invoke.afterDefer, hrun, h1, h2]
  have hpin2 : ¬ (workflowservice.GetFirstExecutionRunId req.GetRequest ≠ "" ∧
      persistencespb.GetFirstExecutionRunId weCtx.GetMutableState.GetExecutionInfo ≠
        workflowservice.GetFirstExecutionRunId req.GetRequest) := by
    unfold pinOf at hpin
    rcases hpin with h | h <;> simp [h]
  have hpin3 : ¬ workflowservice.GetFirstExecutionRunId req.GetRequest = "" →
      persistencespb.GetFirstExecutionRunId weCtx.GetMutableState.GetExecutionInfo =
        workflowservice.GetFirstExecutionRunId req.GetRequest := by
    unfold pinOf at hpin
    intro hne
    exact hpin.resolve_left hne
  cases hfind : weCtx.GetUpdateRegistry.FindOrCreate (updateIDOf req) with
  | error err =>
    refine (AfterDeferPath.findFailed err hrun hpin hfind).of_eq ?_
    unfold updateIDOf at hfind
    by_cases hempty : workflowservice.GetFirstExecutionRunId req.GetRequest = "" <;>
      simp [Invoke.afterDefer, hrun, hpin2, hpin3, hfind, callsToFind, callsToPin, pinOf, updateIDOf,
        hempty]
  | ok found =>
    obtain ⟨upd, alreadyExisted⟩ := found
    cases hmsg : upd.OnMessage (messageOf req) with
    | some err =>
      refine (AfterDeferPath.messageFailed upd alreadyExisted err hrun hpin hfind hmsg).of_eq ?_
      unfold updateIDOf at hfind
      unfold messageOf at hmsg
      by_cases hempty : workflowservice.GetFirstExecutionRunId req.GetRequest = "" <;>
        simp [Invoke.afterDefer, hrun, hpin2, hpin3, hfind, hmsg, callsToFind, callsToPin, pinOf,
          updateIDOf, messageOf, hempty]
    | none =>
      have hfind2 := hfind
      have hmsg2 := hmsg
      unfold updateIDOf at hfind2
      unfold messageOf at hmsg2
      by_cases hcreate : weCtx.GetMutableState.HasPendingWorkflowTask = false ∧
          alreadyExisted = false
      swap
      · have hno : weCtx.GetMutableState.HasPendingWorkflowTask = true ∨
            alreadyExisted = true := by
          cases hp : weCtx.GetMutableState.HasPendingWorkflowTask <;>
            cases he : alreadyExisted <;> simp_all
        have happlied : MessageApplied req weCtx upd alreadyExisted := ⟨hrun, hpin, hfind, hmsg⟩
        have hat : AtWait req shardCtx matchingClient weCtx upd alreadyExisted
            (callsToPending req upd ++ [Call.ReleaseFn none]) :=
          .notScheduled hno
        have hcn : (!weCtx.GetMutableState.HasPendingWorkflowTask && !alreadyExisted) = false := by
          rcases hno with h | h <;> simp [h]
        cases hwait : (w upd).2 with
        | error err =>
          refine (AfterDeferPath.applied upd _ _ happlied (.waitFailed _ err hat hwait)).of_eq ?_
          by_cases hempty : workflowservice.GetFirstExecutionRunId req.GetRequest = "" <;>
            simp [Invoke.afterDefer, hrun, hpin2, hpin3, hfind2, hmsg2, hcn, hwait, callsToPending,
              callsToFind, callsToPin, pinOf, updateIDOf, messageOf, hempty]
        | ok updOutcome =>
          refine (AfterDeferPath.applied upd _ _ happlied (.succeeded _ updOutcome hat hwait)).of_eq ?_
          by_cases hempty : workflowservice.GetFirstExecutionRunId req.GetRequest = "" <;>
            simp [Invoke.afterDefer, hrun, hpin2, hpin3, hfind2, hmsg2, hcn, hwait, callsToPending,
              callsToFind, callsToPin, pinOf, updateIDOf, messageOf, responseOf, hempty]
      obtain ⟨hpending, hex⟩ := hcreate
      subst hex
      have happlied : MessageApplied req weCtx upd false := ⟨hrun, hpin, hfind, hmsg⟩
      cases hwt : weCtx.GetMutableState.AddWorkflowTaskScheduledEvent false .SPECULATIVE with
      | error err =>
        refine (AfterDeferPath.applied upd _ _ happlied (.scheduleFailed err hpending rfl hwt)).of_eq ?_
        by_cases hempty : workflowservice.GetFirstExecutionRunId req.GetRequest = "" <;>
          simp [Invoke.afterDefer, hrun, hpin2, hpin3, hfind2, hmsg2, hpending, hwt, callsToPending,
            callsToFind, callsToPin, pinOf, updateIDOf, messageOf, hempty]
      | ok wt =>
        by_cases hspec : wt.Type_ = .SPECULATIVE
        swap
        · refine (AfterDeferPath.applied upd _ _ happlied
            (.notSpeculative wt hpending rfl hwt hspec)).of_eq ?_
          by_cases hempty : workflowservice.GetFirstExecutionRunId req.GetRequest = "" <;>
            simp [Invoke.afterDefer, hrun, hpin2, hpin3, hfind2, hmsg2, hpending, hwt, hspec,
              callsToPending, callsToFind, callsToPin, pinOf, updateIDOf, messageOf, hempty]
        cases hclock : shardCtx.NewVectorClock with
        | error err =>
          refine (AfterDeferPath.applied upd _ _ happlied
            (.clockFailed wt err hpending rfl hwt hspec hclock)).of_eq ?_
          by_cases hempty : workflowservice.GetFirstExecutionRunId req.GetRequest = "" <;>
            simp [Invoke.afterDefer, addWorkflowTaskToMatching, hrun, hpin2, hpin3, hfind2, hmsg2,
              hpending, hwt, hspec, hclock, callsToClock, callsToPending, callsToFind,
              callsToPin, pinOf, updateIDOf, messageOf, hempty]
        | ok clock =>
          cases hadd : matchingClient.AddWorkflowTask
              (matchingRequest req weCtx.GetMutableState wt clock) with
          | some err =>
            refine (AfterDeferPath.applied upd _ _ happlied
              (.matchingFailed wt clock err hpending rfl hwt hspec hclock hadd)).of_eq ?_
            unfold matchingRequest at hadd
            by_cases hempty : workflowservice.GetFirstExecutionRunId req.GetRequest = "" <;>
              simp [Invoke.afterDefer, addWorkflowTaskToMatching, hrun, hpin2, hpin3, hfind2, hmsg2,
                hpending, hwt, hspec, hclock, hadd, callsToClock, callsToPending, callsToFind,
                callsToPin, pinOf, updateIDOf, messageOf, matchingRequest, hempty]
          | none =>
            have hat : AtWait req shardCtx matchingClient weCtx upd false
                (callsToClock req upd wt ++
                  [Call.AddWorkflowTask (matchingRequest req weCtx.GetMutableState wt clock)]) :=
              .scheduled wt clock hpending rfl hwt hspec hclock hadd
            unfold matchingRequest at hadd
            cases hwait : (w upd).2 with
            | error err =>
              refine (AfterDeferPath.applied upd _ _ happlied (.waitFailed _ err hat hwait)).of_eq ?_
              by_cases hempty : workflowservice.GetFirstExecutionRunId req.GetRequest = "" <;>
                simp [Invoke.afterDefer, addWorkflowTaskToMatching, hrun, hpin2, hpin3, hfind2, hmsg2,
                  hpending, hwt, hspec, hclock, hadd, hwait, callsToClock, callsToPending,
                  callsToFind, callsToPin, pinOf, updateIDOf, messageOf, matchingRequest, hempty]
            | ok updOutcome =>
              refine (AfterDeferPath.applied upd _ _ happlied (.succeeded _ updOutcome hat hwait)).of_eq ?_
              by_cases hempty : workflowservice.GetFirstExecutionRunId req.GetRequest = "" <;>
                simp [Invoke.afterDefer, addWorkflowTaskToMatching, hrun, hpin2, hpin3, hfind2, hmsg2,
                  hpending, hwt, hspec, hclock, hadd, hwait, callsToClock, callsToPending,
                  callsToFind, callsToPin, pinOf, updateIDOf, messageOf, matchingRequest,
                  responseOf, hempty]

/-- Every run of `Invoke` follows one of the four top-level paths. -/
theorem Invoke_path
    (req : historyservice.UpdateWorkflowExecutionRequest)
    (shardCtx : shard.Context)
    (checker : api.WorkflowConsistencyChecker)
    (matchingClient : matchingservice.MatchingServiceClient)
    (stageText : enumspb.UpdateWorkflowExecutionLifecycleStage → String) :
    InvokePath req shardCtx checker matchingClient stageText
      (Invoke req shardCtx checker matchingClient stageText) := by
  cases hw : Invoke.waitLifecycleStage (waitStageOf req) with
  | none =>
    have e : Invoke req shardCtx checker matchingClient stageText =
        { calls := []
          result := .Return none
            (some (.Unimplemented (stageText (waitStageOf req) ++ " is not implemented"))) } := by
      unfold waitStageOf at hw
      simp only [Invoke, hw, waitStageOf]
    rw [e]
    exact .unsupportedStage hw
  | some w =>
    cases hkey : Invoke.workflowKey req with
    | none =>
      have e : Invoke req shardCtx checker matchingClient stageText =
          { calls := [], result := .Panic } := by
        unfold waitStageOf at hw
        simp only [Invoke, hw, hkey]
      rw [e]
      exact .nilDereference w hw hkey
    | some key =>
      cases hctx : checker.GetWorkflowContext key .LockPriorityHigh with
      | error err =>
        have e : Invoke req shardCtx checker matchingClient stageText =
            { calls := [Call.GetWorkflowContext key .LockPriorityHigh]
              result := .Return none (some err) } := by
          unfold waitStageOf at hw
          simp only [Invoke, hw, hkey, hctx]
        rw [e]
        exact .contextFailed w key err hw hkey hctx
      | ok weCtx =>
        rw [Invoke_of_context req shardCtx checker matchingClient stageText w key weCtx hw hkey
          hctx]
        exact .withContext w key weCtx _ hw hkey hctx (afterDefer_path _ _ _ _ _)

/-- The method of each kind of recorded call. -/
theorem Call.method_eqs :
    (∀ k p, (Call.GetWorkflowContext k p).method = Method.GetWorkflowContext) ∧
    (∀ e, (Call.ReleaseFn e).method = Method.ReleaseFn) ∧
    Call.GetMutableState.method = Method.GetMutableState ∧
    Call.IsWorkflowExecutionRunning.method = Method.IsWorkflowExecutionRunning ∧
    Call.GetExecutionInfo.method = Method.GetExecutionInfo ∧
    Call.GetUpdateRegistry.method = Method.GetUpdateRegistry ∧
    (∀ i, (Call.FindOrCreate i).method = Method.FindOrCreate) ∧
    (∀ u m, (Call.OnMessage u m).method = Method.OnMessage) ∧
    Call.HasPendingWorkflowTask.method = Method.HasPendingWorkflowTask ∧
    (∀ b t, (Call.AddWorkflowTaskScheduledEvent b t).method =
      Method.AddWorkflowTaskScheduledEvent) ∧
    (∀ n, (Call.TaskQueueScheduleToStartTimeout n).method =
      Method.TaskQueueScheduleToStartTimeout) ∧
    Call.MutableStateGetWorkflowKey.method = Method.MutableStateGetWorkflowKey ∧
    Call.NewVectorClock.method = Method.NewVectorClock ∧
    (∀ r, (Call.AddWorkflowTask r).method = Method.AddWorkflowTask) ∧
    (∀ u, (Call.WaitAccepted u).method = Method.WaitAccepted) ∧
    (∀ u, (Call.WaitOutcome u).method = Method.WaitOutcome) ∧
    Call.ContextGetWorkflowKey.method = Method.ContextGetWorkflowKey :=
  ⟨fun _ _ => rfl, fun _ => rfl, rfl, rfl, rfl, rfl, fun _ => rfl, fun _ _ => rfl, rfl,
    fun _ _ => rfl, fun _ => rfl, rfl, rfl, fun _ => rfl, fun _ => rfl, fun _ => rfl, rfl⟩

/-- The calls made up to `FindOrCreate`, one by one. -/
theorem mem_callsToFind_iff
    (req : historyservice.UpdateWorkflowExecutionRequest) (c : Call) :
    c ∈ callsToFind req ↔
      c = Call.GetMutableState ∨ c = Call.IsWorkflowExecutionRunning ∨
      (pinOf req ≠ "" ∧ c = Call.GetExecutionInfo) ∨
      c = Call.GetUpdateRegistry ∨ c = Call.FindOrCreate (updateIDOf req) := by
  unfold callsToFind callsToPin
  by_cases hempty : pinOf req = "" <;> simp [hempty]

/-- The calls made up to `HasPendingWorkflowTask`, one by one. -/
theorem mem_callsToPending_iff
    (req : historyservice.UpdateWorkflowExecutionRequest) (upd : update.Update) (c : Call) :
    c ∈ callsToPending req upd ↔
      c ∈ callsToFind req ∨ c = Call.OnMessage upd.id (messageOf req) ∨
      c = Call.HasPendingWorkflowTask := by
  unfold callsToPending
  simp

/-- The wait closure selected by the switch makes a `WaitAccepted` or a
`WaitOutcome` call on the update it is given. -/
theorem waitLifecycleStage_call
    (stage : enumspb.UpdateWorkflowExecutionLifecycleStage) (w : WaitLifecycleStage)
    (hw : Invoke.waitLifecycleStage stage = some w) (u : update.Update) :
    (w u).1 = Call.WaitAccepted u.id ∨ (w u).1 = Call.WaitOutcome u.id := by
  cases stage <;> simp [Invoke.waitLifecycleStage] at hw <;> subst hw <;> simp

/-- In a list split at an element satisfying `p`, whatever precedes the first
such element precedes the split point. -/
theorem mem_before_split {α : Type} (p : α → Prop) (A B pre post : List α) (x y z : α)
    (hy : p y) (hA : ∀ c ∈ A, ¬ p c)
    (h : A ++ x :: B = pre ++ y :: post) (hz : z ∈ A) : z ∈ pre := by
  rcases List.append_eq_append_iff.mp h with ⟨a, hpre, -⟩ | ⟨c, hAeq, hc⟩
  · rw [hpre]
    exact List.mem_append_left _ hz
  · cases c with
    | nil =>
      rw [hAeq] at hz
      simpa using hz
    | cons d ds =>
      simp only [List.cons_append, List.cons.injEq] at hc
      have : y ∈ A := by
        rw [hAeq, ← hc.1]
        simp
      exact absurd hy (hA y this)

/-- The methods called up to line 119. -/
theorem method_mem_of_mem_callsToPending
    (req : historyservice.UpdateWorkflowExecutionRequest) (upd : update.Update)
    (c : Call) (hc : c ∈ callsToPending req upd) :
    c.method ∈ [Method.GetMutableState, Method.IsWorkflowExecutionRunning,
      Method.GetExecutionInfo, Method.GetUpdateRegistry, Method.FindOrCreate,
      Method.OnMessage, Method.HasPendingWorkflowTask] := by
  unfold callsToPending callsToFind callsToPin at hc
  by_cases hempty : pinOf req = "" <;>
    simp [hempty] at hc <;>
    casesm* _ ∨ _ <;> subst_vars <;> simp [Call.method_eqs]

/-- A method that is not called up to line 119 has no call there. -/
theorem filter_callsToPending
    (req : historyservice.UpdateWorkflowExecutionRequest) (upd : update.Update)
    (m : Method)
    (hm : m ∉ [Method.GetMutableState, Method.IsWorkflowExecutionRunning,
      Method.GetExecutionInfo, Method.GetUpdateRegistry, Method.FindOrCreate,
      Method.OnMessage, Method.HasPendingWorkflowTask]) :
    (callsToPending req upd).filter (fun c => decide (c.method = m)) = [] := by
  rw [List.filter_eq_nil_iff]
  intro c hc hcm
  have := method_mem_of_mem_callsToPending req upd c hc
  simp only [decide_eq_true_eq] at hcm
  rw [hcm] at this
  exact hm this

/-- When the message has been applied, lines 97-160 follow one of the six
paths from line 119 on, for the update `FindOrCreate` answered. -/
theorem afterDefer_applied
    (req : historyservice.UpdateWorkflowExecutionRequest)
    (shardCtx : shard.Context)
    (matchingClient : matchingservice.MatchingServiceClient)
    (weCtx : api.WorkflowContext) (w : WaitLifecycleStage)
    (upd : update.Update) (alreadyExisted : Bool)
    (happlied : MessageApplied req weCtx upd alreadyExisted) :
    ScheduleWaitPath req shardCtx matchingClient weCtx w upd alreadyExisted
      (Invoke.afterDefer req shardCtx matchingClient weCtx w) := by
  obtain ⟨hrun, hpin, hfind, hmsg⟩ := happlied
  have hp := afterDefer_path req shardCtx matchingClient weCtx w
  generalize Invoke.afterDefer req shardCtx matchingClient weCtx w = body at hp
  cases hp with
  | notRunning h => rw [h] at hrun; cases hrun
  | pinMismatch _ h1 h2 => exact absurd hpin (by simp [h1, h2])
  | findFailed err _ _ hf => rw [hfind] at hf; cases hf
  | messageFailed u e err _ _ hf hm =>
    rw [hfind] at hf
    cases hf
    rw [hmsg] at hm
    cases hm
  | applied u e body ha hrest =>
    have hf := ha.2.2.1
    rw [hfind] at hf
    cases hf
    exact hrest

/-- For a supported stage, an acquired context and an applied message,
`Invoke` is one of the six paths from line 119 on, framed by the
`GetWorkflowContext` call and the deferred release. -/
theorem Invoke_applied
    (req : historyservice.UpdateWorkflowExecutionRequest)
    (shardCtx : shard.Context)
    (checker : api.WorkflowConsistencyChecker)
    (matchingClient : matchingservice.MatchingServiceClient)
    (stageText : enumspb.UpdateWorkflowExecutionLifecycleStage → String)
    (key : definition.WorkflowKey) (weCtx : api.WorkflowContext)
    (upd : update.Update) (alreadyExisted : Bool)
    (hstage : waitStageOf req = .ACCEPTED ∨ waitStageOf req = .COMPLETED)
    (hkey : Invoke.workflowKey req = some key)
    (hctx : checker.GetWorkflowContext key .LockPriorityHigh = .ok weCtx)
    (happlied : MessageApplied req weCtx upd alreadyExisted) :
    ∃ w body,
      ((waitStageOf req = .ACCEPTED ∧ w = fun u => (Call.WaitAccepted u.id, u.WaitAccepted)) ∨
       (waitStageOf req = .COMPLETED ∧ w = fun u => (Call.WaitOutcome u.id, u.WaitOutcome))) ∧
      ScheduleWaitPath req shardCtx matchingClient weCtx w upd alreadyExisted body ∧
      Invoke req shardCtx checker matchingClient stageText =
        { calls := [Call.GetWorkflowContext key .LockPriorityHigh] ++ body.1
            ++ [Call.ReleaseFn body.2.2]
          result := .Return body.2.1 body.2.2 } := by
  obtain ⟨w, hw, hwcases⟩ := waitLifecycleStage_supported _ hstage
  exact ⟨w, _, hwcases, afterDefer_applied req shardCtx matchingClient weCtx w upd alreadyExisted
    happlied, Invoke_of_context req shardCtx checker matchingClient stageText w key weCtx hw hkey
    hctx⟩

/-- The paths from the wait step are determined by the answers. -/
theorem AtWait_unique
    {req : historyservice.UpdateWorkflowExecutionRequest}
    {shardCtx : shard.Context}
    {matchingClient : matchingservice.MatchingServiceClient}
    {weCtx : api.WorkflowContext} {upd : update.Update} {alreadyExisted : Bool}
    {x y : List Call}
    (hx : AtWait req shardCtx matchingClient weCtx upd alreadyExisted x)
    (hy : AtWait req shardCtx matchingClient weCtx upd alreadyExisted y) : x = y := by
  cases hx <;> cases hy <;> first | rfl | (exfalso; simp_all; done) | simp_all

/-- The paths from line 119 on are determined by the answers. -/
theorem ScheduleWaitPath_unique
    {req : historyservice.UpdateWorkflowExecutionRequest}
    {shardCtx : shard.Context}
    {matchingClient : matchingservice.MatchingServiceClient}
    {weCtx : api.WorkflowContext} {w : WaitLifecycleStage}
    {upd : update.Update} {alreadyExisted : Bool}
    {x y : List Call × Option historyservice.UpdateWorkflowExecutionResponse × Option Error}
    (hx : ScheduleWaitPath req shardCtx matchingClient weCtx w upd alreadyExisted x)
    (hy : ScheduleWaitPath req shardCtx matchingClient weCtx w upd alreadyExisted y) :
    x = y := by
  cases hx with
  | waitFailed calls err hat hwait =>
    cases hy with
    | waitFailed calls2 err2 hat2 hwait2 =>
      obtain rfl := AtWait_unique hat hat2
      simp_all
    | succeeded calls2 out2 hat2 hwait2 => simp_all
    | _ => cases hat <;> (exfalso; simp_all)
  | succeeded calls out hat hwait =>
    cases hy with
    | waitFailed calls2 err2 hat2 hwait2 => simp_all
    | succeeded calls2 out2 hat2 hwait2 =>
      obtain rfl := AtWait_unique hat hat2
      simp_all
    | _ => cases hat <;> (exfalso; simp_all)
  | scheduleFailed err hpending hnew hwt =>
    cases hy with
    | waitFailed calls2 err2 hat2 hwait2 => cases hat2 <;> (exfalso; simp_all)
    | succeeded calls2 out2 hat2 hwait2 => cases hat2 <;> (exfalso; simp_all)
    | _ => simp_all
  | notSpeculative wt hpending hnew hwt hspec =>
    cases hy with
    | waitFailed calls2 err2 hat2 hwait2 => cases hat2 <;> (exfalso; simp_all)
    | succeeded calls2 out2 hat2 hwait2 => cases hat2 <;> (exfalso; simp_all)
    | _ => simp_all
  | clockFailed wt err hpending hnew hwt hspec hclock =>
    cases hy with
    | waitFailed calls2 err2 hat2 hwait2 => cases hat2 <;> (exfalso; simp_all)
    | succeeded calls2 out2 hat2 hwait2 => cases hat2 <;> (exfalso; simp_all)
    | _ => simp_all
  | matchingFailed wt clock err hpending hnew hwt hspec hclock hadd =>
    cases hy with
    | waitFailed calls2 err2 hat2 hwait2 => cases hat2 <;> (exfalso; simp_all)
    | succeeded calls2 out2 hat2 hwait2 => cases hat2 <;> (exfalso; simp_all)
    | _ => simp_all

/-- The paths through lines 97-160 are determined by the answers. -/
theorem AfterDeferPath_unique
    {req : historyservice.UpdateWorkflowExecutionRequest}
    {shardCtx : shard.Context}
    {matchingClient : matchingservice.MatchingServiceClient}
    {weCtx : api.WorkflowContext} {w : WaitLifecycleStage}
    {x y : List Call × Option historyservice.UpdateWorkflowExecutionResponse × Option Error}
    (hx : AfterDeferPath req shardCtx matchingClient weCtx w x)
    (hy : AfterDeferPath req shardCtx matchingClient weCtx w y) : x = y := by
  cases hx with
  | applied upd e body happlied hrest =>
    cases hy with
    | applied upd2 e2 body2 happlied2 hrest2 =>
      have h1 := happlied.2.2.1
      rw [happlied2.2.2.1] at h1
      cases h1
      exact ScheduleWaitPath_unique hrest hrest2
    | _ => exfalso; simp_all [MessageApplied]
  | _ =>
    cases hy with
    | applied upd2 e2 body2 happlied2 hrest2 => exfalso; simp_all [MessageApplied]
    | _ => simp_all

/-- With the context acquired, the run of `Invoke` is given by any path through
lines 97-160 that the answers select. -/
theorem Invoke_eq_of_path
    (req : historyservice.UpdateWorkflowExecutionRequest)
    (shardCtx : shard.Context)
    (checker : api.WorkflowConsistencyChecker)
    (matchingClient : matchingservice.MatchingServiceClient)
    (stageText : enumspb.UpdateWorkflowExecutionLifecycleStage → String)
    (w : WaitLifecycleStage) (key : definition.WorkflowKey) (weCtx : api.WorkflowContext)
    (body : List Call × Option historyservice.UpdateWorkflowExecutionResponse × Option Error)
    (hw : Invoke.waitLifecycleStage (waitStageOf req) = some w)
    (hkey : Invoke.workflowKey req = some key)
    (hctx : checker.GetWorkflowContext key .LockPriorityHigh = .ok weCtx)
    (hbody : AfterDeferPath req shardCtx matchingClient weCtx w body) :
    Invoke req shardCtx checker matchingClient stageText =
      { calls := [Call.GetWorkflowContext key .LockPriorityHigh] ++ body.1
          ++ [Call.ReleaseFn body.2.2]
        result := .Return body.2.1 body.2.2 } := by
  rw [Invoke_of_context req shardCtx checker matchingClient stageText w key weCtx hw hkey hctx,
    AfterDeferPath_unique (afterDefer_path req shardCtx matchingClient weCtx w) hbody]

/-- C1: for a request with a supported wait stage whose workflow is running
and passes the pin check, and for which `FindOrCreate` and `OnMessage`
succeed, the calls of `Invoke` to `AddWorkflowTaskScheduledEvent` are exactly
one call with arguments `(false, SPECULATIVE)` when the mutable state has no
pending workflow task and the update did not already exist, and no call
otherwise; in particular there is no such call while a task is pending. -/
theorem C1_schedules_speculative_task_iff_needed
    (req : historyservice.UpdateWorkflowExecutionRequest)
    (shardCtx : shard.Context)
    (checker : api.WorkflowConsistencyChecker)
    (matchingClient : matchingservice.MatchingServiceClient)
    (stageText : enumspb.UpdateWorkflowExecutionLifecycleStage → String)
    (key : definition.WorkflowKey) (weCtx : api.WorkflowContext)
    (upd : update.Update) (alreadyExisted : Bool)
    (hstage : waitStageOf req = .ACCEPTED ∨ waitStageOf req = .COMPLETED)
    (hkey : Invoke.workflowKey req = some key)
    (hctx : checker.GetWorkflowContext key .LockPriorityHigh = .ok weCtx)
    (hrun : weCtx.GetMutableState.IsWorkflowExecutionRunning = true)
    (hpin : pinOf req = "" ∨
      persistencespb.GetFirstExecutionRunId weCtx.GetMutableState.GetExecutionInfo = pinOf req)
    (hfind : weCtx.GetUpdateRegistry.FindOrCreate (updateIDOf req) = .ok (upd, alreadyExisted))
    (hmsg : upd.OnMessage (messageOf req) = none) :
    ((Invoke req shardCtx checker matchingClient stageText).calls.filter
        (fun c => c.method = Method.AddWorkflowTaskScheduledEvent)
      = if weCtx.GetMutableState.HasPendingWorkflowTask = false ∧ alreadyExisted = false
        then [Call.AddWorkflowTaskScheduledEvent false .SPECULATIVE] else []) ∧
    (weCtx.GetMutableState.HasPendingWorkflowTask = true →
      ∀ c ∈ (Invoke req shardCtx checker matchingClient stageText).calls,
        c.method ≠ Method.AddWorkflowTaskScheduledEvent) := by
  have key_fact : (Invoke req shardCtx checker matchingClient stageText).calls.filter
        (fun c => c.method = Method.AddWorkflowTaskScheduledEvent)
      = if weCtx.GetMutableState.HasPendingWorkflowTask = false ∧ alreadyExisted = false
        then [Call.AddWorkflowTaskScheduledEvent false .SPECULATIVE] else [] := by
    obtain ⟨w, body, hwcases, hp, e⟩ := Invoke_applied req shardCtx checker matchingClient
      stageText key weCtx upd alreadyExisted hstage hkey hctx ⟨hrun, hpin, hfind, hmsg⟩
    rw [e]
    have hwm : ((w upd).1).method ≠ Method.AddWorkflowTaskScheduledEvent := by
      rcases hwcases with ⟨-, rfl⟩ | ⟨-, rfl⟩ <;> simp [Call.method_eqs]
    cases hp with
    | waitFailed calls err hat hwait =>
      cases hat with
      | notScheduled hno =>
        have : ¬ (weCtx.GetMutableState.HasPendingWorkflowTask = false ∧
            alreadyExisted = false) := by
          rcases hno with h | h <;> simp [h]
        simp [List.filter_append, filter_callsToPending, List.filter_cons, this, hwm,
          Call.method_eqs]
      | scheduled wt clock hpending hnew =>
        simp [List.filter_append, filter_callsToPending, List.filter_cons, hpending, hnew, hwm,
          Call.method_eqs, callsToClock]
    | succeeded calls out hat hwait =>
      cases hat with
      | notScheduled hno =>
        have : ¬ (weCtx.GetMutableState.HasPendingWorkflowTask = false ∧
            alreadyExisted = false) := by
          rcases hno with h | h <;> simp [h]
        simp [List.filter_append, filter_callsToPending, List.filter_cons, this, hwm,
          Call.method_eqs]
      | scheduled wt clock hpending hnew =>
        simp [List.filter_append, filter_callsToPending, List.filter_cons, hpending, hnew, hwm,
          Call.method_eqs, callsToClock]
    | _ =>
      simp [List.filter_append, filter_callsToPending, List.filter_cons, *, Call.method_eqs,
        callsToClock]
  refine ⟨key_fact, fun hpending c hc hm => ?_⟩
  have hmem : c ∈ (Invoke req shardCtx checker matchingClient stageText).calls.filter
      (fun c => c.method = Method.AddWorkflowTaskScheduledEvent) :=
    List.mem_filter.mpr ⟨hc, by simpa using hm⟩
  rw [key_fact] at hmem
  simp [hpending] at hmem


/-- C1 at a concrete run: a new update on a running workflow without pending
workflow task schedules exactly one speculative workflow task. -/
theorem C1_schedules_speculative_task_iff_needed_witness :
    (Invoke (sample.req (some .ACCEPTED) "") (sample.shardCtx true)
        (sample.checker true false false .SPECULATIVE) sample.matchingClient
        sample.stageText).calls.filter
        (fun c => c.method = Method.AddWorkflowTaskScheduledEvent)
      = [Call.AddWorkflowTaskScheduledEvent false .SPECULATIVE] :=
  (C1_schedules_speculative_task_iff_needed (sample.req (some .ACCEPTED) "")
    (sample.shardCtx true) (sample.checker true false false .SPECULATIVE)
    sample.matchingClient sample.stageText sample.key
    (sample.weCtx true false false .SPECULATIVE) sample.upd false
    (Or.inl rfl) rfl rfl rfl (Or.inl rfl) rfl rfl).1

/-- C2: in every run of `Invoke`, whatever precedes a call to the matching
client's `AddWorkflowTask` contains an invocation of the release function
with a nil error. -/
theorem C2_release_before_matching
    (req : historyservice.UpdateWorkflowExecutionRequest)
    (shardCtx : shard.Context)
    (checker : api.WorkflowConsistencyChecker)
    (matchingClient : matchingservice.MatchingServiceClient)
    (stageText : enumspb.UpdateWorkflowExecutionLifecycleStage → String)
    (before after : List Call) (request : matchingservice.AddWorkflowTaskRequest)
    (h : (Invoke req shardCtx checker matchingClient stageText).calls
      = before ++ Call.AddWorkflowTask request :: after) :
    Call.ReleaseFn none ∈ before := by
  have hp := Invoke_path req shardCtx checker matchingClient stageText
  generalize Invoke req shardCtx checker matchingClient stageText = run at hp h
  have hmem : Call.AddWorkflowTask request ∈ run.calls := by rw [h]; simp
  have hclock : ∀ key upd wt, ∀ c ∈ Call.GetWorkflowContext key .LockPriorityHigh ::
        callsToClock req upd wt, ¬ c.method = Method.AddWorkflowTask := by
    intro key upd wt c hc
    simp only [callsToClock, List.mem_cons, List.mem_append, mem_callsToPending_iff,
      mem_callsToFind_iff, List.mem_nil_iff, or_false] at hc
    casesm* _ ∨ _, _ ∧ _ <;> subst_vars <;> simp [Call.method_eqs]
  have hrel : ∀ key upd wt, Call.ReleaseFn none ∈ Call.GetWorkflowContext key
      .LockPriorityHigh :: callsToClock req upd wt := by
    intro key upd wt
    simp [callsToClock]
  cases hp with
  | unsupportedStage hw => simp at hmem
  | nilDereference w hw hkey => simp at hmem
  | contextFailed w key err hw hkey hctx => simp at hmem
  | withContext w key weCtx body hw hkey hctx hbody =>
    cases hbody with
    | notRunning hrun => simp at hmem
    | pinMismatch hrun hpin hfirst => simp at hmem
    | findFailed err hrun hpin hfind => simp [mem_callsToFind_iff] at hmem
    | messageFailed upd e err hrun hpin hfind hmsg => simp [mem_callsToFind_iff] at hmem
    | applied upd e body happlied hrest =>
      have hwc := waitLifecycleStage_call _ w hw upd
      cases hrest with
      | scheduleFailed err hpending hnew hwt =>
        simp [mem_callsToPending_iff, mem_callsToFind_iff] at hmem
      | notSpeculative wt hpending hnew hwt hspec =>
        simp [mem_callsToPending_iff, mem_callsToFind_iff] at hmem
      | clockFailed wt err hpending hnew hwt hspec hclk =>
        simp [callsToClock, mem_callsToPending_iff, mem_callsToFind_iff] at hmem
      | matchingFailed wt clock err hpending hnew hwt hspec hclk hadd =>
        refine mem_before_split (fun c => c.method = Method.AddWorkflowTask)
          (Call.GetWorkflowContext key .LockPriorityHigh :: callsToClock req upd wt)
          [Call.ReleaseFn (some err)] before after
          (Call.AddWorkflowTask (matchingRequest req weCtx.GetMutableState wt clock))
          (Call.AddWorkflowTask request) (Call.ReleaseFn none) rfl (hclock key upd wt) ?_
          (hrel key upd wt)
        simpa using h
      | waitFailed calls err hat hwait =>
        cases hat with
        | notScheduled hno =>
          rcases hwc with hwc | hwc <;>
            simp [hwc, mem_callsToPending_iff, mem_callsToFind_iff] at hmem
        | scheduled wt clock hpending hnew hwt hspec hclk hadd =>
          refine mem_before_split (fun c => c.method = Method.AddWorkflowTask)
            (Call.GetWorkflowContext key .LockPriorityHigh :: callsToClock req upd wt)
            [(w upd).1, Call.ReleaseFn (some err)] before after
            (Call.AddWorkflowTask (matchingRequest req weCtx.GetMutableState wt clock))
            (Call.AddWorkflowTask request) (Call.ReleaseFn none) rfl (hclock key upd wt) ?_
            (hrel key upd wt)
          simpa using h
      | succeeded calls out hat hwait =>
        cases hat with
        | notScheduled hno =>
          rcases hwc with hwc | hwc <;>
            simp [hwc, mem_callsToPending_iff, mem_callsToFind_iff] at hmem
        | scheduled wt clock hpending hnew hwt hspec hclk hadd =>
          refine mem_before_split (fun c => c.method = Method.AddWorkflowTask)
            (Call.GetWorkflowContext key .LockPriorityHigh :: callsToClock req upd wt)
            [(w upd).1, Call.ContextGetWorkflowKey, Call.ContextGetWorkflowKey,
              Call.ReleaseFn none] before after
            (Call.AddWorkflowTask (matchingRequest req weCtx.GetMutableState wt clock))
            (Call.AddWorkflowTask request) (Call.ReleaseFn none) rfl (hclock key upd wt) ?_
            (hrel key upd wt)
          simpa using h

/-- C2 at a concrete run that schedules a task: the calls before the
`AddWorkflowTask` call contain the release with a nil error. -/
theorem C2_release_before_matching_witness :
    Call.ReleaseFn none ∈
      [Call.GetWorkflowContext sample.key .LockPriorityHigh, Call.GetMutableState,
        Call.IsWorkflowExecutionRunning, Call.GetUpdateRegistry, Call.FindOrCreate "u1",
        Call.OnMessage 7 (messageOf (sample.req (some .ACCEPTED) "")),
        Call.HasPendingWorkflowTask,
        Call.AddWorkflowTaskScheduledEvent false .SPECULATIVE, Call.ReleaseFn none,
        Call.TaskQueueScheduleToStartTimeout "tq", Call.MutableStateGetWorkflowKey,
        Call.NewVectorClock] :=
  C2_release_before_matching (sample.req (some .ACCEPTED) "") (sample.shardCtx true)
    (sample.checker true false false .SPECULATIVE) sample.matchingClient sample.stageText
    _ [Call.WaitAccepted 7, Call.ContextGetWorkflowKey, Call.ContextGetWorkflowKey,
      Call.ReleaseFn none]
    (matchingRequest (sample.req (some .ACCEPTED) "") (sample.ms true false .SPECULATIVE)
      (sample.wt .SPECULATIVE) { ShardId := 1, Clock := 42, ClusterId := 0 })
    rfl

/-- C3: for a request with a supported wait stage, if the mutable state of the
acquired context reports that the workflow is not running, `Invoke` returns
`ErrWorkflowCompleted` with no response; its calls are the acquisition, the
two reads of the mutable state and the deferred release, so `FindOrCreate`,
`OnMessage`, `AddWorkflowTaskScheduledEvent`, the matching client and the
wait functions are not called. -/
theorem C3_not_running_returns_workflow_completed
    (req : historyservice.UpdateWorkflowExecutionRequest)
    (shardCtx : shard.Context)
    (checker : api.WorkflowConsistencyChecker)
    (matchingClient : matchingservice.MatchingServiceClient)
    (stageText : enumspb.UpdateWorkflowExecutionLifecycleStage → String)
    (key : definition.WorkflowKey) (weCtx : api.WorkflowContext)
    (hstage : waitStageOf req = .ACCEPTED ∨ waitStageOf req = .COMPLETED)
    (hkey : Invoke.workflowKey req = some key)
    (hctx : checker.GetWorkflowContext key .LockPriorityHigh = .ok weCtx)
    (hrun : weCtx.GetMutableState.IsWorkflowExecutionRunning = false) :
    (Invoke req shardCtx checker matchingClient stageText).result
        = .Return none (some .ErrWorkflowCompleted) ∧
    (Invoke req shardCtx checker matchingClient stageText).calls
        = [Call.GetWorkflowContext key .LockPriorityHigh, Call.GetMutableState,
            Call.IsWorkflowExecutionRunning, Call.ReleaseFn (some .ErrWorkflowCompleted)] ∧
    ∀ c ∈ (Invoke req shardCtx checker matchingClient stageText).calls,
      c.method ∉ [Method.FindOrCreate, Method.OnMessage,
        Method.AddWorkflowTaskScheduledEvent, Method.AddWorkflowTask,
        Method.WaitAccepted, Method.WaitOutcome] := by
  obtain ⟨w, hw, -⟩ := waitLifecycleStage_supported _ hstage
  have hbody : Invoke.afterDefer req shardCtx matchingClient weCtx w =
      ([Call.GetMutableState, Call.IsWorkflowExecutionRunning], none,
        some .ErrWorkflowCompleted) := by
    simp [Invoke.afterDefer, hrun]
  rw [Invoke_of_context req shardCtx checker matchingClient stageText w key weCtx hw hkey hctx,
    hbody]
  refine ⟨rfl, rfl, ?_⟩
  intro c hc
  simp only [List.cons_append, List.nil_append, List.mem_cons, List.mem_nil_iff,
    or_false] at hc
  casesm* _ ∨ _ <;> subst_vars <;> simp [Call.method_eqs]

/-- C3 at a concrete run on a closed workflow. -/
theorem C3_not_running_returns_workflow_completed_witness :
    (Invoke (sample.req (some .COMPLETED) "") (sample.shardCtx true)
        (sample.checker false false false .SPECULATIVE) sample.matchingClient
        sample.stageText).result = .Return none (some .ErrWorkflowCompleted) :=
  (C3_not_running_returns_workflow_completed (sample.req (some .COMPLETED) "")
    (sample.shardCtx true) (sample.checker false false false .SPECULATIVE)
    sample.matchingClient sample.stageText sample.key
    (sample.weCtx false false false .SPECULATIVE) (Or.inr rfl) rfl rfl rfl).1

/-- C4, counterexample: a request on the running sample workflow whose pin `x`
is non-empty and differs from the first run id `first` of the mutable state,
with the wait stage `ADMITTED`: `Invoke` returns `Unimplemented` at the switch
on the wait stage (lines 59-79), before it calls anything, and not
`ErrWorkflowExecutionNotFound`. -/
theorem C4_unsupported_stage_counterexample :
    pinOf (sample.req (some .ADMITTED) "x") ≠ "" ∧
    persistencespb.GetFirstExecutionRunId
      (sample.weCtx true false false .SPECULATIVE).GetMutableState.GetExecutionInfo ≠
        pinOf (sample.req (some .ADMITTED) "x") ∧
    (sample.weCtx true false false .SPECULATIVE).GetMutableState.IsWorkflowExecutionRunning =
      true ∧
    Invoke (sample.req (some .ADMITTED) "x") (sample.shardCtx true)
        (sample.checker true false false .SPECULATIVE) sample.matchingClient sample.stageText =
      { calls := []
        result := .Return none (some (.Unimplemented "Admitted is not implemented")) } :=
  ⟨by decide, by decide, rfl, rfl⟩

/-- C4, amended: for a request with a supported wait stage on a running workflow,
`Invoke` ends at the pin check (line 103), returning
`ErrWorkflowExecutionNotFound` with no response right after reading the
execution info, if and only if the request's first-execution run id is
non-empty and differs from that of the mutable state.  When it does, neither
the update registry nor any later collaborator is called; when the pin is
empty or equal, the run goes on to the update registry. -/
theorem C4_pin_mismatch_iff_not_found_at_pin_check
    (req : historyservice.UpdateWorkflowExecutionRequest)
    (shardCtx : shard.Context)
    (checker : api.WorkflowConsistencyChecker)
    (matchingClient : matchingservice.MatchingServiceClient)
    (stageText : enumspb.UpdateWorkflowExecutionLifecycleStage → String)
    (key : definition.WorkflowKey) (weCtx : api.WorkflowContext)
    (hstage : waitStageOf req = .ACCEPTED ∨ waitStageOf req = .COMPLETED)
    (hkey : Invoke.workflowKey req = some key)
    (hctx : checker.GetWorkflowContext key .LockPriorityHigh = .ok weCtx)
    (hrun : weCtx.GetMutableState.IsWorkflowExecutionRunning = true) :
    (Invoke req shardCtx checker matchingClient stageText =
        { calls := [Call.GetWorkflowContext key .LockPriorityHigh, Call.GetMutableState,
            Call.IsWorkflowExecutionRunning, Call.GetExecutionInfo,
            Call.ReleaseFn (some .ErrWorkflowExecutionNotFound)]
          result := .Return none (some .ErrWorkflowExecutionNotFound) }
      ↔ (pinOf req ≠ "" ∧
          persistencespb.GetFirstExecutionRunId weCtx.GetMutableState.GetExecutionInfo
            ≠ pinOf req)) ∧
    ((pinOf req ≠ "" ∧
        persistencespb.GetFirstExecutionRunId weCtx.GetMutableState.GetExecutionInfo
          ≠ pinOf req) →
      ∀ c ∈ (Invoke req shardCtx checker matchingClient stageText).calls,
        c.method ∉ [Method.GetUpdateRegistry, Method.FindOrCreate, Method.OnMessage,
          Method.AddWorkflowTaskScheduledEvent, Method.AddWorkflowTask,
          Method.WaitAccepted, Method.WaitOutcome]) ∧
    ((pinOf req = "" ∨
        persistencespb.GetFirstExecutionRunId weCtx.GetMutableState.GetExecutionInfo
          = pinOf req) →
      Call.GetUpdateRegistry ∈ (Invoke req shardCtx checker matchingClient stageText).calls) := by
  obtain ⟨w, hw, -⟩ := waitLifecycleStage_supported _ hstage
  have hfail : (pinOf req ≠ "" ∧
      persistencespb.GetFirstExecutionRunId weCtx.GetMutableState.GetExecutionInfo
        ≠ pinOf req) →
      Invoke req shardCtx checker matchingClient stageText =
        { calls := [Call.GetWorkflowContext key .LockPriorityHigh, Call.GetMutableState,
            Call.IsWorkflowExecutionRunning, Call.GetExecutionInfo,
            Call.ReleaseFn (some .ErrWorkflowExecutionNotFound)]
          result := .Return none (some .ErrWorkflowExecutionNotFound) } := by
    rintro ⟨h1, h2⟩
    have hbody : Invoke.afterDefer req shardCtx matchingClient weCtx w =
        ([Call.GetMutableState, Call.IsWorkflowExecutionRunning, Call.GetExecutionInfo], none,
          some .ErrWorkflowExecutionNotFound) := by
      unfold pinOf at h1 h2
      simp [Invoke.afterDefer, hrun, h1, h2]
    rw [Invoke_of_context req shardCtx checker matchingClient stageText w key weCtx hw hkey
      hctx, hbody]
    rfl
  have hgo : (pinOf req = "" ∨
      persistencespb.GetFirstExecutionRunId weCtx.GetMutableState.GetExecutionInfo
        = pinOf req) →
      Call.GetUpdateRegistry ∈ (Invoke req shardCtx checker matchingClient stageText).calls := by
    intro hpin
    rw [Invoke_of_context req shardCtx checker matchingClient stageText w key weCtx hw hkey
      hctx]
    have hp := afterDefer_path req shardCtx matchingClient weCtx w
    generalize Invoke.afterDefer req shardCtx matchingClient weCtx w = body at hp
    cases hp with
    | notRunning h => rw [h] at hrun; cases hrun
    | pinMismatch _ h1 h2 => exact absurd hpin (by simp [h1, h2])
    | findFailed err _ _ hf => simp [mem_callsToFind_iff]
    | messageFailed u e err _ _ hf hm => simp [mem_callsToFind_iff]
    | applied u e body ha hrest =>
      cases hrest with
      | waitFailed calls err hat hwait =>
        cases hat <;> simp [callsToClock, mem_callsToPending_iff, mem_callsToFind_iff]
      | succeeded calls out hat hwait =>
        cases hat <;> simp [callsToClock, mem_callsToPending_iff, mem_callsToFind_iff]
      | _ => simp [callsToClock, mem_callsToPending_iff, mem_callsToFind_iff]
  refine ⟨⟨fun hrunEq => ?_, hfail⟩, fun hmis c hc => ?_, hgo⟩
  · by_contra hne
    have hpin : pinOf req = "" ∨
        persistencespb.GetFirstExecutionRunId weCtx.GetMutableState.GetExecutionInfo
          = pinOf req := by
      by_cases h1 : pinOf req = ""
      · exact Or.inl h1
      · refine Or.inr ?_
        by_contra h2
        exact hne ⟨h1, h2⟩
    have hmem := hgo hpin
    rw [hrunEq] at hmem
    simp at hmem
  · rw [hfail hmis] at hc
    simp only [List.mem_cons, List.mem_nil_iff, or_false] at hc
    casesm* _ ∨ _ <;> subst_vars <;> simp [Call.method_eqs]

/-- C4 at a concrete run whose pin `x` differs from the first run id `first`:
the run ends at the pin check. -/
theorem C4_pin_mismatch_iff_not_found_at_pin_check_witness :
    Invoke (sample.req (some .COMPLETED) "x") (sample.shardCtx true)
        (sample.checker true false false .SPECULATIVE) sample.matchingClient sample.stageText =
      { calls := [Call.GetWorkflowContext sample.key .LockPriorityHigh, Call.GetMutableState,
          Call.IsWorkflowExecutionRunning, Call.GetExecutionInfo,
          Call.ReleaseFn (some .ErrWorkflowExecutionNotFound)]
        result := .Return none (some .ErrWorkflowExecutionNotFound) } :=
  (C4_pin_mismatch_iff_not_found_at_pin_check (sample.req (some .COMPLETED) "x")
    (sample.shardCtx true) (sample.checker true false false .SPECULATIVE)
    sample.matchingClient sample.stageText sample.key
    (sample.weCtx true false false .SPECULATIVE) (Or.inr rfl) rfl rfl rfl).1.mpr
    ⟨by decide, by decide⟩

/-- C5: for a request whose wait stage is neither `ACCEPTED` nor `COMPLETED`
(an unset wait policy reads as `UNSPECIFIED`), `Invoke` returns an
`Unimplemented` error naming the stage, with no response, and makes no
collaborator call at all. -/
theorem C5_unsupported_stage_is_unimplemented
    (req : historyservice.UpdateWorkflowExecutionRequest)
    (shardCtx : shard.Context)
    (checker : api.WorkflowConsistencyChecker)
    (matchingClient : matchingservice.MatchingServiceClient)
    (stageText : enumspb.UpdateWorkflowExecutionLifecycleStage → String)
    (hstage : waitStageOf req ≠ .ACCEPTED ∧ waitStageOf req ≠ .COMPLETED) :
    Invoke req shardCtx checker matchingClient stageText =
      { calls := []
        result := .Return none
          (some (.Unimplemented (stageText (waitStageOf req) ++ " is not implemented"))) } := by
  have hw : Invoke.waitLifecycleStage (waitStageOf req) = none := by
    generalize waitStageOf req = stage at hstage
    cases stage <;> simp_all [Invoke.waitLifecycleStage]
  unfold waitStageOf at hw
  simp only [Invoke, hw, waitStageOf]

/-- C5 at a request without wait policy. -/
theorem C5_unsupported_stage_is_unimplemented_witness :
    Invoke (sample.req none "") (sample.shardCtx true)
        (sample.checker true false false .SPECULATIVE) sample.matchingClient sample.stageText =
      { calls := []
        result := .Return none (some (.Unimplemented "Unspecified is not implemented")) } :=
  C5_unsupported_stage_is_unimplemented (sample.req none "") (sample.shardCtx true)
    (sample.checker true false false .SPECULATIVE) sample.matchingClient sample.stageText
    ⟨by decide, by decide⟩

/-- C6: when `Invoke` schedules a workflow task (the message is applied, no
workflow task is pending and the update is new) and
`AddWorkflowTaskScheduledEvent` succeeds with a task whose type is not
`SPECULATIVE`, `Invoke` returns `ErrWorkflowTaskStateInconsistent` with no
response right after the scheduling call; it makes no `AddWorkflowTask` call
and no wait call. -/
theorem C6_non_speculative_task_is_inconsistent
    (req : historyservice.UpdateWorkflowExecutionRequest)
    (shardCtx : shard.Context)
    (checker : api.WorkflowConsistencyChecker)
    (matchingClient : matchingservice.MatchingServiceClient)
    (stageText : enumspb.UpdateWorkflowExecutionLifecycleStage → String)
    (key : definition.WorkflowKey) (weCtx : api.WorkflowContext)
    (upd : update.Update) (wt : workflow.WorkflowTaskInfo)
    (hstage : waitStageOf req = .ACCEPTED ∨ waitStageOf req = .COMPLETED)
    (hkey : Invoke.workflowKey req = some key)
    (hctx : checker.GetWorkflowContext key .LockPriorityHigh = .ok weCtx)
    (hrun : weCtx.GetMutableState.IsWorkflowExecutionRunning = true)
    (hpin : pinOf req = "" ∨
      persistencespb.GetFirstExecutionRunId weCtx.GetMutableState.GetExecutionInfo = pinOf req)
    (hfind : weCtx.GetUpdateRegistry.FindOrCreate (updateIDOf req) = .ok (upd, false))
    (hmsg : upd.OnMessage (messageOf req) = none)
    (hpending : weCtx.GetMutableState.HasPendingWorkflowTask = false)
    (hwt : weCtx.GetMutableState.AddWorkflowTaskScheduledEvent false .SPECULATIVE = .ok wt)
    (hspec : wt.Type_ ≠ .SPECULATIVE) :
    (Invoke req shardCtx checker matchingClient stageText).result
        = .Return none (some .ErrWorkflowTaskStateInconsistent) ∧
    (Invoke req shardCtx checker matchingClient stageText).calls
        = Call.GetWorkflowContext key .LockPriorityHigh :: callsToPending req upd ++
          [Call.AddWorkflowTaskScheduledEvent false .SPECULATIVE,
            Call.ReleaseFn (some .ErrWorkflowTaskStateInconsistent)] ∧
    ∀ c ∈ (Invoke req shardCtx checker matchingClient stageText).calls,
      c.method ∉ [Method.AddWorkflowTask, Method.WaitAccepted, Method.WaitOutcome] := by
  obtain ⟨w, body, -, hp, e⟩ := Invoke_applied req shardCtx checker matchingClient
    stageText key weCtx upd false hstage hkey hctx ⟨hrun, hpin, hfind, hmsg⟩
  rw [e]
  have hnot : ¬ (weCtx.GetMutableState.HasPendingWorkflowTask = true ∨ false = true) := by
    simp [hpending]
  cases hp with
  | scheduleFailed err _ _ h => rw [hwt] at h; cases h
  | notSpeculative wt2 _ _ h _ =>
    refine ⟨rfl, by simp, ?_⟩
    intro c hc
    simp only [List.cons_append, List.nil_append, List.mem_cons, List.mem_append,
      mem_callsToPending_iff, mem_callsToFind_iff, List.mem_nil_iff, or_false] at hc
    casesm* _ ∨ _, _ ∧ _ <;> subst_vars <;> simp [Call.method_eqs]
  | clockFailed wt2 err _ _ h hs _ => rw [hwt] at h; cases h; exact absurd hs hspec
  | matchingFailed wt2 clock err _ _ h hs _ _ => rw [hwt] at h; cases h; exact absurd hs hspec
  | waitFailed calls err hat _ =>
    cases hat with
    | notScheduled hno => exact absurd hno hnot
    | scheduled wt2 clock _ _ h hs _ _ => rw [hwt] at h; cases h; exact absurd hs hspec
  | succeeded calls out hat _ =>
    cases hat with
    | notScheduled hno => exact absurd hno hnot
    | scheduled wt2 clock _ _ h hs _ _ => rw [hwt] at h; cases h; exact absurd hs hspec

/-- C6 at a concrete run whose mutable state schedules a normal task. -/
theorem C6_non_speculative_task_is_inconsistent_witness :
    (Invoke (sample.req (some .ACCEPTED) "") (sample.shardCtx true)
        (sample.checker true false false .NORMAL) sample.matchingClient
        sample.stageText).result = .Return none (some .ErrWorkflowTaskStateInconsistent) :=
  (C6_non_speculative_task_is_inconsistent (sample.req (some .ACCEPTED) "")
    (sample.shardCtx true) (sample.checker true false false .NORMAL)
    sample.matchingClient sample.stageText sample.key
    (sample.weCtx true false false .NORMAL) sample.upd (sample.wt .NORMAL)
    (Or.inl rfl) rfl rfl rfl (Or.inl rfl) rfl rfl rfl rfl (by decide)).1

/-- C7: for a request that reaches the wait step (the message is applied and
either no task is scheduled, or a speculative task is scheduled and handed to
matching), `Invoke` makes exactly one wait call, on the update `FindOrCreate`
answered for the request's update id: `WaitAccepted` and no `WaitOutcome`
when the stage is `ACCEPTED`, `WaitOutcome` and no `WaitAccepted` when it is
`COMPLETED`.  The run returns the error of that wait call, or a response
carrying exactly the outcome the wait call answered. -/
theorem C7_waits_on_requested_stage
    (req : historyservice.UpdateWorkflowExecutionRequest)
    (shardCtx : shard.Context)
    (checker : api.WorkflowConsistencyChecker)
    (matchingClient : matchingservice.MatchingServiceClient)
    (stageText : enumspb.UpdateWorkflowExecutionLifecycleStage → String)
    (key : definition.WorkflowKey) (weCtx : api.WorkflowContext)
    (upd : update.Update) (alreadyExisted : Bool)
    (hkey : Invoke.workflowKey req = some key)
    (hctx : checker.GetWorkflowContext key .LockPriorityHigh = .ok weCtx)
    (hrun : weCtx.GetMutableState.IsWorkflowExecutionRunning = true)
    (hpin : pinOf req = "" ∨
      persistencespb.GetFirstExecutionRunId weCtx.GetMutableState.GetExecutionInfo = pinOf req)
    (hfind : weCtx.GetUpdateRegistry.FindOrCreate (updateIDOf req) = .ok (upd, alreadyExisted))
    (hmsg : upd.OnMessage (messageOf req) = none)
    (hreach :
      (weCtx.GetMutableState.HasPendingWorkflowTask = true ∨ alreadyExisted = true) ∨
      ∃ wt clock,
        weCtx.GetMutableState.AddWorkflowTaskScheduledEvent false .SPECULATIVE = .ok wt ∧
        wt.Type_ = .SPECULATIVE ∧
        shardCtx.NewVectorClock = .ok clock ∧
        matchingClient.AddWorkflowTask
          { NamespaceId := req.NamespaceId
            Execution :=
              { WorkflowId := weCtx.GetMutableState.GetWorkflowKey.WorkflowID
                RunId := weCtx.GetMutableState.GetWorkflowKey.RunID }
            TaskQueue := wt.TaskQueue
            ScheduledEventId := wt.ScheduledEventID
            ScheduleToStartTimeout :=
              weCtx.GetMutableState.TaskQueueScheduleToStartTimeout wt.TaskQueue.Name
            Clock := clock } = none) :
    (waitStageOf req = .ACCEPTED →
      (Invoke req shardCtx checker matchingClient stageText).calls.filter
          (fun c => c.method = Method.WaitAccepted) = [Call.WaitAccepted upd.id] ∧
      (Invoke req shardCtx checker matchingClient stageText).calls.filter
          (fun c => c.method = Method.WaitOutcome) = [] ∧
      (Invoke req shardCtx checker matchingClient stageText).result =
        match upd.WaitAccepted with
        | .ok updOutcome => .Return (some (responseOf req weCtx updOutcome)) none
        | .error err => .Return none (some err)) ∧
    (waitStageOf req = .COMPLETED →
      (Invoke req shardCtx checker matchingClient stageText).calls.filter
          (fun c => c.method = Method.WaitOutcome) = [Call.WaitOutcome upd.id] ∧
      (Invoke req shardCtx checker matchingClient stageText).calls.filter
          (fun c => c.method = Method.WaitAccepted) = [] ∧
      (Invoke req shardCtx checker matchingClient stageText).result =
        match upd.WaitOutcome with
        | .ok updOutcome => .Return (some (responseOf req weCtx updOutcome)) none
        | .error err => .Return none (some err)) := by
  have main : ∀ hstage : waitStageOf req = .ACCEPTED ∨ waitStageOf req = .COMPLETED,
      ∃ w, ((waitStageOf req = .ACCEPTED ∧
              w = fun u => (Call.WaitAccepted u.id, u.WaitAccepted)) ∨
            (waitStageOf req = .COMPLETED ∧
              w = fun u => (Call.WaitOutcome u.id, u.WaitOutcome))) ∧
        ∃ calls, (∀ c ∈ calls, c.method ≠ Method.WaitAccepted ∧ c.method ≠ Method.WaitOutcome) ∧
          ((∃ err, (w upd).2 = .error err ∧
              Invoke req shardCtx checker matchingClient stageText =
                { calls := calls ++ [(w upd).1, Call.ReleaseFn (some err)]
                  result := .Return none (some err) }) ∨
           (∃ out, (w upd).2 = .ok out ∧
              Invoke req shardCtx checker matchingClient stageText =
                { calls := calls ++ [(w upd).1, Call.ContextGetWorkflowKey,
                    Call.ContextGetWorkflowKey, Call.ReleaseFn none]
                  result := .Return (some (responseOf req weCtx out)) none })) := by
    intro hstage
    obtain ⟨w, body, hwcases, hp, e⟩ := Invoke_applied req shardCtx checker matchingClient
      stageText key weCtx upd alreadyExisted hstage hkey hctx ⟨hrun, hpin, hfind, hmsg⟩
    refine ⟨w, hwcases, ?_⟩
    have hpend : ∀ c ∈ Call.GetWorkflowContext key .LockPriorityHigh ::
        (callsToPending req upd ++ [Call.ReleaseFn none]),
        c.method ≠ Method.WaitAccepted ∧ c.method ≠ Method.WaitOutcome := by
      intro c hc
      simp only [List.mem_cons, List.mem_append, mem_callsToPending_iff,
        mem_callsToFind_iff, List.mem_nil_iff, or_false] at hc
      casesm* _ ∨ _, _ ∧ _ <;> subst_vars <;> simp [Call.method_eqs]
    have hsched : ∀ wt r, ∀ c ∈ Call.GetWorkflowContext key .LockPriorityHigh ::
        (callsToClock req upd wt ++ [Call.AddWorkflowTask r]),
        c.method ≠ Method.WaitAccepted ∧ c.method ≠ Method.WaitOutcome := by
      intro wt r c hc
      simp only [callsToClock, List.mem_cons, List.mem_append, mem_callsToPending_iff,
        mem_callsToFind_iff, List.mem_nil_iff, or_false] at hc
      casesm* _ ∨ _, _ ∧ _ <;> subst_vars <;> simp [Call.method_eqs]
    have hcreate : weCtx.GetMutableState.HasPendingWorkflowTask = false →
        alreadyExisted = false →
        ∃ wt clock,
          weCtx.GetMutableState.AddWorkflowTaskScheduledEvent false .SPECULATIVE = .ok wt ∧
          wt.Type_ = .SPECULATIVE ∧
          shardCtx.NewVectorClock = .ok clock ∧
          matchingClient.AddWorkflowTask
            (matchingRequest req weCtx.GetMutableState wt clock) = none := by
      intro h1 h2
      rcases hreach with (h | h) | h
      · rw [h1] at h; cases h
      · rw [h2] at h; cases h
      · exact h
    cases hp with
    | scheduleFailed err hpending hnew hwt =>
      obtain ⟨wt, clock, h, -⟩ := hcreate hpending hnew
      rw [hwt] at h; cases h
    | notSpeculative wt2 hpending hnew hwt hspec =>
      obtain ⟨wt, clock, h, hs, -⟩ := hcreate hpending hnew
      rw [hwt] at h; cases h; exact absurd hs hspec
    | clockFailed wt2 err hpending hnew hwt hspec hclock =>
      obtain ⟨wt, clock, -, -, h, -⟩ := hcreate hpending hnew
      rw [hclock] at h; cases h
    | matchingFailed wt2 clock2 err hpending hnew hwt hspec hclock hadd =>
      obtain ⟨wt, clock, h1, -, h2, h3⟩ := hcreate hpending hnew
      rw [hwt] at h1; cases h1
      rw [hclock] at h2; cases h2
      rw [hadd] at h3; cases h3
    | waitFailed calls err hat hwait =>
      cases hat with
      | notScheduled hno =>
        exact ⟨_, hpend, Or.inl ⟨err, hwait, by rw [e]; simp⟩⟩
      | scheduled wt clock hpending hnew hwt hspec hclock hadd =>
        exact ⟨_, hsched wt (matchingRequest req weCtx.GetMutableState wt clock),
          Or.inl ⟨err, hwait, by rw [e]; simp⟩⟩
    | succeeded calls out hat hwait =>
      cases hat with
      | notScheduled hno =>
        exact ⟨_, hpend, Or.inr ⟨out, hwait, by rw [e]; simp⟩⟩
      | scheduled wt clock hpending hnew hwt hspec hclock hadd =>
        exact ⟨_, hsched wt (matchingRequest req weCtx.GetMutableState wt clock),
          Or.inr ⟨out, hwait, by rw [e]; simp⟩⟩
  have hnil : ∀ (calls : List Call) (m : Method), (∀ c ∈ calls, c.method ≠ m) →
      calls.filter (fun c => decide (c.method = m)) = [] := by
    intro calls m h
    rw [List.filter_eq_nil_iff]
    intro c hc
    simpa using h c hc
  constructor
  · intro hs
    obtain ⟨w, hwcases, calls, hcalls, hrun2⟩ := main (Or.inl hs)
    have hw : w = fun u => (Call.WaitAccepted u.id, u.WaitAccepted) := by
      rcases hwcases with ⟨-, h⟩ | ⟨h, -⟩
      · exact h
      · rw [hs] at h; cases h
    subst hw
    rcases hrun2 with ⟨err, hwait, e⟩ | ⟨out, hwait, e⟩ <;>
      simp only at hwait <;>
      rw [e, hwait] <;>
      simp [List.filter_append, List.filter_cons, Call.method_eqs,
        hnil calls _ (fun c hc => (hcalls c hc).1), hnil calls _ (fun c hc => (hcalls c hc).2)]
  · intro hs
    obtain ⟨w, hwcases, calls, hcalls, hrun2⟩ := main (Or.inr hs)
    have hw : w = fun u => (Call.WaitOutcome u.id, u.WaitOutcome) := by
      rcases hwcases with ⟨h, -⟩ | ⟨-, h⟩
      · rw [hs] at h; cases h
      · exact h
    subst hw
    rcases hrun2 with ⟨err, hwait, e⟩ | ⟨out, hwait, e⟩ <;>
      simp only at hwait <;>
      rw [e, hwait] <;>
      simp [List.filter_append, List.filter_cons, Call.method_eqs,
        hnil calls _ (fun c hc => (hcalls c hc).1), hnil calls _ (fun c hc => (hcalls c hc).2)]

/-- C7 at a concrete run that waits for acceptance. -/
theorem C7_waits_on_requested_stage_witness :
    (Invoke (sample.req (some .ACCEPTED) "") (sample.shardCtx true)
        (sample.checker true true false .SPECULATIVE) sample.matchingClient
        sample.stageText).calls.filter
        (fun c => c.method = Method.WaitAccepted) = [Call.WaitAccepted 7] :=
  ((C7_waits_on_requested_stage (sample.req (some .ACCEPTED) "")
    (sample.shardCtx true) (sample.checker true true false .SPECULATIVE)
    sample.matchingClient sample.stageText sample.key
    (sample.weCtx true true false .SPECULATIVE) sample.upd false
    rfl rfl rfl (Or.inl rfl) rfl rfl (Or.inl (Or.inl rfl))).1 rfl).1

/-- C8 as stated fails: at a run where `FindOrCreate` reports that the update
already existed and `OnMessage` then answers an error, `Invoke` returns that
error without making any wait call. -/
theorem C8_existing_update_counterexample :
    sample.rejectingWeCtx.GetUpdateRegistry.FindOrCreate
        (updateIDOf (sample.req (some .COMPLETED) "")) = .ok (sample.rejectingUpd, true) ∧
    (Invoke (sample.req (some .COMPLETED) "") (sample.shardCtx true) sample.rejectingChecker
        sample.matchingClient sample.stageText).result
      = .Return none (some (.Internal "rejected")) ∧
    ∀ c ∈ (Invoke (sample.req (some .COMPLETED) "") (sample.shardCtx true)
        sample.rejectingChecker sample.matchingClient sample.stageText).calls,
      c.method ≠ Method.WaitAccepted ∧ c.method ≠ Method.WaitOutcome := by
  refine ⟨rfl, by decide, by decide⟩

/-- C8, amended: for a request with a supported wait stage on a running
workflow that passes the pin check, if `FindOrCreate` reports that the update
already existed then, whatever `HasPendingWorkflowTask` answers, `Invoke`
calls neither `AddWorkflowTaskScheduledEvent` nor `AddWorkflowTask`; and if
moreover `OnMessage` succeeds, `Invoke` releases the lock with a nil error,
makes the wait call selected by the switch on the update `FindOrCreate`
answered, and returns that call's error or a response with its outcome. -/
theorem C8_existing_update_is_not_rescheduled
    (req : historyservice.UpdateWorkflowExecutionRequest)
    (shardCtx : shard.Context)
    (checker : api.WorkflowConsistencyChecker)
    (matchingClient : matchingservice.MatchingServiceClient)
    (stageText : enumspb.UpdateWorkflowExecutionLifecycleStage → String)
    (key : definition.WorkflowKey) (weCtx : api.WorkflowContext)
    (upd : update.Update) (w : WaitLifecycleStage)
    (hw : Invoke.waitLifecycleStage (waitStageOf req) = some w)
    (hkey : Invoke.workflowKey req = some key)
    (hctx : checker.GetWorkflowContext key .LockPriorityHigh = .ok weCtx)
    (hrun : weCtx.GetMutableState.IsWorkflowExecutionRunning = true)
    (hpin : pinOf req = "" ∨
      persistencespb.GetFirstExecutionRunId weCtx.GetMutableState.GetExecutionInfo = pinOf req)
    (hfind : weCtx.GetUpdateRegistry.FindOrCreate (updateIDOf req) = .ok (upd, true)) :
    (∀ c ∈ (Invoke req shardCtx checker matchingClient stageText).calls,
      c.method ≠ Method.AddWorkflowTaskScheduledEvent ∧ c.method ≠ Method.AddWorkflowTask) ∧
    (upd.OnMessage (messageOf req) = none →
      (∃ tail, (Invoke req shardCtx checker matchingClient stageText).calls =
        Call.GetWorkflowContext key .LockPriorityHigh :: callsToPending req upd ++
          [Call.ReleaseFn none, (w upd).1] ++ tail ∧
        ∀ c ∈ tail, c.method = Method.ContextGetWorkflowKey ∨ c.method = Method.ReleaseFn) ∧
      (Invoke req shardCtx checker matchingClient stageText).result =
        match (w upd).2 with
        | .ok updOutcome => .Return (some (responseOf req weCtx updOutcome)) none
        | .error err => .Return none (some err)) := by
  have hp := afterDefer_path req shardCtx matchingClient weCtx w
  rw [Invoke_of_context req shardCtx checker matchingClient stageText w key weCtx hw hkey hctx]
  generalize Invoke.afterDefer req shardCtx matchingClient weCtx w = body at hp
  have hwm : (w upd).1.method ≠ Method.AddWorkflowTaskScheduledEvent ∧
      (w upd).1.method ≠ Method.AddWorkflowTask := by
    rcases waitLifecycleStage_call _ w hw upd with h | h <;> simp [h, Call.method_eqs]
  have hnone : ∀ c ∈ Call.GetWorkflowContext key .LockPriorityHigh ::
      (callsToPending req upd ++ [Call.ReleaseFn none, (w upd).1]),
      c.method ≠ Method.AddWorkflowTaskScheduledEvent ∧
        c.method ≠ Method.AddWorkflowTask := by
    intro c hc
    simp only [List.mem_cons, List.mem_append, mem_callsToPending_iff,
      mem_callsToFind_iff, List.mem_nil_iff, or_false] at hc
    casesm* _ ∨ _, _ ∧ _ <;> subst_vars <;>
      first | exact ⟨by assumption, by assumption⟩ | simp [Call.method_eqs]
  cases hp with
  | notRunning h => rw [h] at hrun; cases hrun
  | pinMismatch _ h1 h2 => exact absurd hpin (by simp [h1, h2])
  | findFailed err _ _ hf => rw [hfind] at hf; cases hf
  | messageFailed u e err _ _ hf hm =>
    rw [hfind] at hf
    cases hf
    refine ⟨?_, fun hmsg => ?_⟩
    · intro c hc
      simp only [List.cons_append, List.nil_append, List.append_assoc, List.mem_cons,
        List.mem_append, mem_callsToFind_iff, List.mem_nil_iff, or_false] at hc
      casesm* _ ∨ _, _ ∧ _ <;> subst_vars <;> simp [Call.method_eqs]
    · rw [hmsg] at hm; cases hm
  | applied u e body ha hrest =>
    have hf := ha.2.2.1
    rw [hfind] at hf
    cases hf
    cases hrest with
    | scheduleFailed err _ hnew _ => cases hnew
    | notSpeculative wt _ hnew _ _ => cases hnew
    | clockFailed wt err _ hnew _ _ _ => cases hnew
    | matchingFailed wt clock err _ hnew _ _ _ _ => cases hnew
    | waitFailed calls err hat hwait =>
      cases hat with
      | scheduled wt clock _ hnew _ _ _ _ => cases hnew
      | notScheduled hno =>
        refine ⟨?_, fun _ =>
          ⟨⟨[Call.ReleaseFn (some err)], by simp, by simp [Call.method_eqs]⟩, ?_⟩⟩
        · intro c hc
          simp only [List.cons_append, List.nil_append, List.append_assoc, List.mem_cons,
            List.mem_append, List.mem_nil_iff, or_false] at hc
          rcases hc with h | h | h | h | h
          · exact hnone c (by simp [h])
          · exact hnone c (by simp [h])
          · exact hnone c (by simp [h])
          · exact hnone c (by simp [h])
          · subst h; simp [Call.method_eqs]
        · simp only [hwait]
    | succeeded calls out hat hwait =>
      cases hat with
      | scheduled wt clock _ hnew _ _ _ _ => cases hnew
      | notScheduled hno =>
        refine ⟨?_, fun _ => ⟨⟨[Call.ContextGetWorkflowKey, Call.ContextGetWorkflowKey,
          Call.ReleaseFn none], by simp, by simp [Call.method_eqs]⟩, ?_⟩⟩
        · intro c hc
          simp only [List.cons_append, List.nil_append, List.append_assoc, List.mem_cons,
            List.mem_append, List.mem_nil_iff, or_false] at hc
          rcases hc with h | h | h | h | h | h | h
          · exact hnone c (by simp [h])
          · exact hnone c (by simp [h])
          · exact hnone c (by simp [h])
          · exact hnone c (by simp [h])
          · subst h; simp [Call.method_eqs]
          · subst h; simp [Call.method_eqs]
          · subst h; simp [Call.method_eqs]
        · simp only [hwait]

/-- C8, amended, at a concrete run on an update that already existed, with no
workflow task pending: the completed outcome is returned and nothing is
scheduled. -/
theorem C8_existing_update_is_not_rescheduled_witness :
    (Invoke (sample.req (some .COMPLETED) "") (sample.shardCtx true)
        (sample.checker true false true .SPECULATIVE) sample.matchingClient
        sample.stageText).result =
      .Return (some (responseOf (sample.req (some .COMPLETED) "")
        (sample.weCtx true false true .SPECULATIVE) (some (.Success "done")))) none :=
  ((C8_existing_update_is_not_rescheduled (sample.req (some .COMPLETED) "")
    (sample.shardCtx true) (sample.checker true false true .SPECULATIVE)
    sample.matchingClient sample.stageText sample.key
    (sample.weCtx true false true .SPECULATIVE) sample.upd
    (fun u => (Call.WaitOutcome u.id, u.WaitOutcome))
    rfl rfl rfl rfl (Or.inl rfl) rfl).2 rfl).2

/-- C9: every run of `Invoke` that returns a nil error returns a response
whose update reference carries the workflow id and run id of the workflow key
of the acquired workflow context, whose update id is the update id of the
request's meta, and whose outcome is the one answered by the selected wait
call on the update `FindOrCreate` answered. -/
theorem C9_response_of_successful_run
    (req : historyservice.UpdateWorkflowExecutionRequest)
    (shardCtx : shard.Context)
    (checker : api.WorkflowConsistencyChecker)
    (matchingClient : matchingservice.MatchingServiceClient)
    (stageText : enumspb.UpdateWorkflowExecutionLifecycleStage → String)
    (resp : Option historyservice.UpdateWorkflowExecutionResponse)
    (hok : (Invoke req shardCtx checker matchingClient stageText).result = .Return resp none) :
    ∃ key weCtx upd alreadyExisted w updOutcome,
      Invoke.workflowKey req = some key ∧
      checker.GetWorkflowContext key .LockPriorityHigh = .ok weCtx ∧
      weCtx.GetUpdateRegistry.FindOrCreate (updateIDOf req) = .ok (upd, alreadyExisted) ∧
      Invoke.waitLifecycleStage (waitStageOf req) = some w ∧
      (w upd).2 = .ok updOutcome ∧
      resp = some
        { Response :=
            { UpdateRef :=
                { WorkflowExecution :=
                    { WorkflowId := weCtx.GetWorkflowKey.WorkflowID
                      RunId := weCtx.GetWorkflowKey.RunID }
                  UpdateId := updatepb.GetUpdateId
                    (updatepb.GetMeta (workflowservice.GetRequest req.GetRequest)) }
              Outcome := updOutcome } } := by
  have hp := Invoke_path req shardCtx checker matchingClient stageText
  generalize Invoke req shardCtx checker matchingClient stageText = run at hp hok
  cases hp with
  | unsupportedStage hw => simp at hok
  | nilDereference w hw hkey => simp at hok
  | contextFailed w key err hw hkey hctx => simp at hok
  | withContext w key weCtx body hw hkey hctx hbody =>
    cases hbody with
    | notRunning hrun => simp at hok
    | pinMismatch hrun hpin hfirst => simp at hok
    | findFailed err hrun hpin hfind => simp at hok
    | messageFailed upd e err hrun hpin hfind hmsg => simp at hok
    | applied upd e body happlied hrest =>
      cases hrest with
      | scheduleFailed err hpending hnew hwt => simp at hok
      | notSpeculative wt hpending hnew hwt hspec => simp at hok
      | clockFailed wt err hpending hnew hwt hspec hclk => simp at hok
      | matchingFailed wt clock err hpending hnew hwt hspec hclk hadd => simp at hok
      | waitFailed calls err hat hwait => simp at hok
      | succeeded calls out hat hwait =>
        refine ⟨key, weCtx, upd, e, w, out, hkey, hctx, happlied.2.2.1, hw, hwait, ?_⟩
        simp only [Result.Return.injEq, and_true] at hok
        rw [← hok]
        rfl

/-- C9 at a concrete successful run: the response names run `run-ctx` of the
acquired context, not run `run-req` written in the request. -/
theorem C9_response_of_successful_run_witness :
    ∃ key weCtx upd alreadyExisted w updOutcome,
      Invoke.workflowKey (sample.req (some .COMPLETED) "") = some key ∧
      (sample.checker true true false .SPECULATIVE).GetWorkflowContext key
        .LockPriorityHigh = .ok weCtx ∧
      weCtx.GetUpdateRegistry.FindOrCreate (updateIDOf (sample.req (some .COMPLETED) ""))
        = .ok (upd, alreadyExisted) ∧
      Invoke.waitLifecycleStage (waitStageOf (sample.req (some .COMPLETED) "")) = some w ∧
      (w upd).2 = .ok updOutcome ∧
      some ({ Response :=
                { UpdateRef :=
                    { WorkflowExecution := { WorkflowId := "wf", RunId := "run-ctx" }
                      UpdateId := "u1" }
                  Outcome := some (.Success "done") } } :
          historyservice.UpdateWorkflowExecutionResponse) = some
        { Response :=
            { UpdateRef :=
                { WorkflowExecution :=
                    { WorkflowId := weCtx.GetWorkflowKey.WorkflowID
                      RunId := weCtx.GetWorkflowKey.RunID }
                  UpdateId := updatepb.GetUpdateId (updatepb.GetMeta
                    (workflowservice.GetRequest (sample.req (some .COMPLETED) "").GetRequest)) }
              Outcome := updOutcome } } :=
  C9_response_of_successful_run (sample.req (some .COMPLETED) "") (sample.shardCtx true)
    (sample.checker true true false .SPECULATIVE) sample.matchingClient sample.stageText
    (some { Response :=
              { UpdateRef :=
                  { WorkflowExecution := { WorkflowId := "wf", RunId := "run-ctx" }
                    UpdateId := "u1" }
                Outcome := some (.Success "done") } })
    (by decide)

/-- C10: on the path where `Invoke` schedules a speculative workflow task
`wt`, it asks the shard context for a vector clock exactly once.  If that
succeeds with `clock`, `Invoke` makes exactly one `AddWorkflowTask` call, whose
request carries the request's namespace id, the workflow id and run id of the
mutable state's workflow key, the task queue and scheduled event id of `wt`,
the schedule-to-start timeout the mutable state gives for the name of that
task queue, and `clock`.  If it fails, `Invoke` returns that error with no
response and makes no `AddWorkflowTask` call. -/
theorem C10_matching_request_contents
    (req : historyservice.UpdateWorkflowExecutionRequest)
    (shardCtx : shard.Context)
    (checker : api.WorkflowConsistencyChecker)
    (matchingClient : matchingservice.MatchingServiceClient)
    (stageText : enumspb.UpdateWorkflowExecutionLifecycleStage → String)
    (key : definition.WorkflowKey) (weCtx : api.WorkflowContext)
    (upd : update.Update) (wt : workflow.WorkflowTaskInfo)
    (hstage : waitStageOf req = .ACCEPTED ∨ waitStageOf req = .COMPLETED)
    (hkey : Invoke.workflowKey req = some key)
    (hctx : checker.GetWorkflowContext key .LockPriorityHigh = .ok weCtx)
    (hrun : weCtx.GetMutableState.IsWorkflowExecutionRunning = true)
    (hpin : pinOf req = "" ∨
      persistencespb.GetFirstExecutionRunId weCtx.GetMutableState.GetExecutionInfo = pinOf req)
    (hfind : weCtx.GetUpdateRegistry.FindOrCreate (updateIDOf req) = .ok (upd, false))
    (hmsg : upd.OnMessage (messageOf req) = none)
    (hpending : weCtx.GetMutableState.HasPendingWorkflowTask = false)
    (hwt : weCtx.GetMutableState.AddWorkflowTaskScheduledEvent false .SPECULATIVE = .ok wt)
    (hspec : wt.Type_ = .SPECULATIVE) :
    (Invoke req shardCtx checker matchingClient stageText).calls.filter
        (fun c => c.method = Method.NewVectorClock) = [Call.NewVectorClock] ∧
    (Invoke req shardCtx checker matchingClient stageText).calls.filter
        (fun c => c.method = Method.TaskQueueScheduleToStartTimeout)
      = [Call.TaskQueueScheduleToStartTimeout wt.TaskQueue.Name] ∧
    (∀ clock, shardCtx.NewVectorClock = .ok clock →
      (Invoke req shardCtx checker matchingClient stageText).calls.filter
          (fun c => c.method = Method.AddWorkflowTask)
        = [Call.AddWorkflowTask
            { NamespaceId := req.NamespaceId
              Execution :=
                { WorkflowId := weCtx.GetMutableState.GetWorkflowKey.WorkflowID
                  RunId := weCtx.GetMutableState.GetWorkflowKey.RunID }
              TaskQueue := wt.TaskQueue
              ScheduledEventId := wt.ScheduledEventID
              ScheduleToStartTimeout :=
                weCtx.GetMutableState.TaskQueueScheduleToStartTimeout wt.TaskQueue.Name
              Clock := clock }]) ∧
    (∀ err, shardCtx.NewVectorClock = .error err →
      (Invoke req shardCtx checker matchingClient stageText).result
          = .Return none (some err) ∧
      (Invoke req shardCtx checker matchingClient stageText).calls.filter
          (fun c => c.method = Method.AddWorkflowTask) = []) := by
  obtain ⟨w, body, hwcases, hp, e⟩ := Invoke_applied req shardCtx checker matchingClient
    stageText key weCtx upd false hstage hkey hctx ⟨hrun, hpin, hfind, hmsg⟩
  rw [e]
  have hwm : (w upd).1.method ≠ Method.NewVectorClock ∧
      (w upd).1.method ≠ Method.TaskQueueScheduleToStartTimeout ∧
      (w upd).1.method ≠ Method.AddWorkflowTask := by
    rcases hwcases with ⟨-, rfl⟩ | ⟨-, rfl⟩ <;> simp [Call.method_eqs]
  have hnot : ¬ (weCtx.GetMutableState.HasPendingWorkflowTask = true ∨ false = true) := by
    simp [hpending]
  cases hp with
  | scheduleFailed err _ _ h => rw [hwt] at h; cases h
  | notSpeculative wt2 _ _ h hs => rw [hwt] at h; cases h; exact absurd hspec hs
  | clockFailed wt2 err _ _ h _ hclk =>
    rw [hwt] at h; cases h
    simp [hclk, callsToClock, List.filter_append, List.filter_cons, filter_callsToPending,
      Call.method_eqs]
  | matchingFailed wt2 clock err _ _ h _ hclk hadd =>
    rw [hwt] at h; cases h
    simp [hclk, callsToClock, List.filter_append, List.filter_cons, filter_callsToPending,
      Call.method_eqs, matchingRequest]
  | waitFailed calls err hat _ =>
    cases hat with
    | notScheduled hno => exact absurd hno hnot
    | scheduled wt2 clock _ _ h _ hclk hadd =>
      rw [hwt] at h; cases h
      simp [hclk, callsToClock, List.filter_append, List.filter_cons, filter_callsToPending,
        Call.method_eqs, matchingRequest, hwm]
  | succeeded calls out hat _ =>
    cases hat with
    | notScheduled hno => exact absurd hno hnot
    | scheduled wt2 clock _ _ h _ hclk hadd =>
      rw [hwt] at h; cases h
      simp [hclk, callsToClock, List.filter_append, List.filter_cons, filter_callsToPending,
        Call.method_eqs, matchingRequest, hwm]

/-- C10 at a concrete run whose shard context fails to give a clock: the
error is returned and matching is not called. -/
theorem C10_matching_request_contents_witness :
    (Invoke (sample.req (some .ACCEPTED) "") (sample.shardCtx false)
        (sample.checker true false false .SPECULATIVE) sample.matchingClient
        sample.stageText).result = .Return none (some .ShardOwnershipLost) ∧
    (Invoke (sample.req (some .ACCEPTED) "") (sample.shardCtx false)
        (sample.checker true false false .SPECULATIVE) sample.matchingClient
        sample.stageText).calls.filter
        (fun c => c.method = Method.AddWorkflowTask) = [] :=
  (C10_matching_request_contents (sample.req (some .ACCEPTED) "")
    (sample.shardCtx false) (sample.checker true false false .SPECULATIVE)
    sample.matchingClient sample.stageText sample.key
    (sample.weCtx true false false .SPECULATIVE) sample.upd (sample.wt .SPECULATIVE)
    (Or.inl rfl) rfl rfl rfl (Or.inl rfl) rfl rfl rfl rfl rfl).2.2.2
    .ShardOwnershipLost rfl

/-- C11: in every run of `Invoke` in which acquiring the workflow context
succeeded, the run returns some `(resp, retErr)` and its last call is the
release function invoked with exactly `retErr` (nil when the run succeeds, in
which case a response is returned). -/
theorem C11_release_last_with_returned_error
    (req : historyservice.UpdateWorkflowExecutionRequest)
    (shardCtx : shard.Context)
    (checker : api.WorkflowConsistencyChecker)
    (matchingClient : matchingservice.MatchingServiceClient)
    (stageText : enumspb.UpdateWorkflowExecutionLifecycleStage → String)
    (key : definition.WorkflowKey) (weCtx : api.WorkflowContext)
    (hstage : waitStageOf req = .ACCEPTED ∨ waitStageOf req = .COMPLETED)
    (hkey : Invoke.workflowKey req = some key)
    (hctx : checker.GetWorkflowContext key .LockPriorityHigh = .ok weCtx) :
    ∃ resp retErr earlier,
      (Invoke req shardCtx checker matchingClient stageText).result = .Return resp retErr ∧
      (Invoke req shardCtx checker matchingClient stageText).calls
        = Call.GetWorkflowContext key .LockPriorityHigh :: earlier ++ [Call.ReleaseFn retErr] ∧
      (retErr = none → resp ≠ none) := by
  obtain ⟨w, hw, -⟩ := waitLifecycleStage_supported _ hstage
  rw [Invoke_of_context req shardCtx checker matchingClient stageText w key weCtx hw hkey hctx]
  have hp := afterDefer_path req shardCtx matchingClient weCtx w
  generalize Invoke.afterDefer req shardCtx matchingClient weCtx w = body at hp
  refine ⟨body.2.1, body.2.2, body.1, rfl, by simp, ?_⟩
  intro hnil
  cases hp with
  | applied upd e body happlied hrest => cases hrest <;> simp_all
  | _ => simp_all

/-- C11 at a concrete run on a closed workflow: the last call is the release
with `ErrWorkflowCompleted`, the error returned. -/
theorem C11_release_last_with_returned_error_witness :
    ∃ resp retErr earlier,
      (Invoke (sample.req (some .ACCEPTED) "") (sample.shardCtx true)
        (sample.checker false false false .SPECULATIVE) sample.matchingClient
        sample.stageText).result = .Return resp retErr ∧
      (Invoke (sample.req (some .ACCEPTED) "") (sample.shardCtx true)
        (sample.checker false false false .SPECULATIVE) sample.matchingClient
        sample.stageText).calls
        = Call.GetWorkflowContext sample.key .LockPriorityHigh :: earlier ++
          [Call.ReleaseFn retErr] ∧
      (retErr = none → resp ≠ none) :=
  C11_release_last_with_returned_error (sample.req (some .ACCEPTED) "")
    (sample.shardCtx true) (sample.checker false false false .SPECULATIVE)
    sample.matchingClient sample.stageText sample.key
    (sample.weCtx false false false .SPECULATIVE) (Or.inl rfl) rfl rfl

/-- C13: in every run of `Invoke`, whatever precedes a wait call
(`WaitAccepted` or `WaitOutcome`) contains an invocation of the release
function with a nil error; and when no new workflow task is scheduled (a
workflow task is pending or the update already existed), the release with a
nil error is the call made right before the wait call. -/
theorem C13_release_before_wait
    (req : historyservice.UpdateWorkflowExecutionRequest)
    (shardCtx : shard.Context)
    (checker : api.WorkflowConsistencyChecker)
    (matchingClient : matchingservice.MatchingServiceClient)
    (stageText : enumspb.UpdateWorkflowExecutionLifecycleStage → String) :
    (∀ before after c,
      (Invoke req shardCtx checker matchingClient stageText).calls = before ++ c :: after →
      (c.method = Method.WaitAccepted ∨ c.method = Method.WaitOutcome) →
      Call.ReleaseFn none ∈ before) ∧
    ∀ w key weCtx upd alreadyExisted,
      Invoke.waitLifecycleStage (waitStageOf req) = some w →
      Invoke.workflowKey req = some key →
      checker.GetWorkflowContext key .LockPriorityHigh = .ok weCtx →
      weCtx.GetMutableState.IsWorkflowExecutionRunning = true →
      (pinOf req = "" ∨
        persistencespb.GetFirstExecutionRunId weCtx.GetMutableState.GetExecutionInfo
          = pinOf req) →
      weCtx.GetUpdateRegistry.FindOrCreate (updateIDOf req) = .ok (upd, alreadyExisted) →
      upd.OnMessage (messageOf req) = none →
      (weCtx.GetMutableState.HasPendingWorkflowTask = true ∨ alreadyExisted = true) →
      ∃ tail, (Invoke req shardCtx checker matchingClient stageText).calls =
        Call.GetWorkflowContext key .LockPriorityHigh :: callsToPending req upd ++
          [Call.ReleaseFn none, (w upd).1] ++ tail := by
  constructor
  · intro before after c h hc
    have hp := Invoke_path req shardCtx checker matchingClient stageText
    generalize Invoke req shardCtx checker matchingClient stageText = run at hp h
    have hmem : c ∈ run.calls := by rw [h]; simp
    have hpend : ∀ key upd, ∀ d ∈ Call.GetWorkflowContext key .LockPriorityHigh ::
        (callsToPending req upd ++ [Call.ReleaseFn none]),
        ¬ (d.method = Method.WaitAccepted ∨ d.method = Method.WaitOutcome) := by
      intro key upd d hd
      simp only [List.mem_cons, List.mem_append, mem_callsToPending_iff,
        mem_callsToFind_iff, List.mem_nil_iff, or_false] at hd
      casesm* _ ∨ _, _ ∧ _ <;> subst_vars <;> simp [Call.method_eqs]
    have hsched : ∀ key upd wt r, ∀ d ∈ Call.GetWorkflowContext key .LockPriorityHigh ::
        (callsToClock req upd wt ++ [Call.AddWorkflowTask r]),
        ¬ (d.method = Method.WaitAccepted ∨ d.method = Method.WaitOutcome) := by
      intro key upd wt r d hd
      simp only [callsToClock, List.mem_cons, List.mem_append, mem_callsToPending_iff,
        mem_callsToFind_iff, List.mem_nil_iff, or_false] at hd
      casesm* _ ∨ _, _ ∧ _ <;> subst_vars <;> simp [Call.method_eqs]
    have hno : ∀ d : Call, d = c →
        d.method ≠ Method.WaitAccepted ∧ d.method ≠ Method.WaitOutcome → False := by
      intro d hd hm
      subst hd
      rcases hc with h1 | h1
      · exact hm.1 h1
      · exact hm.2 h1
    cases hp with
    | unsupportedStage hw => simp at hmem
    | nilDereference w hw hkey => simp at hmem
    | contextFailed w key err hw hkey hctx =>
      simp only [List.mem_singleton] at hmem
      exact (hno _ hmem.symm (by simp [Call.method_eqs])).elim
    | withContext w key weCtx body hw hkey hctx hbody =>
      have hnowait : ∀ l : List Call,
          (∀ d ∈ l, d.method ≠ Method.WaitAccepted ∧ d.method ≠ Method.WaitOutcome) →
          c ∈ l → False := fun l hl hcl => hno c rfl (hl c hcl)
      cases hbody with
      | notRunning hrun =>
        refine (hnowait _ ?_ hmem).elim
        intro d hd
        simp only [List.cons_append, List.nil_append, List.mem_cons, List.mem_nil_iff,
          or_false] at hd
        casesm* _ ∨ _ <;> subst_vars <;> simp [Call.method_eqs]
      | pinMismatch hrun hpin hfirst =>
        refine (hnowait _ ?_ hmem).elim
        intro d hd
        simp only [List.cons_append, List.nil_append, List.mem_cons, List.mem_nil_iff,
          or_false] at hd
        casesm* _ ∨ _ <;> subst_vars <;> simp [Call.method_eqs]
      | findFailed err hrun hpin hfind =>
        refine (hnowait _ ?_ hmem).elim
        intro d hd
        simp only [List.cons_append, List.nil_append, List.mem_cons, List.mem_append,
          mem_callsToFind_iff, List.mem_nil_iff, or_false] at hd
        casesm* _ ∨ _, _ ∧ _ <;> subst_vars <;> simp [Call.method_eqs]
      | messageFailed upd e err hrun hpin hfind hmsg =>
        refine (hnowait _ ?_ hmem).elim
        intro d hd
        simp only [List.cons_append, List.nil_append, List.mem_cons, List.mem_append,
          mem_callsToFind_iff, List.mem_nil_iff, or_false] at hd
        casesm* _ ∨ _, _ ∧ _ <;> subst_vars <;> simp [Call.method_eqs]
      | applied upd e body happlied hrest =>
        cases hrest with
        | scheduleFailed err hpending hnew hwt =>
          refine (hnowait _ ?_ hmem).elim
          intro d hd
          simp only [List.cons_append, List.nil_append, List.mem_cons, List.mem_append,
            mem_callsToPending_iff, mem_callsToFind_iff, List.mem_nil_iff, or_false] at hd
          casesm* _ ∨ _, _ ∧ _ <;> subst_vars <;> simp [Call.method_eqs]
        | notSpeculative wt hpending hnew hwt hspec =>
          refine (hnowait _ ?_ hmem).elim
          intro d hd
          simp only [List.cons_append, List.nil_append, List.mem_cons, List.mem_append,
            mem_callsToPending_iff, mem_callsToFind_iff, List.mem_nil_iff, or_false] at hd
          casesm* _ ∨ _, _ ∧ _ <;> subst_vars <;> simp [Call.method_eqs]
        | clockFailed wt err hpending hnew hwt hspec hclk =>
          refine (hnowait _ ?_ hmem).elim
          intro d hd
          simp only [callsToClock, List.cons_append, List.nil_append, List.mem_cons,
            List.mem_append, mem_callsToPending_iff, mem_callsToFind_iff, List.mem_nil_iff,
            or_false] at hd
          casesm* _ ∨ _, _ ∧ _ <;> subst_vars <;> simp [Call.method_eqs]
        | matchingFailed wt clock err hpending hnew hwt hspec hclk hadd =>
          refine (hnowait _ ?_ hmem).elim
          intro d hd
          simp only [callsToClock, List.cons_append, List.nil_append, List.mem_cons,
            List.mem_append, mem_callsToPending_iff, mem_callsToFind_iff, List.mem_nil_iff,
            or_false] at hd
          casesm* _ ∨ _, _ ∧ _ <;> subst_vars <;> simp [Call.method_eqs]
        | waitFailed calls err hat hwait =>
          cases hat with
          | notScheduled hno2 =>
            refine mem_before_split
              (fun d => d.method = Method.WaitAccepted ∨ d.method = Method.WaitOutcome)
              (Call.GetWorkflowContext key .LockPriorityHigh ::
                (callsToPending req upd ++ [Call.ReleaseFn none]))
              [Call.ReleaseFn (some err)] before after (w upd).1 c (Call.ReleaseFn none)
              hc (hpend key upd) ?_ (by simp)
            simpa using h
          | scheduled wt clock hpending hnew hwt hspec hclk hadd =>
            refine mem_before_split
              (fun d => d.method = Method.WaitAccepted ∨ d.method = Method.WaitOutcome)
              (Call.GetWorkflowContext key .LockPriorityHigh ::
                (callsToClock req upd wt ++
                  [Call.AddWorkflowTask (matchingRequest req weCtx.GetMutableState wt clock)]))
              [Call.ReleaseFn (some err)] before after (w upd).1 c (Call.ReleaseFn none)
              hc (hsched key upd wt _) ?_ (by simp [callsToClock])
            simpa using h
        | succeeded calls out hat hwait =>
          cases hat with
          | notScheduled hno2 =>
            refine mem_before_split
              (fun d => d.method = Method.WaitAccepted ∨ d.method = Method.WaitOutcome)
              (Call.GetWorkflowContext key .LockPriorityHigh ::
                (callsToPending req upd ++ [Call.ReleaseFn none]))
              [Call.ContextGetWorkflowKey, Call.ContextGetWorkflowKey, Call.ReleaseFn none]
              before after (w upd).1 c (Call.ReleaseFn none)
              hc (hpend key upd) ?_ (by simp)
            simpa using h
          | scheduled wt clock hpending hnew hwt hspec hclk hadd =>
            refine mem_before_split
              (fun d => d.method = Method.WaitAccepted ∨ d.method = Method.WaitOutcome)
              (Call.GetWorkflowContext key .LockPriorityHigh ::
                (callsToClock req upd wt ++
                  [Call.AddWorkflowTask (matchingRequest req weCtx.GetMutableState wt clock)]))
              [Call.ContextGetWorkflowKey, Call.ContextGetWorkflowKey, Call.ReleaseFn none]
              before after (w upd).1 c (Call.ReleaseFn none)
              hc (hsched key upd wt _) ?_ (by simp [callsToClock])
            simpa using h
  · intro w key weCtx upd alreadyExisted hw hkey hctx hrun hpin hfind hmsg hno
    have hat : AtWait req shardCtx matchingClient weCtx upd alreadyExisted
        (callsToPending req upd ++ [Call.ReleaseFn none]) := .notScheduled hno
    cases hwait : (w upd).2 with
    | error err =>
      rw [Invoke_eq_of_path req shardCtx checker matchingClient stageText w key weCtx _ hw hkey
        hctx (.applied upd alreadyExisted _ ⟨hrun, hpin, hfind, hmsg⟩
          (.waitFailed _ err hat hwait))]
      exact ⟨[Call.ReleaseFn (some err)], by simp⟩
    | ok out =>
      rw [Invoke_eq_of_path req shardCtx checker matchingClient stageText w key weCtx _ hw hkey
        hctx (.applied upd alreadyExisted _ ⟨hrun, hpin, hfind, hmsg⟩
          (.succeeded _ out hat hwait))]
      exact ⟨[Call.ContextGetWorkflowKey, Call.ContextGetWorkflowKey, Call.ReleaseFn none],
        by simp⟩

/-- C13 at a concrete run with a pending workflow task: the release with a nil
error comes right before `WaitAccepted`. -/
theorem C13_release_before_wait_witness :
    ∃ tail, (Invoke (sample.req (some .ACCEPTED) "") (sample.shardCtx true)
        (sample.checker true true false .SPECULATIVE) sample.matchingClient
        sample.stageText).calls =
      Call.GetWorkflowContext sample.key .LockPriorityHigh ::
        callsToPending (sample.req (some .ACCEPTED) "") sample.upd ++
        [Call.ReleaseFn none, Call.WaitAccepted 7] ++ tail :=
  (C13_release_before_wait (sample.req (some .ACCEPTED) "") (sample.shardCtx true)
    (sample.checker true true false .SPECULATIVE) sample.matchingClient
    sample.stageText).2 (fun u => (Call.WaitAccepted u.id, u.WaitAccepted)) sample.key
    (sample.weCtx true true false .SPECULATIVE) sample.upd false rfl rfl rfl rfl (Or.inl rfl)
    rfl rfl (Or.inl rfl)

end updateworkflow

/-! # Task refresher: lemmas and claims -/

namespace workflow

/-! ## Runs and traces -/

@[simp] theorem Run.done_err {σ : Type} (s : σ) : (Run.done s).err = none := rfl
@[simp] theorem Run.done_state {σ : Type} (s : σ) : (Run.done s).state = s := rfl
@[simp] theorem Run.done_log {σ : Type} (s : σ) : (Run.done s).log = [] := rfl
@[simp] theorem Run.fail_err {σ : Type} (e : updateworkflow.Error) (s : σ) :
    (Run.fail e s).err = some e := rfl
@[simp] theorem Run.fail_state {σ : Type} (e : updateworkflow.Error) (s : σ) :
    (Run.fail e s).state = s := rfl
@[simp] theorem Run.fail_log {σ : Type} (e : updateworkflow.Error) (s : σ) :
    (Run.fail e s).log = [] := rfl
@[simp] theorem Run.after_err {σ : Type} (es : List Entry) (r : Run σ) :
    (r.after es).err = r.err := rfl
@[simp] theorem Run.after_state {σ : Type} (es : List Entry) (r : Run σ) :
    (r.after es).state = r.state := rfl
@[simp] theorem Run.after_log {σ : Type} (es : List Entry) (r : Run σ) :
    (r.after es).log = es ++ r.log := rfl
@[simp] theorem Run.read_err {σ : Type} (c : Call) (r : Run σ) :
    (Run.read c r).err = r.err := rfl
@[simp] theorem Run.read_state {σ : Type} (c : Call) (r : Run σ) :
    (Run.read c r).state = r.state := rfl
@[simp] theorem Run.read_log {σ : Type} (c : Call) (r : Run σ) :
    (Run.read c r).log = { call := c, err := none } :: r.log := rfl

/-- A call that answers nil is logged and followed by the rest. -/
theorem Run.call_ok {σ : Type} (c : Call) (s : σ) (rest : σ → Run σ) :
    Run.call c (none, s) rest = (rest s).after [{ call := c, err := none }] := rfl

/-- A call that answers an error ends the run with that error. -/
theorem Run.call_error {σ : Type} (c : Call) (e : updateworkflow.Error) (s : σ)
    (rest : σ → Run σ) :
    Run.call c (some e, s) rest =
      { err := some e, state := s, log := [{ call := c, err := some e }] } := rfl

/-- A fetch that answers a value is logged and followed by the rest. -/
theorem Run.fetch_ok {σ α : Type} (c : Call) (v : α) (s : σ) (rest : α → σ → Run σ) :
    Run.fetch c (.ok v, s) rest = (rest v s).after [{ call := c, err := none }] := rfl

/-- A fetch that answers an error ends the run with that error. -/
theorem Run.fetch_error {σ α : Type} (c : Call) (e : updateworkflow.Error) (s : σ)
    (rest : α → σ → Run σ) :
    Run.fetch c (.error e, s) rest =
      { err := some e, state := s, log := [{ call := c, err := some e }] } := rfl

/-- A stage that returns nil is followed by the rest. -/
theorem Run.andThen_ok {σ : Type} (r : Run σ) (rest : σ → Run σ) (h : r.err = none) :
    r.andThen rest = (rest r.state).after r.log := by
  simp [Run.andThen, h]

/-- A stage that returns an error ends the run. -/
theorem Run.andThen_error {σ : Type} (r : Run σ) (rest : σ → Run σ)
    (e : updateworkflow.Error) (h : r.err = some e) : r.andThen rest = r := by
  simp [Run.andThen, h]

/-- A log whose first entry succeeded ends with the error the rest ends with. -/
theorem lastError_cons_none (c : Call) (l : List Entry) :
    lastError ({ call := c, err := none } :: l) = lastError l := by
  cases l <;> rfl

/-- Appending to a log that ends without error. -/
theorem lastError_append (l1 l2 : List Entry) (h : lastError l1 = none)
    (hclean : ∀ x ∈ l1, x.err = none) : lastError (l1 ++ l2) = lastError l2 := by
  induction l1 with
  | nil => rfl
  | cons x l ih =>
    have hx : x.err = none := hclean x (by simp)
    obtain ⟨c, e⟩ := x
    simp only at hx
    subst hx
    rw [List.cons_append, lastError_cons_none]
    rw [lastError_cons_none] at h
    exact ih h (fun y hy => hclean y (by simp [hy]))

/-- In a trace, every entry but the last succeeded, and the log ends with the
error of the last. -/
theorem Trace.clean_of_lastError {σ : Type} {r : TaskRefresherImpl σ}
    {ctors : Constructors σ} {ms : MutableState σ} {s t : σ} {l : List Entry}
    (h : Trace r ctors ms s l t) (hl : lastError l = none) : ∀ x ∈ l, x.err = none := by
  induction h with
  | nil s => simp
  | last s c err h => simp [lastError] at hl
  | cons s t c rest h hrest ih =>
    rw [lastError_cons_none] at hl
    intro x hx
    rcases List.mem_cons.mp hx with rfl | hx
    · rfl
    · exact ih hl x hx

/-- Traces compose when the first ends without error. -/
theorem Trace.append {σ : Type} {r : TaskRefresherImpl σ}
    {ctors : Constructors σ} {ms : MutableState σ} {s t u : σ} {l1 l2 : List Entry}
    (h1 : Trace r ctors ms s l1 t) (hl : lastError l1 = none)
    (h2 : Trace r ctors ms t l2 u) : Trace r ctors ms s (l1 ++ l2) u := by
  induction h1 with
  | nil s => simpa using h2
  | last s c err h => simp [lastError] at hl
  | cons s t c rest h hrest ih =>
    rw [lastError_cons_none] at hl
    exact Trace.cons _ _ _ _ h (ih hl h2)

/-- An entry of a trace that answered an error is its last entry, and the log
ends with that error. -/
theorem Trace.error_is_last {σ : Type} {r : TaskRefresherImpl σ}
    {ctors : Constructors σ} {ms : MutableState σ} {s t : σ} {l : List Entry}
    (h : Trace r ctors ms s l t) (before after : List Entry) (x : Entry)
    (e : updateworkflow.Error) (hl : l = before ++ x :: after) (hx : x.err = some e) :
    after = [] ∧ lastError l = some e := by
  induction h generalizing before with
  | nil s => simp at hl
  | last s c err h =>
    cases before with
    | nil =>
      simp only [List.nil_append, List.cons.injEq] at hl
      obtain ⟨h1, h2⟩ := hl
      subst h1
      simp only [Option.some.injEq] at hx
      exact ⟨h2.symm, by simp [lastError, hx]⟩
    | cons b bs => simp at hl
  | cons s t c rest h hrest ih =>
    cases before with
    | nil =>
      simp only [List.nil_append, List.cons.injEq] at hl
      rw [← hl.1] at hx
      simp at hx
    | cons b bs =>
      simp only [List.cons_append, List.cons.injEq] at hl
      obtain ⟨-, h2⟩ := hl
      have := ih bs h2
      rw [lastError_cons_none]
      exact this

/-- The state a trace leaves is the one obtained by applying the effects of
its calls in order. -/
theorem Trace.state_eq_foldl {σ : Type} {r : TaskRefresherImpl σ}
    {ctors : Constructors σ} {ms : MutableState σ} {s t : σ} {l : List Entry}
    (h : Trace r ctors ms s l t) :
    t = l.foldl (fun u x => x.call.effect r ctors ms u) s := by
  induction h with
  | nil s => rfl
  | last s c err h => rfl
  | cons s t c rest h hrest ih => simpa using ih

/-! ## Runs built from the statements of the refresher -/

theorem Good.done {σ : Type} {r : TaskRefresherImpl σ} {ctors : Constructors σ}
    {ms : MutableState σ} {P : Call → Prop} (s : σ) : Good r ctors ms P s (Run.done s) :=
  ⟨⟨Trace.nil s, Or.inl rfl⟩, by simp⟩

theorem Good.fail {σ : Type} {r : TaskRefresherImpl σ} {ctors : Constructors σ}
    {ms : MutableState σ} {P : Call → Prop} (e : updateworkflow.Error) (s : σ) :
    Good r ctors ms P s (Run.fail e s) :=
  ⟨⟨Trace.nil s, Or.inl rfl⟩, by simp⟩

theorem Good.read {σ : Type} {r : TaskRefresherImpl σ} {ctors : Constructors σ}
    {ms : MutableState σ} {P : Call → Prop} {s : σ} {rest : Run σ} (c : Call)
    (hP : P c) (hans : c.answer r ctors ms s = none) (heff : c.effect r ctors ms s = s)
    (h : Good r ctors ms P s rest) : Good r ctors ms P s (Run.read c rest) := by
  obtain ⟨⟨ht, he⟩, hp⟩ := h
  refine ⟨⟨?_, ?_⟩, ?_⟩
  · rw [Run.read_log, Run.read_state]
    refine Trace.cons _ _ _ _ hans ?_
    rw [heff]
    exact ht
  · rw [Run.read_log, Run.read_err, lastError_cons_none]
    exact he
  · intro x hx
    rw [Run.read_log] at hx
    rcases List.mem_cons.mp hx with rfl | hx
    · exact hP
    · exact hp x hx

theorem Good.call {σ : Type} {r : TaskRefresherImpl σ} {ctors : Constructors σ}
    {ms : MutableState σ} {P : Call → Prop} {s : σ} (c : Call)
    (answer : Option updateworkflow.Error × σ) (rest : σ → Run σ)
    (hP : P c) (hans : c.answer r ctors ms s = answer.1)
    (heff : c.effect r ctors ms s = answer.2)
    (h : answer.1 = none → Good r ctors ms P answer.2 (rest answer.2)) :
    Good r ctors ms P s (Run.call c answer rest) := by
  obtain ⟨a, s'⟩ := answer
  simp only at hans heff h
  cases a with
  | some e =>
    rw [Run.call_error]
    refine ⟨⟨?_, Or.inr rfl⟩, ?_⟩
    · rw [← heff]
      exact Trace.last _ _ _ hans
    · intro x hx
      simp only [List.mem_singleton] at hx
      subst hx
      exact hP
  | none =>
    rw [Run.call_ok]
    obtain ⟨⟨ht, he⟩, hp⟩ := h rfl
    refine ⟨⟨?_, ?_⟩, ?_⟩
    · simp only [Run.after_log, Run.after_state, List.singleton_append]
      refine Trace.cons _ _ _ _ hans ?_
      rw [heff]
      exact ht
    · simp only [Run.after_log, Run.after_err, List.singleton_append, lastError_cons_none]
      exact he
    · intro x hx
      simp only [Run.after_log, List.singleton_append, List.mem_cons] at hx
      rcases hx with rfl | hx
      · exact hP
      · exact hp x hx

theorem Good.fetch {σ α : Type} {r : TaskRefresherImpl σ} {ctors : Constructors σ}
    {ms : MutableState σ} {P : Call → Prop} {s : σ} (c : Call)
    (answer : Except updateworkflow.Error α × σ) (rest : α → σ → Run σ)
    (hP : P c) (hans : c.answer r ctors ms s = errorOf answer.1)
    (heff : c.effect r ctors ms s = answer.2)
    (h : ∀ v, answer.1 = .ok v → Good r ctors ms P answer.2 (rest v answer.2)) :
    Good r ctors ms P s (Run.fetch c answer rest) := by
  obtain ⟨a, s'⟩ := answer
  simp only at hans heff h
  cases a with
  | error e =>
    rw [Run.fetch_error]
    refine ⟨⟨?_, Or.inr rfl⟩, ?_⟩
    · rw [← heff]
      exact Trace.last _ _ _ hans
    · intro x hx
      simp only [List.mem_singleton] at hx
      subst hx
      exact hP
  | ok v =>
    rw [Run.fetch_ok]
    obtain ⟨⟨ht, he⟩, hp⟩ := h v rfl
    refine ⟨⟨?_, ?_⟩, ?_⟩
    · simp only [Run.after_log, Run.after_state, List.singleton_append]
      refine Trace.cons _ _ _ _ hans ?_
      rw [heff]
      exact ht
    · simp only [Run.after_log, Run.after_err, List.singleton_append, lastError_cons_none]
      exact he
    · intro x hx
      simp only [Run.after_log, List.singleton_append, List.mem_cons] at hx
      rcases hx with rfl | hx
      · exact hP
      · exact hp x hx

/-- A run that returns nil ends without error in its log. -/
theorem Run.From.lastError_of_ok {σ : Type} {r : TaskRefresherImpl σ}
    {ctors : Constructors σ} {ms : MutableState σ} {s : σ} {run : Run σ}
    (h : Run.From r ctors ms s run) (hok : run.err = none) : lastError run.log = none := by
  rcases h.2 with h2 | h2
  · exact h2
  · rw [← h2, hok]

theorem Good.andThen {σ : Type} {r : TaskRefresherImpl σ} {ctors : Constructors σ}
    {ms : MutableState σ} {P : Call → Prop} {s : σ} {run : Run σ} {rest : σ → Run σ}
    (h1 : Good r ctors ms P s run)
    (h2 : run.err = none → Good r ctors ms P run.state (rest run.state)) :
    Good r ctors ms P s (run.andThen rest) := by
  cases herr : run.err with
  | some e =>
    rw [Run.andThen_error run rest e herr]
    exact h1
  | none =>
    rw [Run.andThen_ok run rest herr]
    obtain ⟨⟨ht, he⟩, hp⟩ := h1
    obtain ⟨⟨ht2, he2⟩, hp2⟩ := h2 herr
    have hl : lastError run.log = none := Run.From.lastError_of_ok ⟨ht, he⟩ herr
    have hclean := ht.clean_of_lastError hl
    refine ⟨⟨?_, ?_⟩, ?_⟩
    · simp only [Run.after_log, Run.after_state]
      exact ht.append hl ht2
    · simp only [Run.after_log, Run.after_err, lastError_append _ _ hl hclean]
      exact he2
    · intro x hx
      simp only [Run.after_log, List.mem_append] at hx
      rcases hx with hx | hx
      · exact hp x hx
      · exact hp2 x hx

/-- A run that makes only calls satisfying `P` makes only calls satisfying a
weaker `Q`. -/
theorem Good.mono {σ : Type} {r : TaskRefresherImpl σ} {ctors : Constructors σ}
    {ms : MutableState σ} {P Q : Call → Prop} {s : σ} {run : Run σ}
    (h : Good r ctors ms P s run) (hPQ : ∀ c, P c → Q c) : Good r ctors ms Q s run :=
  ⟨h.1, fun x hx => hPQ _ (h.2 x hx)⟩

/-! ## The stage functions -/

theorem refreshTasksForWorkflowStart_good {σ : Type} (r : TaskRefresherImpl σ)
    (ctors : Constructors σ) (ms : MutableState σ) (s : σ) :
    Good r ctors ms (fun c => c.allowedIn 1 = true) s
      (r.refreshTasksForWorkflowStart ms (ctors.NewTaskGenerator r.shard) s) := by
  unfold TaskRefresherImpl.refreshTasksForWorkflowStart
  refine Good.fetch _ _ _ rfl rfl rfl (fun startEvent _ => ?_)
  refine Good.call _ _ _ rfl rfl rfl (fun _ => ?_)
  refine Good.read _ rfl rfl rfl ?_
  split
  · exact Good.call _ _ _ rfl rfl rfl (fun _ => Good.done _)
  · exact Good.done _

theorem refreshTasksForWorkflowClose_good {σ : Type} (r : TaskRefresherImpl σ)
    (ctors : Constructors σ) (ms : MutableState σ) (s : σ) :
    Good r ctors ms (fun c => c.allowedIn 2 = true) s
      (r.refreshTasksForWorkflowClose ms (ctors.NewTaskGenerator r.shard) s) := by
  unfold TaskRefresherImpl.refreshTasksForWorkflowClose
  refine Good.read _ rfl rfl rfl ?_
  split
  · refine Good.fetch _ _ _ rfl rfl rfl (fun closeEvent _ => ?_)
    exact Good.call _ _ _ rfl rfl rfl (fun _ => Good.done _)
  · exact Good.done _

theorem refreshTasksForRecordWorkflowStarted_good {σ : Type} (r : TaskRefresherImpl σ)
    (ctors : Constructors σ) (ms : MutableState σ) (s : σ) :
    Good r ctors ms (fun c => c.allowedIn 3 = true) s
      (r.refreshTasksForRecordWorkflowStarted ms (ctors.NewTaskGenerator r.shard) s) := by
  unfold TaskRefresherImpl.refreshTasksForRecordWorkflowStarted
  refine Good.fetch _ _ _ rfl rfl rfl (fun startEvent _ => ?_)
  refine Good.read _ rfl rfl rfl ?_
  split
  · exact Good.call _ _ _ rfl rfl rfl (fun _ => Good.done _)
  · exact Good.done _

theorem refreshWorkflowTaskTasks_good {σ : Type} (r : TaskRefresherImpl σ)
    (ctors : Constructors σ) (ms : MutableState σ) (s : σ) :
    Good r ctors ms (fun c => c.allowedIn 4 = true) s
      (r.refreshWorkflowTaskTasks ms (ctors.NewTaskGenerator r.shard) s) := by
  unfold TaskRefresherImpl.refreshWorkflowTaskTasks
  refine Good.read _ rfl rfl rfl ?_
  split
  · exact Good.done _
  · refine Good.read _ rfl rfl rfl ?_
    split
    · exact Good.fail _ _
    · split
      · exact Good.done _
      · split
        · exact Good.call _ _ _ rfl rfl rfl (fun _ => Good.done _)
        · exact Good.call _ _ _ rfl rfl rfl (fun _ => Good.done _)

theorem Good.forEach {σ α : Type} {r : TaskRefresherImpl σ} {ctors : Constructors σ}
    {ms : MutableState σ} {P : Call → Prop} (body : α → σ → Run σ) (xs : List α)
    (h : ∀ x ∈ xs, ∀ s, Good r ctors ms P s (body x s)) (s : σ) :
    Good r ctors ms P s (Run.forEach body xs s) := by
  induction xs generalizing s with
  | nil => exact Good.done _
  | cons x xs ih =>
    unfold Run.forEach
    exact Good.andThen (h x (by simp) s)
      (fun _ => ih (fun y hy => h y (by simp [hy])) _)

theorem refreshTasksForActivity_body_good {σ : Type} (r : TaskRefresherImpl σ)
    (ctors : Constructors σ) (ms : MutableState σ)
    (executionInfo : persistencespb.WorkflowExecutionInfo)
    (executionState : persistencespb.WorkflowExecutionState)
    (currentBranchToken : List Nat) (info : persistencespb.ActivityInfo) (s : σ) :
    Good r ctors ms (fun c => c.allowedIn 5 = true) s
      (TaskRefresherImpl.refreshTasksForActivity.body r ms (ctors.NewTaskGenerator r.shard)
        executionInfo executionState currentBranchToken info s) := by
  unfold TaskRefresherImpl.refreshTasksForActivity.body
  refine Good.call _ _ _ rfl rfl rfl (fun _ => ?_)
  split
  · exact Good.done _
  · refine Good.fetch _ _ _ rfl rfl rfl (fun scheduleEvent _ => ?_)
    exact Good.call _ _ _ rfl rfl rfl (fun _ => Good.done _)

theorem refreshTasksForActivity_good {σ : Type} (r : TaskRefresherImpl σ)
    (ctors : Constructors σ) (ms : MutableState σ) (s : σ) :
    Good r ctors ms (fun c => c.allowedIn 5 = true) s
      (r.refreshTasksForActivity ctors ms (ctors.NewTaskGenerator r.shard) s) := by
  unfold TaskRefresherImpl.refreshTasksForActivity
  refine Good.read _ rfl rfl rfl ?_
  refine Good.read _ rfl rfl rfl ?_
  refine Good.read _ rfl rfl rfl ?_
  refine Good.fetch _ _ _ rfl rfl rfl (fun token _ => ?_)
  refine Good.andThen (Good.forEach _ _
    (fun x _ s => refreshTasksForActivity_body_good r ctors ms _ _ _ x s) _) (fun _ => ?_)
  refine Good.read _ rfl rfl rfl ?_
  exact Good.fetch _ _ _ rfl rfl rfl (fun _ _ => Good.done _)

theorem refreshTasksForTimer_body_good {σ : Type} (r : TaskRefresherImpl σ)
    (ctors : Constructors σ) (ms : MutableState σ)
    (info : persistencespb.TimerInfo) (s : σ) :
    Good r ctors ms (fun c => c.allowedIn 6 = true) s
      (TaskRefresherImpl.refreshTasksForTimer.body ms info s) := by
  unfold TaskRefresherImpl.refreshTasksForTimer.body
  exact Good.call _ _ _ rfl rfl rfl (fun _ => Good.done _)

theorem refreshTasksForTimer_good {σ : Type} (r : TaskRefresherImpl σ)
    (ctors : Constructors σ) (ms : MutableState σ) (s : σ) :
    Good r ctors ms (fun c => c.allowedIn 6 = true) s
      (r.refreshTasksForTimer ctors ms s) := by
  unfold TaskRefresherImpl.refreshTasksForTimer
  refine Good.read _ rfl rfl rfl ?_
  refine Good.andThen (Good.forEach _ _
    (fun x _ s => refreshTasksForTimer_body_good r ctors ms x s) _) (fun _ => ?_)
  refine Good.read _ rfl rfl rfl ?_
  exact Good.fetch _ _ _ rfl rfl rfl (fun _ _ => Good.done _)

theorem refreshTasksForChildWorkflow_body_good {σ : Type} (r : TaskRefresherImpl σ)
    (ctors : Constructors σ) (ms : MutableState σ)
    (executionInfo : persistencespb.WorkflowExecutionInfo)
    (executionState : persistencespb.WorkflowExecutionState)
    (currentBranchToken : List Nat) (info : persistencespb.ChildExecutionInfo) (s : σ) :
    Good r ctors ms (fun c => c.allowedIn 7 = true) s
      (TaskRefresherImpl.refreshTasksForChildWorkflow.body r (ctors.NewTaskGenerator r.shard)
        executionInfo executionState currentBranchToken info s) := by
  unfold TaskRefresherImpl.refreshTasksForChildWorkflow.body
  split
  · exact Good.done _
  · refine Good.fetch _ _ _ rfl rfl rfl (fun scheduleEvent _ => ?_)
    exact Good.call _ _ _ rfl rfl rfl (fun _ => Good.done _)

theorem refreshTasksForChildWorkflow_good {σ : Type} (r : TaskRefresherImpl σ)
    (ctors : Constructors σ) (ms : MutableState σ) (s : σ) :
    Good r ctors ms (fun c => c.allowedIn 7 = true) s
      (r.refreshTasksForChildWorkflow ms (ctors.NewTaskGenerator r.shard) s) := by
  unfold TaskRefresherImpl.refreshTasksForChildWorkflow
  refine Good.read _ rfl rfl rfl ?_
  refine Good.read _ rfl rfl rfl ?_
  refine Good.read _ rfl rfl rfl ?_
  refine Good.fetch _ _ _ rfl rfl rfl (fun token _ => ?_)
  exact Good.forEach _ _
    (fun x _ s => refreshTasksForChildWorkflow_body_good r ctors ms _ _ _ x s) _

theorem refreshTasksForRequestCancelExternalWorkflow_body_good {σ : Type}
    (r : TaskRefresherImpl σ) (ctors : Constructors σ) (ms : MutableState σ)
    (executionInfo : persistencespb.WorkflowExecutionInfo)
    (executionState : persistencespb.WorkflowExecutionState)
    (currentBranchToken : List Nat) (info : persistencespb.RequestCancelInfo) (s : σ) :
    Good r ctors ms (fun c => c.allowedIn 8 = true) s
      (TaskRefresherImpl.refreshTasksForRequestCancelExternalWorkflow.body r
        (ctors.NewTaskGenerator r.shard) executionInfo executionState currentBranchToken
        info s) := by
  unfold TaskRefresherImpl.refreshTasksForRequestCancelExternalWorkflow.body
  refine Good.fetch _ _ _ rfl rfl rfl (fun initiateEvent _ => ?_)
  exact Good.call _ _ _ rfl rfl rfl (fun _ => Good.done _)

theorem refreshTasksForRequestCancelExternalWorkflow_good {σ : Type}
    (r : TaskRefresherImpl σ) (ctors : Constructors σ) (ms : MutableState σ) (s : σ) :
    Good r ctors ms (fun c => c.allowedIn 8 = true) s
      (r.refreshTasksForRequestCancelExternalWorkflow ms (ctors.NewTaskGenerator r.shard)
        s) := by
  unfold TaskRefresherImpl.refreshTasksForRequestCancelExternalWorkflow
  refine Good.read _ rfl rfl rfl ?_
  refine Good.read _ rfl rfl rfl ?_
  refine Good.read _ rfl rfl rfl ?_
  refine Good.fetch _ _ _ rfl rfl rfl (fun token _ => ?_)
  exact Good.forEach _ _ (fun x _ s =>
    refreshTasksForRequestCancelExternalWorkflow_body_good r ctors ms _ _ _ x s) _

theorem refreshTasksForSignalExternalWorkflow_body_good {σ : Type}
    (r : TaskRefresherImpl σ) (ctors : Constructors σ) (ms : MutableState σ)
    (executionInfo : persistencespb.WorkflowExecutionInfo)
    (executionState : persistencespb.WorkflowExecutionState)
    (currentBranchToken : List Nat) (info : persistencespb.SignalInfo) (s : σ) :
    Good r ctors ms (fun c => c.allowedIn 9 = true) s
      (TaskRefresherImpl.refreshTasksForSignalExternalWorkflow.body r
        (ctors.NewTaskGenerator r.shard) executionInfo executionState currentBranchToken
        info s) := by
  unfold TaskRefresherImpl.refreshTasksForSignalExternalWorkflow.body
  refine Good.fetch _ _ _ rfl rfl rfl (fun initiateEvent _ => ?_)
  exact Good.call _ _ _ rfl rfl rfl (fun _ => Good.done _)

theorem refreshTasksForSignalExternalWorkflow_good {σ : Type}
    (r : TaskRefresherImpl σ) (ctors : Constructors σ) (ms : MutableState σ) (s : σ) :
    Good r ctors ms (fun c => c.allowedIn 9 = true) s
      (r.refreshTasksForSignalExternalWorkflow ms (ctors.NewTaskGenerator r.shard) s) := by
  unfold TaskRefresherImpl.refreshTasksForSignalExternalWorkflow
  refine Good.read _ rfl rfl rfl ?_
  refine Good.read _ rfl rfl rfl ?_
  refine Good.read _ rfl rfl rfl ?_
  refine Good.fetch _ _ _ rfl rfl rfl (fun token _ => ?_)
  exact Good.forEach _ _ (fun x _ s =>
    refreshTasksForSignalExternalWorkflow_body_good r ctors ms _ _ _ x s) _

theorem refreshTasksForWorkflowSearchAttr_good {σ : Type}
    (r : TaskRefresherImpl σ) (ctors : Constructors σ) (ms : MutableState σ) (s : σ) :
    Good r ctors ms (fun c => c.allowedIn 10 = true) s
      (r.refreshTasksForWorkflowSearchAttr (ctors.NewTaskGenerator r.shard) s) := by
  unfold TaskRefresherImpl.refreshTasksForWorkflowSearchAttr
  exact Good.call _ _ _ rfl rfl rfl (fun _ => Good.done _)

/-- Every run of `RefreshTasks` is an execution from the state it is given. -/
theorem RefreshTasks_from {σ : Type} (r : TaskRefresherImpl σ)
    (ctors : Constructors σ) (ms : MutableState σ) (s : σ) :
    Run.From r ctors ms s (r.RefreshTasks ctors ms s) := by
  have h : Good r ctors ms (fun _ => True) s (r.RefreshTasks ctors ms s) := by
    unfold TaskRefresherImpl.RefreshTasks
    refine Good.read _ trivial rfl rfl ?_
    refine Good.andThen ((refreshTasksForWorkflowStart_good r ctors ms _).mono
      (fun _ _ => trivial)) (fun _ => ?_)
    refine Good.andThen ((refreshTasksForWorkflowClose_good r ctors ms _).mono
      (fun _ _ => trivial)) (fun _ => ?_)
    refine Good.andThen ((refreshTasksForRecordWorkflowStarted_good r ctors ms _).mono
      (fun _ _ => trivial)) (fun _ => ?_)
    refine Good.andThen ((refreshWorkflowTaskTasks_good r ctors ms _).mono
      (fun _ _ => trivial)) (fun _ => ?_)
    refine Good.andThen ((refreshTasksForActivity_good r ctors ms _).mono
      (fun _ _ => trivial)) (fun _ => ?_)
    refine Good.andThen ((refreshTasksForTimer_good r ctors ms _).mono
      (fun _ _ => trivial)) (fun _ => ?_)
    refine Good.andThen ((refreshTasksForChildWorkflow_good r ctors ms _).mono
      (fun _ _ => trivial)) (fun _ => ?_)
    refine Good.andThen ((refreshTasksForRequestCancelExternalWorkflow_good r ctors ms _).mono
      (fun _ _ => trivial)) (fun _ => ?_)
    refine Good.andThen ((refreshTasksForSignalExternalWorkflow_good r ctors ms _).mono
      (fun _ _ => trivial)) (fun _ => ?_)
    exact (refreshTasksForWorkflowSearchAttr_good r ctors ms _).mono (fun _ _ => trivial)
  exact h.1

/-! ## The shape of a run of `RefreshTasks` -/

/-- What a stage followed by the rest returns nil means. -/
theorem Run.andThen_err_eq_none {σ : Type} (run : Run σ) (rest : σ → Run σ)
    (h : (run.andThen rest).err = none) :
    run.err = none ∧ (rest run.state).err = none ∧
      (run.andThen rest).log = run.log ++ (rest run.state).log ∧
      (run.andThen rest).state = (rest run.state).state := by
  cases herr : run.err with
  | some e =>
    rw [Run.andThen_error run rest e herr, herr] at h
    cases h
  | none =>
    rw [Run.andThen_ok run rest herr] at h ⊢
    exact ⟨rfl, h, rfl, rfl⟩

/-- A call whose success ends the function logs one entry with its answer. -/
theorem Run.call_done {σ : Type} (c : Call) (answer : Option updateworkflow.Error × σ) :
    Run.call c answer (fun s => Run.done s) =
      { err := answer.1, state := answer.2, log := [{ call := c, err := answer.1 }] } := by
  obtain ⟨a, s⟩ := answer
  cases a <;> rfl

/-- A call is allowed in at most the stage it belongs to. -/
theorem Call.stage_of_allowedIn (k : Nat) (c : Call) (j : Nat)
    (h : c.allowedIn k = true) (hj : c.stage = some j) : j = k := by
  cases c <;> simp_all [Call.allowedIn, Call.stage]

/-- The upsert request is allowed in the last stage only. -/
theorem Call.allowedIn_upsert (k : Nat) :
    Call.allowedIn k .GenerateUpsertVisibilityTask = true ↔ k = 10 := by
  simp [Call.allowedIn, Call.stage, eq_comm]

theorem andThen_shape {σ : Type} (P : Call → Prop) (Q : List Entry → Prop)
    (a : Run σ) (rest : σ → Run σ) (ha : ∀ x ∈ a.log, P x.call)
    (hrest : ∃ L U, (rest a.state).log = L ++ U ∧ (∀ x ∈ L, P x.call) ∧ Q U)
    (hQ : Q []) :
    ∃ L U, (a.andThen rest).log = L ++ U ∧ (∀ x ∈ L, P x.call) ∧ Q U := by
  cases herr : a.err with
  | some e =>
    rw [Run.andThen_error a rest e herr]
    exact ⟨a.log, [], by simp, ha, hQ⟩
  | none =>
    rw [Run.andThen_ok a rest herr]
    obtain ⟨L, U, h1, h2, h3⟩ := hrest
    refine ⟨a.log ++ L, U, by simp [h1], ?_, h3⟩
    intro x hx
    rcases List.mem_append.mp hx with hx | hx
    · exact ha x hx
    · exact h2 x hx

/-- The statements of `RefreshTasks`, with the task generator it constructs. -/
theorem RefreshTasks_unfold {σ : Type} (r : TaskRefresherImpl σ)
    (ctors : Constructors σ) (ms : MutableState σ) (s : σ) :
    r.RefreshTasks ctors ms s =
      Run.read (.NewTaskGenerator r.shard)
      ((r.refreshTasksForWorkflowStart ms (ctors.NewTaskGenerator r.shard) s).andThen fun s =>
        (r.refreshTasksForWorkflowClose ms (ctors.NewTaskGenerator r.shard) s).andThen fun s =>
        (r.refreshTasksForRecordWorkflowStarted ms (ctors.NewTaskGenerator r.shard) s).andThen
          fun s =>
        (r.refreshWorkflowTaskTasks ms (ctors.NewTaskGenerator r.shard) s).andThen fun s =>
        (r.refreshTasksForActivity ctors ms (ctors.NewTaskGenerator r.shard) s).andThen fun s =>
        (r.refreshTasksForTimer ctors ms s).andThen fun s =>
        (r.refreshTasksForChildWorkflow ms (ctors.NewTaskGenerator r.shard) s).andThen fun s =>
        (r.refreshTasksForRequestCancelExternalWorkflow ms (ctors.NewTaskGenerator r.shard)
          s).andThen fun s =>
        (r.refreshTasksForSignalExternalWorkflow ms (ctors.NewTaskGenerator r.shard)
          s).andThen fun s =>
        r.refreshTasksForWorkflowSearchAttr (ctors.NewTaskGenerator r.shard) s) := rfl

/-- The log of any run of `RefreshTasks`: the construction of the task
generator, then calls of the first nine stages, then at most the upsert
request. -/
theorem RefreshTasks_shape {σ : Type} (r : TaskRefresherImpl σ)
    (ctors : Constructors σ) (ms : MutableState σ) (s : σ) :
    ∃ L U, (r.RefreshTasks ctors ms s).log = Entry.ok (.NewTaskGenerator r.shard) :: (L ++ U) ∧
      (∀ x ∈ L, ∃ k, k ≤ 9 ∧ x.call.allowedIn k = true) ∧
      (U = [] ∨ ∃ e, U = [{ call := .GenerateUpsertVisibilityTask, err := e }]) := by
  rw [RefreshTasks_unfold, Run.read_log]
  have wrap : ∀ X : Run σ,
      (∃ L U, X.log = L ++ U ∧
        (∀ x ∈ L, (fun c : Call => ∃ k, k ≤ 9 ∧ c.allowedIn k = true) x.call) ∧
        (fun U : List Entry =>
          U = [] ∨ ∃ e, U = [{ call := .GenerateUpsertVisibilityTask, err := e }]) U) →
      ∃ L U, { call := .NewTaskGenerator r.shard, err := none } :: X.log =
          Entry.ok (.NewTaskGenerator r.shard) :: (L ++ U) ∧
        (∀ x ∈ L, ∃ k, k ≤ 9 ∧ x.call.allowedIn k = true) ∧
        (U = [] ∨ ∃ e, U = [{ call := .GenerateUpsertVisibilityTask, err := e }]) := by
    rintro X ⟨L, U, h1, h2, h3⟩
    exact ⟨L, U, by rw [h1]; rfl, h2, h3⟩
  refine wrap _ ?_
  · have step := @andThen_shape σ (fun c : Call => ∃ k, k ≤ 9 ∧ c.allowedIn k = true)
      (fun U : List Entry =>
        U = [] ∨ ∃ e, U = [{ call := .GenerateUpsertVisibilityTask, err := e }])
    refine step _ _
      (fun x hx => ⟨1, by omega, (refreshTasksForWorkflowStart_good r ctors ms _).2 x hx⟩)
      ?_ (Or.inl rfl)
    refine step _ _
      (fun x hx => ⟨2, by omega, (refreshTasksForWorkflowClose_good r ctors ms _).2 x hx⟩)
      ?_ (Or.inl rfl)
    refine step _ _
      (fun x hx =>
        ⟨3, by omega, (refreshTasksForRecordWorkflowStarted_good r ctors ms _).2 x hx⟩)
      ?_ (Or.inl rfl)
    refine step _ _
      (fun x hx => ⟨4, by omega, (refreshWorkflowTaskTasks_good r ctors ms _).2 x hx⟩)
      ?_ (Or.inl rfl)
    refine step _ _
      (fun x hx => ⟨5, by omega, (refreshTasksForActivity_good r ctors ms _).2 x hx⟩)
      ?_ (Or.inl rfl)
    refine step _ _
      (fun x hx => ⟨6, by omega, (refreshTasksForTimer_good r ctors ms _).2 x hx⟩)
      ?_ (Or.inl rfl)
    refine step _ _
      (fun x hx => ⟨7, by omega, (refreshTasksForChildWorkflow_good r ctors ms _).2 x hx⟩)
      ?_ (Or.inl rfl)
    refine step _ _
      (fun x hx =>
        ⟨8, by omega,
          (refreshTasksForRequestCancelExternalWorkflow_good r ctors ms _).2 x hx⟩)
      ?_ (Or.inl rfl)
    refine step _ _
      (fun x hx =>
        ⟨9, by omega, (refreshTasksForSignalExternalWorkflow_good r ctors ms _).2 x hx⟩)
      ?_ (Or.inl rfl)
    refine ⟨[], _, (List.nil_append _).symm, by simp, Or.inr ?_⟩
    unfold TaskRefresherImpl.refreshTasksForWorkflowSearchAttr
    rw [Run.call_done]
    exact ⟨_, rfl⟩

/-- In any run of `RefreshTasks`, an upsert request is the last call. -/
theorem RefreshTasks_upsert_is_last {σ : Type} (r : TaskRefresherImpl σ)
    (ctors : Constructors σ) (ms : MutableState σ) (s : σ)
    (before after : List Entry) (y : Entry)
    (hlog : (r.RefreshTasks ctors ms s).log = before ++ y :: after)
    (hy : y.call = .GenerateUpsertVisibilityTask) : after = [] := by
  obtain ⟨L, U, h1, h2, h3⟩ := RefreshTasks_shape r ctors ms s
  have hnot : y ∉ Entry.ok (.NewTaskGenerator r.shard) :: L := by
    intro hmem
    rcases List.mem_cons.mp hmem with h | h
    · rw [h] at hy
      simp [Entry.ok] at hy
    · obtain ⟨k, hk, hall⟩ := h2 y h
      rw [hy, Call.allowedIn_upsert] at hall
      omega
  rw [hlog, ← List.cons_append] at h1
  rcases List.append_eq_append_iff.mp h1 with ⟨a, ha1, ha2⟩ | ⟨c, hc1, hc2⟩
  · cases a with
    | nil =>
      rcases h3 with h3 | ⟨e, h3⟩
      · rw [h3] at ha2
        simp at ha2
      · rw [h3] at ha2
        simp at ha2
        exact ha2.2
    | cons a0 as =>
      simp only [List.cons_append, List.cons.injEq] at ha2
      exact absurd (ha1 ▸ ha2.1 ▸ (by simp : a0 ∈ before ++ a0 :: as)) hnot
  · rcases h3 with h3 | ⟨e, h3⟩
    · rw [h3] at hc2
      simp at hc2
    · rw [h3] at hc2
      cases c with
      | nil =>
        simp at hc2
        exact hc2.2
      | cons c0 cs =>
        simp at hc2

/-- The calls of a stage belong to that stage or to none. -/
theorem stagesOf_of_allowedIn (k : Nat) (l : List Entry)
    (h : ∀ x ∈ l, x.call.allowedIn k = true) : ∀ j ∈ stagesOf l, j = k := by
  intro j hj
  simp only [stagesOf, List.mem_filterMap] at hj
  obtain ⟨x, hx, hxj⟩ := hj
  exact Call.stage_of_allowedIn k x.call j (h x hx) hxj

theorem stagesOf_append (l1 l2 : List Entry) :
    stagesOf (l1 ++ l2) = stagesOf l1 ++ stagesOf l2 := by
  simp [stagesOf, List.filterMap_append]

/-- The log of a stage followed by a log sorted from the next stage on is
sorted from that stage on. -/
theorem sorted_stage_append (k : Nat) (l1 l2 : List Entry)
    (h1 : ∀ x ∈ l1, x.call.allowedIn k = true)
    (h2 : (stagesOf l2).Pairwise (· ≤ ·) ∧ ∀ j ∈ stagesOf l2, k + 1 ≤ j) :
    (stagesOf (l1 ++ l2)).Pairwise (· ≤ ·) ∧ ∀ j ∈ stagesOf (l1 ++ l2), k ≤ j := by
  have hk := stagesOf_of_allowedIn k l1 h1
  rw [stagesOf_append]
  refine ⟨List.pairwise_append.mpr ⟨?_, h2.1, ?_⟩, ?_⟩
  · exact List.pairwise_of_forall_mem_list
      (fun a ha b hb => by rw [hk a ha, hk b hb])
  · intro a ha b hb
    have := h2.2 b hb
    rw [hk a ha]
    omega
  · intro j hj
    rcases List.mem_append.mp hj with hj | hj
    · rw [hk j hj]
    · have := h2.2 j hj
      omega

theorem timesCalled_append (c : Call) (l1 l2 : List Entry) :
    timesCalled c (l1 ++ l2) = timesCalled c l1 + timesCalled c l2 := by
  simp [timesCalled, List.filter_append]

/-- A call that no stage of a log allows is not in the log. -/
theorem timesCalled_eq_zero (c : Call) (l : List Entry) (h : ∀ x ∈ l, x.call ≠ c) :
    timesCalled c l = 0 := by
  simp only [timesCalled, List.length_eq_zero, List.filter_eq_nil_iff]
  intro x hx
  simpa using h x hx

/-- The upsert request is made in no stage but the last. -/
theorem timesCalled_upsert_of_allowedIn (k : Nat) (hk : k ≠ 10) (l : List Entry)
    (h : ∀ x ∈ l, x.call.allowedIn k = true) :
    timesCalled .GenerateUpsertVisibilityTask l = 0 := by
  refine timesCalled_eq_zero _ _ (fun x hx hcall => ?_)
  have := h x hx
  rw [hcall, Call.allowedIn_upsert] at this
  exact hk this

/-- No call of the sample world removes a queued task. -/
theorem sample_effect_keeps_tasks (c : Call) (s : sample.State) (t : Call)
    (ht : t ∈ s.tasks) :
    t ∈ (c.effect sample.refresher sample.ctors sample.mutableState s).tasks := by
  cases c <;>
    simp [Call.effect, sample.refresher, sample.ctors, sample.mutableState,
      sample.taskGenerator, sample.timerSequence, sample.eventsCache, sample.load,
      sample.enqueue, ht]
  all_goals (split <;> try split) <;> simp [ht]

/-! ## The write-back loops -/

theorem updatedActivities_append (l1 l2 : List Entry) :
    updatedActivities (l1 ++ l2) = updatedActivities l1 ++ updatedActivities l2 := by
  simp [updatedActivities, List.filterMap_append]

theorem updatedTimers_append (l1 l2 : List Entry) :
    updatedTimers (l1 ++ l2) = updatedTimers l1 ++ updatedTimers l2 := by
  simp [updatedTimers, List.filterMap_append]

/-- The log of a call followed by the rest. -/
theorem Run.call_log {σ : Type} (c : Call) (answer : Option updateworkflow.Error × σ)
    (rest : σ → Run σ) :
    (Run.call c answer rest).log =
      { call := c, err := answer.1 } ::
        (match answer.1 with
          | some _ => []
          | none => (rest answer.2).log) := by
  obtain ⟨a, s⟩ := answer
  cases a <;> rfl

/-- A fetch whose success ends with a single call that ends the function. -/
theorem Run.fetch_call_done_log {σ α : Type} (c : Call)
    (answer : Except updateworkflow.Error α × σ) (c2 : α → Call)
    (answer2 : α → σ → Option updateworkflow.Error × σ) (x : Entry)
    (hx : x ∈ (Run.fetch c answer fun v s =>
      Run.call (c2 v) (answer2 v s) fun s => Run.done s).log) :
    x.call = c ∨ ∃ v, x.call = c2 v := by
  obtain ⟨a, s⟩ := answer
  cases a with
  | error e =>
    rw [Run.fetch_error] at hx
    simp only [List.mem_singleton] at hx
    exact Or.inl (by rw [hx])
  | ok v =>
    rw [Run.fetch_ok, Run.call_done] at hx
    simp only [Run.after_log, List.singleton_append, List.mem_cons, List.mem_singleton,
      List.not_mem_nil, or_false] at hx
    rcases hx with hx | hx
    · exact Or.inl (by rw [hx])
    · exact Or.inr ⟨v, by rw [hx]⟩

/-- One pass of the activity loop writes back the info with its status
cleared, first, and makes no call to the timer sequence. -/
theorem refreshTasksForActivity_body_log {σ : Type} (r : TaskRefresherImpl σ)
    (ms : MutableState σ) (tg : TaskGenerator σ)
    (executionInfo : persistencespb.WorkflowExecutionInfo)
    (executionState : persistencespb.WorkflowExecutionState)
    (currentBranchToken : List Nat) (info : persistencespb.ActivityInfo) (s : σ) :
    updatedActivities (TaskRefresherImpl.refreshTasksForActivity.body r ms tg
        executionInfo executionState currentBranchToken info s).log = [info.cleared] ∧
    timesCalled .CreateNextActivityTimer (TaskRefresherImpl.refreshTasksForActivity.body r ms tg
        executionInfo executionState currentBranchToken info s).log = 0 := by
  unfold TaskRefresherImpl.refreshTasksForActivity.body
  rw [Run.call_log]
  split
  · exact ⟨rfl, rfl⟩
  · split
    · exact ⟨rfl, rfl⟩
    · constructor
      · simp only [updatedActivities, List.filterMap_cons]
        refine congrArg _ (List.filterMap_eq_nil_iff.mpr (fun x hx => ?_))
        rcases Run.fetch_call_done_log _ _ _ _ x hx with h | ⟨v, h⟩ <;> rw [h]
      · rw [← List.singleton_append, timesCalled_append]
        refine Nat.add_eq_zero_iff.mpr ⟨by simp [timesCalled],
          timesCalled_eq_zero _ _ (fun x hx => ?_)⟩
        rcases Run.fetch_call_done_log _ _ _ _ x hx with h | ⟨v, h⟩ <;> rw [h] <;> simp

/-- A loop that completes has run its body on every element, in order. -/
theorem forEach_of_ok {σ α β : Type} (body : α → σ → Run σ) (f : List Entry → List β)
    (g : α → List β) (count : List Entry → Nat)
    (hf : ∀ l1 l2, f (l1 ++ l2) = f l1 ++ f l2) (hf0 : f [] = [])
    (hc : ∀ l1 l2, count (l1 ++ l2) = count l1 + count l2) (hc0 : count [] = 0)
    (hbody : ∀ x s, f (body x s).log = g x ∧ count (body x s).log = 0)
    (xs : List α) (s : σ) (hok : (Run.forEach body xs s).err = none) :
    f (Run.forEach body xs s).log = xs.flatMap g ∧ count (Run.forEach body xs s).log = 0 := by
  induction xs generalizing s with
  | nil => exact ⟨hf0, hc0⟩
  | cons x xs ih =>
    unfold Run.forEach at hok ⊢
    obtain ⟨h1, h2, hl, -⟩ := Run.andThen_err_eq_none _ _ hok
    rw [hl, hf, hc, (hbody x s).1, (hbody x s).2, (ih _ h2).1, (ih _ h2).2]
    exact ⟨rfl, rfl⟩

/-- What a fetch followed by the rest returns nil means. -/
theorem Run.fetch_err_eq_none {σ α : Type} (c : Call)
    (answer : Except updateworkflow.Error α × σ) (rest : α → σ → Run σ)
    (h : (Run.fetch c answer rest).err = none) :
    ∃ v, answer.1 = .ok v ∧ (rest v answer.2).err = none ∧
      (Run.fetch c answer rest).log = Entry.ok c :: (rest v answer.2).log ∧
      (Run.fetch c answer rest).state = (rest v answer.2).state := by
  obtain ⟨a, s⟩ := answer
  cases a with
  | error e =>
    rw [Run.fetch_error] at h
    cases h
  | ok v => exact ⟨v, rfl, h, rfl, rfl⟩

/-- What a call followed by the rest returns nil means. -/
theorem Run.call_err_eq_none {σ : Type} (c : Call)
    (answer : Option updateworkflow.Error × σ) (rest : σ → Run σ)
    (h : (Run.call c answer rest).err = none) :
    answer.1 = none ∧ (rest answer.2).err = none ∧
      (Run.call c answer rest).log = Entry.ok c :: (rest answer.2).log ∧
      (Run.call c answer rest).state = (rest answer.2).state := by
  obtain ⟨a, s⟩ := answer
  cases a with
  | some e =>
    rw [Run.call_error] at h
    cases h
  | none => exact ⟨rfl, h, rfl, rfl⟩

/-- One pass of the user timer loop writes back the info with its status
cleared and makes no call to the timer sequence. -/
theorem refreshTasksForTimer_body_log {σ : Type} (ms : MutableState σ)
    (info : persistencespb.TimerInfo) (s : σ) :
    updatedTimers (TaskRefresherImpl.refreshTasksForTimer.body ms info s).log =
      [info.cleared] ∧
    timesCalled .CreateNextUserTimer
      (TaskRefresherImpl.refreshTasksForTimer.body ms info s).log = 0 := by
  unfold TaskRefresherImpl.refreshTasksForTimer.body
  rw [Run.call_done]
  exact ⟨rfl, by simp [timesCalled]⟩

/-- A run of the activity stage, and a run of the user timer stage, that
returns nil: the reads, the loop writing back every pending info with its
status cleared, then the construction of the timer sequence and its call. -/
theorem timer_stages_of_ok {σ : Type} (r : TaskRefresherImpl σ)
    (ctors : Constructors σ) (ms : MutableState σ) (tg : TaskGenerator σ) (s : σ) :
    ((r.refreshTasksForActivity ctors ms tg s).err = none →
      (∃ loopLog, (r.refreshTasksForActivity ctors ms tg s).log =
          [Entry.ok .GetExecutionInfo, Entry.ok .GetExecutionState,
            Entry.ok .GetPendingActivityInfos, Entry.ok .GetCurrentBranchToken] ++ loopLog ++
            [Entry.ok .NewTimerSequence, Entry.ok .CreateNextActivityTimer] ∧
        updatedActivities loopLog =
          (ms.GetPendingActivityInfos s).map persistencespb.ActivityInfo.cleared ∧
        (∀ a ∈ updatedActivities loopLog, a.TimerTaskStatus = TimerTaskStatusNone) ∧
        timesCalled .CreateNextActivityTimer loopLog = 0) ∧
      timesCalled .CreateNextActivityTimer (r.refreshTasksForActivity ctors ms tg s).log = 1) ∧
    ((r.refreshTasksForTimer ctors ms s).err = none →
      (∃ loopLog, (r.refreshTasksForTimer ctors ms s).log =
          [Entry.ok .GetPendingTimerInfos] ++ loopLog ++
            [Entry.ok .NewTimerSequence, Entry.ok .CreateNextUserTimer] ∧
        updatedTimers loopLog =
          (ms.GetPendingTimerInfos s).map persistencespb.TimerInfo.cleared ∧
        (∀ t ∈ updatedTimers loopLog, t.TaskStatus = TimerTaskStatusNone) ∧
        timesCalled .CreateNextUserTimer loopLog = 0) ∧
      timesCalled .CreateNextUserTimer (r.refreshTasksForTimer ctors ms s).log = 1) := by
  constructor
  · intro hok
    unfold TaskRefresherImpl.refreshTasksForActivity at hok ⊢
    simp only [Run.read_err, Run.read_log] at hok ⊢
    obtain ⟨token, -, hok, hl1, -⟩ := Run.fetch_err_eq_none _ _ _ hok
    obtain ⟨hloop, hok, hl2, -⟩ := Run.andThen_err_eq_none _ _ hok
    simp only [Run.read_err, Run.read_log] at hok hl2
    obtain ⟨b, -, -, hl3, -⟩ := Run.fetch_err_eq_none _ _ _ hok
    have hfacts := forEach_of_ok
      (TaskRefresherImpl.refreshTasksForActivity.body r ms tg (ms.GetExecutionInfo s)
        (ms.GetExecutionState s) token)
      updatedActivities (fun a => [a.cleared]) (timesCalled .CreateNextActivityTimer)
      updatedActivities_append rfl (timesCalled_append _) rfl
      (fun x s => refreshTasksForActivity_body_log r ms tg _ _ _ x s) _ _ hloop
    have hmap : ∀ l : List persistencespb.ActivityInfo,
        l.flatMap (fun a => [a.cleared]) = l.map persistencespb.ActivityInfo.cleared := by
      intro l
      induction l with
      | nil => rfl
      | cons a l ih => simp [List.flatMap_cons, ih]
    rw [hmap] at hfacts
    refine (fun hA => ⟨hA, ?_⟩) ⟨_, ?_, hfacts.1, ?_, hfacts.2⟩
    · obtain ⟨l, hs, -, -, hc⟩ := hA
      rw [hs, timesCalled_append, timesCalled_append, hc]
      simp [timesCalled, Entry.ok]
    · rw [hl1, hl2, hl3]
      simp [Entry.ok]
    · rw [hfacts.1]
      intro a ha
      obtain ⟨a0, -, rfl⟩ := List.mem_map.mp ha
      rfl
  · intro hok
    unfold TaskRefresherImpl.refreshTasksForTimer at hok ⊢
    simp only [Run.read_err, Run.read_log] at hok ⊢
    obtain ⟨hloop, hok, hl2, -⟩ := Run.andThen_err_eq_none _ _ hok
    simp only [Run.read_err, Run.read_log] at hok hl2
    obtain ⟨b, -, -, hl3, -⟩ := Run.fetch_err_eq_none _ _ _ hok
    have hfacts := forEach_of_ok
      (TaskRefresherImpl.refreshTasksForTimer.body ms)
      updatedTimers (fun a => [a.cleared]) (timesCalled .CreateNextUserTimer)
      updatedTimers_append rfl (timesCalled_append _) rfl
      (fun x s => refreshTasksForTimer_body_log ms x s) _ _ hloop
    have hmap : ∀ l : List persistencespb.TimerInfo,
        l.flatMap (fun a => [a.cleared]) = l.map persistencespb.TimerInfo.cleared := by
      intro l
      induction l with
      | nil => rfl
      | cons a l ih => simp [List.flatMap_cons, ih]
    rw [hmap] at hfacts
    refine (fun hA => ⟨hA, ?_⟩) ⟨_, ?_, hfacts.1, ?_, hfacts.2⟩
    · obtain ⟨l, hs, -, -, hc⟩ := hA
      rw [hs, timesCalled_append, timesCalled_append, hc]
      simp [timesCalled, Entry.ok]
    · rw [hl2, hl3]
      simp [Entry.ok]
    · rw [hfacts.1]
      intro a ha
      obtain ⟨a0, -, rfl⟩ := List.mem_map.mp ha
      rfl

/-- A call that a stage does not allow is not made by it. -/
theorem timesCalled_of_not_allowedIn (c : Call) (P : Call → Prop) (hc : ¬ P c)
    (l : List Entry) (h : ∀ x ∈ l, P x.call) : timesCalled c l = 0 :=
  timesCalled_eq_zero _ _ (fun x hx hcall => hc (hcall ▸ h x hx))

/-- The stages after the user timers, from any state, make only calls of
those stages. -/
theorem late_stages_good {σ : Type} (r : TaskRefresherImpl σ)
    (ctors : Constructors σ) (ms : MutableState σ) (s : σ) :
    Good r ctors ms (fun c => ∃ k, 7 ≤ k ∧ c.allowedIn k = true) s
      ((r.refreshTasksForChildWorkflow ms (ctors.NewTaskGenerator r.shard) s).andThen fun s =>
        (r.refreshTasksForRequestCancelExternalWorkflow ms (ctors.NewTaskGenerator r.shard)
          s).andThen fun s =>
        (r.refreshTasksForSignalExternalWorkflow ms (ctors.NewTaskGenerator r.shard)
          s).andThen fun s =>
        r.refreshTasksForWorkflowSearchAttr (ctors.NewTaskGenerator r.shard) s) := by
  refine Good.andThen ((refreshTasksForChildWorkflow_good r ctors ms _).mono
    (fun _ h => ⟨7, by omega, h⟩)) (fun _ => ?_)
  refine Good.andThen ((refreshTasksForRequestCancelExternalWorkflow_good r ctors ms _).mono
    (fun _ h => ⟨8, by omega, h⟩)) (fun _ => ?_)
  refine Good.andThen ((refreshTasksForSignalExternalWorkflow_good r ctors ms _).mono
    (fun _ h => ⟨9, by omega, h⟩)) (fun _ => ?_)
  exact (refreshTasksForWorkflowSearchAttr_good r ctors ms _).mono
    (fun _ h => ⟨10, by omega, h⟩)

/-! ## Runs that follow each other -/

theorem requests_append (l1 l2 : List Entry) :
    requests (l1 ++ l2) = requests l1 ++ requests l2 := by
  simp [requests, List.filter_append]

theorem requests_cons (x : Entry) (l : List Entry) :
    requests (x :: l) = requests [x] ++ requests l := by
  rw [← List.singleton_append, requests_append]

theorem Follows.of_call {σ V : Type} {view : σ → V} {v : V} (c : Call)
    (answer answer' : Option updateworkflow.Error × σ) (rest rest' : σ → Run σ)
    (hans : answer.1 = answer'.1)
    (h : answer.1 = none → Follows view v (rest answer.2) (rest' answer'.2)) :
    Follows view v (Run.call c answer rest) (Run.call c answer' rest') := by
  obtain ⟨a, t⟩ := answer
  obtain ⟨a', t'⟩ := answer'
  simp only at hans h
  subst hans
  cases a with
  | some e =>
    intro hok
    rw [Run.call_error] at hok
    cases hok
  | none =>
    rw [Run.call_ok, Run.call_ok]
    intro hok
    obtain ⟨h1, h2, h3, h4⟩ := h rfl hok
    refine ⟨h1, h2, h3, ?_⟩
    simp only [Run.after_log, List.singleton_append]
    rw [requests_cons, requests_cons _ (rest t).log]
    exact List.Perm.append_left _ h4

/-- A call other than a write-back, made in two states with the same view. -/
theorem Follows.request {σ V : Type} {r : TaskRefresherImpl σ} {ctors : Constructors σ}
    {ms : MutableState σ} {view : σ → V} (hf : Frame r ctors ms view) {v : V} (c : Call)
    (answer answer' : Option updateworkflow.Error × σ) (rest rest' : σ → Run σ)
    (s s' : σ) (hv : view s = v) (hv' : view s' = v) (hu : c.isUpdate = false)
    (hans : c.answer r ctors ms s = answer.1) (heff : c.effect r ctors ms s = answer.2)
    (hans' : c.answer r ctors ms s' = answer'.1) (heff' : c.effect r ctors ms s' = answer'.2)
    (h : ∀ t t', view t = v → view t' = v → Follows view v (rest t) (rest' t')) :
    Follows view v (Run.call c answer rest) (Run.call c answer' rest') := by
  refine Follows.of_call c _ _ _ _ ?_ (fun _ => h _ _ ?_ ?_)
  · rw [← hans, ← hans']
    exact hf.answer c s s' (hv.trans hv'.symm)
  · rw [← heff, hf.effect c s hu]
    exact hv
  · rw [← heff', hf.effect c s' hu]
    exact hv'

theorem callsWhere_append (p : Call → Bool) (l1 l2 : List Entry) :
    callsWhere p (l1 ++ l2) = callsWhere p l1 ++ callsWhere p l2 := by
  simp [callsWhere, List.filter_append]

theorem callsWhere_cons (p : Call → Bool) (x : Entry) (l : List Entry) :
    callsWhere p (x :: l) = (if p x.call = true then [x.call] else []) ++ callsWhere p l := by
  simp only [callsWhere, List.map_cons, List.filter_cons]
  split <;> rfl

theorem callsWhere_eq_nil (p : Call → Bool) (l : List Entry)
    (h : ∀ x ∈ l, p x.call = false) : callsWhere p l = [] := by
  simp only [callsWhere, List.filter_eq_nil_iff, List.mem_map]
  rintro c ⟨x, hx, rfl⟩
  simp [h x hx]

/-- The calls of a kind in a stage followed by a rest that makes none. -/
theorem callsWhere_andThen (p : Call → Bool) {σ : Type} (run : Run σ) (rest : σ → Run σ)
    (h : run.err = none → ∀ x ∈ (rest run.state).log, p x.call = false) :
    callsWhere p (run.andThen rest).log = callsWhere p run.log := by
  cases herr : run.err with
  | some e => rw [Run.andThen_error run rest e herr]
  | none =>
    rw [Run.andThen_ok run rest herr, Run.after_log, callsWhere_append,
      callsWhere_eq_nil p _ (h herr), List.append_nil]

/-- The calls of a kind in a stage that makes none, followed by a rest. -/
theorem callsWhere_andThen_rest (p : Call → Bool) {σ : Type} (run : Run σ)
    (rest : σ → Run σ) (hok : run.err = none) (h : ∀ x ∈ run.log, p x.call = false) :
    callsWhere p (run.andThen rest).log = callsWhere p (rest run.state).log := by
  rw [Run.andThen_ok run rest hok, Run.after_log, callsWhere_append,
    callsWhere_eq_nil p _ h, List.nil_append]

theorem andThen_all {σ : Type} (P : Call → Prop) (run : Run σ) (rest : σ → Run σ)
    (h1 : ∀ x ∈ run.log, P x.call) (h2 : ∀ x ∈ (rest run.state).log, P x.call) :
    ∀ x ∈ (run.andThen rest).log, P x.call := by
  cases herr : run.err with
  | some e =>
    rw [Run.andThen_error run rest e herr]
    exact h1
  | none =>
    rw [Run.andThen_ok run rest herr, Run.after_log]
    intro x hx
    rcases List.mem_append.mp hx with hx | hx
    · exact h1 x hx
    · exact h2 x hx

/-- The stages from the workflow task stage on make only the calls allowed in
those stages. -/
theorem stages_from_workflow_task_all {σ : Type} (r : TaskRefresherImpl σ)
    (ctors : Constructors σ) (ms : MutableState σ) (P : Call → Prop)
    (hP : ∀ c k, 4 ≤ k → c.allowedIn k = true → P c) (s : σ) :
    ∀ x ∈ ((r.refreshWorkflowTaskTasks ms (ctors.NewTaskGenerator r.shard) s).andThen fun s =>
        (r.refreshTasksForActivity ctors ms (ctors.NewTaskGenerator r.shard) s).andThen fun s =>
        (r.refreshTasksForTimer ctors ms s).andThen fun s =>
        (r.refreshTasksForChildWorkflow ms (ctors.NewTaskGenerator r.shard) s).andThen fun s =>
        (r.refreshTasksForRequestCancelExternalWorkflow ms (ctors.NewTaskGenerator r.shard)
          s).andThen fun s =>
        (r.refreshTasksForSignalExternalWorkflow ms (ctors.NewTaskGenerator r.shard)
          s).andThen fun s =>
        r.refreshTasksForWorkflowSearchAttr (ctors.NewTaskGenerator r.shard) s).log,
      P x.call := by
  refine andThen_all P _ _
    (fun x hx => hP _ 4 (by omega) ((refreshWorkflowTaskTasks_good r ctors ms _).2 x hx)) ?_
  refine andThen_all P _ _
    (fun x hx => hP _ 5 (by omega) ((refreshTasksForActivity_good r ctors ms _).2 x hx)) ?_
  refine andThen_all P _ _
    (fun x hx => hP _ 6 (by omega) ((refreshTasksForTimer_good r ctors ms _).2 x hx)) ?_
  refine andThen_all P _ _
    (fun x hx => hP _ 7 (by omega) ((refreshTasksForChildWorkflow_good r ctors ms _).2 x hx)) ?_
  refine andThen_all P _ _
    (fun x hx => hP _ 8 (by omega)
      ((refreshTasksForRequestCancelExternalWorkflow_good r ctors ms _).2 x hx)) ?_
  refine andThen_all P _ _
    (fun x hx => hP _ 9 (by omega)
      ((refreshTasksForSignalExternalWorkflow_good r ctors ms _).2 x hx)) ?_
  exact fun x hx => hP _ 10 (by omega)
    ((refreshTasksForWorkflowSearchAttr_good r ctors ms _).2 x hx)

/-- The stages after the start stage make only the calls allowed in those
stages. -/
theorem stages_after_start_all {σ : Type} (r : TaskRefresherImpl σ)
    (ctors : Constructors σ) (ms : MutableState σ) (P : Call → Prop)
    (hP : ∀ c k, 2 ≤ k → c.allowedIn k = true → P c) (s : σ) :
    ∀ x ∈ ((r.refreshTasksForWorkflowClose ms (ctors.NewTaskGenerator r.shard) s).andThen
        fun s =>
        (r.refreshTasksForRecordWorkflowStarted ms (ctors.NewTaskGenerator r.shard) s).andThen
          fun s =>
        (r.refreshWorkflowTaskTasks ms (ctors.NewTaskGenerator r.shard) s).andThen fun s =>
        (r.refreshTasksForActivity ctors ms (ctors.NewTaskGenerator r.shard) s).andThen fun s =>
        (r.refreshTasksForTimer ctors ms s).andThen fun s =>
        (r.refreshTasksForChildWorkflow ms (ctors.NewTaskGenerator r.shard) s).andThen fun s =>
        (r.refreshTasksForRequestCancelExternalWorkflow ms (ctors.NewTaskGenerator r.shard)
          s).andThen fun s =>
        (r.refreshTasksForSignalExternalWorkflow ms (ctors.NewTaskGenerator r.shard)
          s).andThen fun s =>
        r.refreshTasksForWorkflowSearchAttr (ctors.NewTaskGenerator r.shard) s).log,
      P x.call := by
  refine andThen_all P _ _
    (fun x hx => hP _ 2 (by omega) ((refreshTasksForWorkflowClose_good r ctors ms _).2 x hx)) ?_
  refine andThen_all P _ _
    (fun x hx => hP _ 3 (by omega)
      ((refreshTasksForRecordWorkflowStarted_good r ctors ms _).2 x hx)) ?_
  exact stages_from_workflow_task_all r ctors ms P
    (fun c k hk h => hP c k (by omega) h) _

/-! ## A refresh that returns nil -/

/-- A run of `RefreshTasks` that returns nil: every stage has returned nil,
each from the state the stage before it has left, and the log is the
construction of the task generator followed by the logs of the ten stages. -/
theorem RefreshTasks_of_ok {σ : Type} (r : TaskRefresherImpl σ)
    (ctors : Constructors σ) (ms : MutableState σ) (s : σ)
    (hok : (r.RefreshTasks ctors ms s).err = none) :
    let tg := ctors.NewTaskGenerator r.shard
    let run1 := r.refreshTasksForWorkflowStart ms tg s
    let run2 := r.refreshTasksForWorkflowClose ms tg run1.state
    let run3 := r.refreshTasksForRecordWorkflowStarted ms tg run2.state
    let run4 := r.refreshWorkflowTaskTasks ms tg run3.state
    let run5 := r.refreshTasksForActivity ctors ms tg run4.state
    let run6 := r.refreshTasksForTimer ctors ms run5.state
    let run7 := r.refreshTasksForChildWorkflow ms tg run6.state
    let run8 := r.refreshTasksForRequestCancelExternalWorkflow ms tg run7.state
    let run9 := r.refreshTasksForSignalExternalWorkflow ms tg run8.state
    let run10 := r.refreshTasksForWorkflowSearchAttr tg run9.state
    (run1.err = none ∧ run2.err = none ∧ run3.err = none ∧ run4.err = none ∧
      run5.err = none ∧ run6.err = none ∧ run7.err = none ∧ run8.err = none ∧
      run9.err = none ∧ run10.err = none) ∧
    (r.RefreshTasks ctors ms s).log =
      Entry.ok (.NewTaskGenerator r.shard) ::
        (run1.log ++ (run2.log ++ (run3.log ++ (run4.log ++ (run5.log ++ (run6.log ++
          (run7.log ++ (run8.log ++ (run9.log ++ run10.log))))))))) := by
  intro tg run1 run2 run3 run4 run5 run6 run7 run8 run9 run10
  rw [RefreshTasks_unfold, Run.read_err] at hok
  obtain ⟨h1, hok, -, -⟩ := Run.andThen_err_eq_none _ _ hok
  obtain ⟨h2, hok, -, -⟩ := Run.andThen_err_eq_none _ _ hok
  obtain ⟨h3, hok, -, -⟩ := Run.andThen_err_eq_none _ _ hok
  obtain ⟨h4, hok, -, -⟩ := Run.andThen_err_eq_none _ _ hok
  obtain ⟨h5, hok, -, -⟩ := Run.andThen_err_eq_none _ _ hok
  obtain ⟨h6, hok, -, -⟩ := Run.andThen_err_eq_none _ _ hok
  obtain ⟨h7, hok, -, -⟩ := Run.andThen_err_eq_none _ _ hok
  obtain ⟨h8, hok, -, -⟩ := Run.andThen_err_eq_none _ _ hok
  obtain ⟨h9, h10, -, -⟩ := Run.andThen_err_eq_none _ _ hok
  refine ⟨⟨h1, h2, h3, h4, h5, h6, h7, h8, h9, h10⟩, ?_⟩
  rw [RefreshTasks_unfold, Run.read_log, Run.andThen_ok _ _ h1, Run.after_log,
    Run.andThen_ok _ _ h2, Run.after_log, Run.andThen_ok _ _ h3, Run.after_log,
    Run.andThen_ok _ _ h4, Run.after_log, Run.andThen_ok _ _ h5, Run.after_log,
    Run.andThen_ok _ _ h6, Run.after_log, Run.andThen_ok _ _ h7, Run.after_log,
    Run.andThen_ok _ _ h8, Run.after_log, Run.andThen_ok _ _ h9, Run.after_log]
  rfl

/-- In a run of `RefreshTasks` that returns nil, the calls of a kind that only
one of the stages of the four collections with fetched events allows are the
calls of that kind in that stage. -/
theorem callsWhere_of_stage {σ : Type} (r : TaskRefresherImpl σ)
    (ctors : Constructors σ) (ms : MutableState σ) (s : σ)
    (hok : (r.RefreshTasks ctors ms s).err = none) (p : Call → Bool) (j : Nat)
    (hp : ∀ c k, c.allowedIn k = true → p c = true → k = j)
    (hgen : p (.NewTaskGenerator r.shard) = false) :
    let tg := ctors.NewTaskGenerator r.shard
    let run1 := r.refreshTasksForWorkflowStart ms tg s
    let run2 := r.refreshTasksForWorkflowClose ms tg run1.state
    let run3 := r.refreshTasksForRecordWorkflowStarted ms tg run2.state
    let run4 := r.refreshWorkflowTaskTasks ms tg run3.state
    let run5 := r.refreshTasksForActivity ctors ms tg run4.state
    let run6 := r.refreshTasksForTimer ctors ms run5.state
    let run7 := r.refreshTasksForChildWorkflow ms tg run6.state
    let run8 := r.refreshTasksForRequestCancelExternalWorkflow ms tg run7.state
    let run9 := r.refreshTasksForSignalExternalWorkflow ms tg run8.state
    (j = 5 → callsWhere p (r.RefreshTasks ctors ms s).log = callsWhere p run5.log) ∧
    (j = 7 → callsWhere p (r.RefreshTasks ctors ms s).log = callsWhere p run7.log) ∧
    (j = 8 → callsWhere p (r.RefreshTasks ctors ms s).log = callsWhere p run8.log) ∧
    (j = 9 → callsWhere p (r.RefreshTasks ctors ms s).log = callsWhere p run9.log) := by
  intro tg run1 run2 run3 run4 run5 run6 run7 run8 run9
  have hlog := (RefreshTasks_of_ok r ctors ms s hok).2
  have zero : ∀ (k : Nat) (l : List Entry), k ≠ j →
      (∀ x ∈ l, x.call.allowedIn k = true) → callsWhere p l = [] := by
    intro k l hk h
    refine callsWhere_eq_nil p l (fun x hx => ?_)
    cases hpx : p x.call with
    | false => rfl
    | true => exact absurd (hp _ _ (h x hx) hpx) hk
  have a1 := (refreshTasksForWorkflowStart_good r ctors ms s).2
  have a2 := (refreshTasksForWorkflowClose_good r ctors ms run1.state).2
  have a3 := (refreshTasksForRecordWorkflowStarted_good r ctors ms run2.state).2
  have a4 := (refreshWorkflowTaskTasks_good r ctors ms run3.state).2
  have a5 := (refreshTasksForActivity_good r ctors ms run4.state).2
  have a6 := (refreshTasksForTimer_good r ctors ms run5.state).2
  have a7 := (refreshTasksForChildWorkflow_good r ctors ms run6.state).2
  have a8 := (refreshTasksForRequestCancelExternalWorkflow_good r ctors ms run7.state).2
  have a9 := (refreshTasksForSignalExternalWorkflow_good r ctors ms run8.state).2
  have a10 := (refreshTasksForWorkflowSearchAttr_good r ctors ms run9.state).2
  have hsplit : callsWhere p (r.RefreshTasks ctors ms s).log =
      callsWhere p run1.log ++ (callsWhere p run2.log ++ (callsWhere p run3.log ++
        (callsWhere p run4.log ++ (callsWhere p run5.log ++ (callsWhere p run6.log ++
          (callsWhere p run7.log ++ (callsWhere p run8.log ++ (callsWhere p run9.log ++
            callsWhere p (r.refreshTasksForWorkflowSearchAttr tg run9.state).log)))))))) := by
    rw [hlog, callsWhere_cons]
    simp only [callsWhere_append]
    simp [Entry.ok, hgen]
  refine ⟨fun hj => ?_, fun hj => ?_, fun hj => ?_, fun hj => ?_⟩
  all_goals
    rw [hsplit]
    first
    | rw [zero 1 _ (by omega) a1, zero 2 _ (by omega) a2, zero 3 _ (by omega) a3,
        zero 4 _ (by omega) a4, zero 6 _ (by omega) a6, zero 7 _ (by omega) a7,
        zero 8 _ (by omega) a8, zero 9 _ (by omega) a9, zero 10 _ (by omega) a10]
    | rw [zero 1 _ (by omega) a1, zero 2 _ (by omega) a2, zero 3 _ (by omega) a3,
        zero 4 _ (by omega) a4, zero 5 _ (by omega) a5, zero 6 _ (by omega) a6,
        zero 8 _ (by omega) a8, zero 9 _ (by omega) a9, zero 10 _ (by omega) a10]
    | rw [zero 1 _ (by omega) a1, zero 2 _ (by omega) a2, zero 3 _ (by omega) a3,
        zero 4 _ (by omega) a4, zero 5 _ (by omega) a5, zero 6 _ (by omega) a6,
        zero 7 _ (by omega) a7, zero 9 _ (by omega) a9, zero 10 _ (by omega) a10]
    | rw [zero 1 _ (by omega) a1, zero 2 _ (by omega) a2, zero 3 _ (by omega) a3,
        zero 4 _ (by omega) a4, zero 5 _ (by omega) a5, zero 6 _ (by omega) a6,
        zero 7 _ (by omega) a7, zero 8 _ (by omega) a8, zero 10 _ (by omega) a10]
    simp

/-! ## The loops that fetch an event for each pending info -/

/-- A fetch from the events cache followed by one request with the fetched
event, returning nil: the event is what the cache answered, and the two calls
are the fetch and the request. -/
theorem fetch_request_of_ok {σ : Type} (cache : events.Cache σ) (key : events.EventKey)
    (batch : Int) (token : List Nat) (request : historypb.HistoryEvent → Call)
    (gen : historypb.HistoryEvent → σ → Option updateworkflow.Error × σ) (p : Call → Bool)
    (hp1 : p (.GetEvent key batch token) = true) (hp2 : ∀ e, p (request e) = true) (s : σ)
    (hok : (Run.fetch (.GetEvent key batch token) (cache.GetEvent key batch token s)
      fun e s => Run.call (request e) (gen e s) fun s => Run.done s).err = none) :
    ∃ event t, (cache.GetEvent key batch token t).1 = .ok event ∧
      callsWhere p (Run.fetch (.GetEvent key batch token) (cache.GetEvent key batch token s)
        fun e s => Run.call (request e) (gen e s) fun s => Run.done s).log =
        [.GetEvent key batch token, request event] := by
  obtain ⟨v, hv, hok2, hl, -⟩ := Run.fetch_err_eq_none _ _ _ hok
  obtain ⟨-, -, hl2, -⟩ := Run.call_err_eq_none _ _ _ hok2
  refine ⟨v, s, hv, ?_⟩
  rw [hl, hl2]
  simp [callsWhere, Entry.ok, hp1, hp2]

/-- A loop that returns nil and whose body, for an eligible info, fetches the
event of the info and makes one request with it, and for any other info makes
no such call: the fetches and requests of the loop are those of the eligible
infos, in order. -/
theorem forEach_fetchedEach {σ α : Type} (cache : events.Cache σ)
    (key : α → events.EventKey) (batch : α → Int) (token : List Nat)
    (request : historypb.HistoryEvent → Call) (p : Call → Bool) (eligible : α → Bool)
    (body : α → σ → Run σ)
    (hbody : ∀ x s, (body x s).err = none →
      (eligible x = true →
        ∃ event t, (cache.GetEvent (key x) (batch x) token t).1 = .ok event ∧
          callsWhere p (body x s).log = [.GetEvent (key x) (batch x) token, request event]) ∧
      (eligible x = false → callsWhere p (body x s).log = []))
    (xs : List α) (s : σ) (hok : (Run.forEach body xs s).err = none) :
    FetchedEach cache key batch token request (xs.filter eligible)
      (callsWhere p (Run.forEach body xs s).log) := by
  induction xs generalizing s with
  | nil => exact callsWhere_eq_nil p _ (fun x hx => nomatch hx)
  | cons x xs ih =>
    unfold Run.forEach at hok ⊢
    obtain ⟨h1, h2, hl, -⟩ := Run.andThen_err_eq_none _ _ hok
    rw [hl, callsWhere_append]
    cases he : eligible x with
    | true =>
      obtain ⟨event, t, hev, hcalls⟩ := (hbody x s h1).1 he
      rw [List.filter_cons_of_pos he, hcalls]
      exact ⟨event, t, _, hev, rfl, ih _ h2⟩
    | false =>
      rw [List.filter_cons_of_neg (by simp [he]), (hbody x s h1).2 he, List.nil_append]
      exact ih _ h2

/-- The requests among the fetches and requests made for the infos are as
many as the infos, and so are the fetches. -/
theorem FetchedEach.length_eq {σ α : Type} {cache : events.Cache σ}
    {key : α → events.EventKey} {batch : α → Int} {token : List Nat}
    {request : historypb.HistoryEvent → Call} (q : Call → Bool)
    (infos : List α) (calls : List Call)
    (h : FetchedEach cache key batch token request infos calls)
    (hq : (∀ k b t, q (.GetEvent k b t) = false) ∧ (∀ e, q (request e) = true) ∨
      (∀ k b t, q (.GetEvent k b t) = true) ∧ (∀ e, q (request e) = false)) :
    (calls.filter q).length = infos.length := by
  induction infos generalizing calls with
  | nil =>
    rw [(h : calls = [])]
    rfl
  | cons info infos ih =>
    obtain ⟨event, t, rest, -, hcalls, hrest⟩ := h
    rw [hcalls]
    rcases hq with ⟨h1, h2⟩ | ⟨h1, h2⟩
    · simp [List.filter_cons, h1, h2, ih rest hrest]
    · simp [List.filter_cons, h1, h2, ih rest hrest]

/-- The calls of a kind among the calls of a wider kind. -/
theorem callsWhere_filter (p q : Call → Bool) (hpq : ∀ c, q c = true → p c = true)
    (l : List Entry) : (callsWhere p l).filter q = callsWhere q l := by
  simp only [callsWhere, List.filter_filter]
  refine List.filter_congr (fun c _ => ?_)
  cases hq : q c with
  | false => simp
  | true => simp [hpq c hq]

/-- One pass of the activity loop that returns nil: for an activity without
started event id, the fetch of its scheduled event and the request with it;
for a started activity, neither a fetch nor a request. -/
theorem refreshTasksForActivity_body_fetched {σ : Type} (r : TaskRefresherImpl σ)
    (ms : MutableState σ) (tg : TaskGenerator σ)
    (executionInfo : persistencespb.WorkflowExecutionInfo)
    (executionState : persistencespb.WorkflowExecutionState)
    (token : List Nat) (x : persistencespb.ActivityInfo) (s : σ)
    (hok : (TaskRefresherImpl.refreshTasksForActivity.body r ms tg executionInfo
      executionState token x s).err = none) :
    (decide (x.StartedEventId = common.EmptyEventID) = true →
      ∃ event t,
        (r.eventsCache.GetEvent
          (events.keyOf executionInfo executionState x.ScheduledEventId x.Version)
          x.ScheduledEventBatchId token t).1 = .ok event ∧
        callsWhere (fun c => c.isGetEvent || c.isGenerateActivityTasks)
          (TaskRefresherImpl.refreshTasksForActivity.body r ms tg executionInfo
            executionState token x s).log =
          [.GetEvent (events.keyOf executionInfo executionState x.ScheduledEventId x.Version)
            x.ScheduledEventBatchId token, .GenerateActivityTasks event]) ∧
    (decide (x.StartedEventId = common.EmptyEventID) = false →
      callsWhere (fun c => c.isGetEvent || c.isGenerateActivityTasks)
        (TaskRefresherImpl.refreshTasksForActivity.body r ms tg executionInfo
          executionState token x s).log = []) := by
  unfold TaskRefresherImpl.refreshTasksForActivity.body at hok ⊢
  dsimp only at hok ⊢
  obtain ⟨-, hok2, hl, -⟩ := Run.call_err_eq_none _ _ _ hok
  rw [hl, callsWhere_cons]
  by_cases hstarted : x.StartedEventId = common.EmptyEventID
  · rw [if_neg (not_not.mpr hstarted)] at hok2 ⊢
    refine ⟨fun _ => ?_, fun h => absurd hstarted (of_decide_eq_false h)⟩
    obtain ⟨event, t, hev, hcalls⟩ := fetch_request_of_ok r.eventsCache _ _ token
      Call.GenerateActivityTasks tg.GenerateActivityTasks
      (fun c => c.isGetEvent || c.isGenerateActivityTasks) rfl (fun _ => rfl) _ hok2
    exact ⟨event, t, hev, by rw [hcalls]; rfl⟩
  · rw [if_pos hstarted]
    exact ⟨fun h => absurd (of_decide_eq_true h) hstarted, fun _ => rfl⟩

/-- A run of the activity stage that returns nil: the fetches from the events
cache and the requests for activity tasks are, for each pending activity
without started event id in order, the fetch of its scheduled event under its
scheduled event id, version and batch id, and the request with that event. -/
theorem refreshTasksForActivity_fetchedEach {σ : Type} (r : TaskRefresherImpl σ)
    (ctors : Constructors σ) (ms : MutableState σ) (tg : TaskGenerator σ) (s : σ)
    (hok : (r.refreshTasksForActivity ctors ms tg s).err = none) :
    ∃ token, ms.GetCurrentBranchToken s = .ok token ∧
      FetchedEach r.eventsCache
        (fun a : persistencespb.ActivityInfo =>
          events.keyOf (ms.GetExecutionInfo s) (ms.GetExecutionState s)
            a.ScheduledEventId a.Version)
        (fun a => a.ScheduledEventBatchId) token Call.GenerateActivityTasks
        ((ms.GetPendingActivityInfos s).filter
          fun a => decide (a.StartedEventId = common.EmptyEventID))
        (callsWhere (fun c => c.isGetEvent || c.isGenerateActivityTasks)
          (r.refreshTasksForActivity ctors ms tg s).log) := by
  unfold TaskRefresherImpl.refreshTasksForActivity at hok ⊢
  simp only [Run.read_err, Run.read_log] at hok ⊢
  obtain ⟨token, htoken, hok, hl1, -⟩ := Run.fetch_err_eq_none _ _ _ hok
  obtain ⟨hloop, hok, hl2, -⟩ := Run.andThen_err_eq_none _ _ hok
  simp only [Run.read_err, Run.read_log] at hok hl2
  obtain ⟨b, -, -, hl3, -⟩ := Run.fetch_err_eq_none _ _ _ hok
  refine ⟨token, htoken, ?_⟩
  have hloopCalls := forEach_fetchedEach r.eventsCache
    (fun a : persistencespb.ActivityInfo =>
      events.keyOf (ms.GetExecutionInfo s) (ms.GetExecutionState s)
        a.ScheduledEventId a.Version)
    (fun a => a.ScheduledEventBatchId) token Call.GenerateActivityTasks
    (fun c => c.isGetEvent || c.isGenerateActivityTasks)
    (fun a => decide (a.StartedEventId = common.EmptyEventID))
    (TaskRefresherImpl.refreshTasksForActivity.body r ms tg (ms.GetExecutionInfo s)
      (ms.GetExecutionState s) token)
    (fun x t h => refreshTasksForActivity_body_fetched r ms tg _ _ token x t h) _ _ hloop
  rw [hl1, hl2, hl3]
  simp only [callsWhere_cons, callsWhere_append]
  simpa [Entry.ok, callsWhere, Call.isGetEvent, Call.isGenerateActivityTasks] using hloopCalls

/-- One pass of the child workflow loop that returns nil: for a child without
started event id, the fetch of its initiated event and the request with it;
for a started child, neither a fetch nor a request. -/
theorem refreshTasksForChildWorkflow_body_fetched {σ : Type} (r : TaskRefresherImpl σ)
    (tg : TaskGenerator σ)
    (executionInfo : persistencespb.WorkflowExecutionInfo)
    (executionState : persistencespb.WorkflowExecutionState)
    (token : List Nat) (x : persistencespb.ChildExecutionInfo) (s : σ)
    (hok : (TaskRefresherImpl.refreshTasksForChildWorkflow.body r tg executionInfo
      executionState token x s).err = none) :
    (decide (x.StartedEventId = common.EmptyEventID) = true →
      ∃ event t,
        (r.eventsCache.GetEvent
          (events.keyOf executionInfo executionState x.InitiatedEventId x.Version)
          x.InitiatedEventBatchId token t).1 = .ok event ∧
        callsWhere (fun c => c.isGetEvent || c.isGenerateChildWorkflowTasks)
          (TaskRefresherImpl.refreshTasksForChildWorkflow.body r tg executionInfo
            executionState token x s).log =
          [.GetEvent (events.keyOf executionInfo executionState x.InitiatedEventId x.Version)
            x.InitiatedEventBatchId token, .GenerateChildWorkflowTasks event]) ∧
    (decide (x.StartedEventId = common.EmptyEventID) = false →
      callsWhere (fun c => c.isGetEvent || c.isGenerateChildWorkflowTasks)
        (TaskRefresherImpl.refreshTasksForChildWorkflow.body r tg executionInfo
          executionState token x s).log = []) := by
  unfold TaskRefresherImpl.refreshTasksForChildWorkflow.body at hok ⊢
  dsimp only at hok ⊢
  by_cases hstarted : x.StartedEventId = common.EmptyEventID
  · rw [if_neg (not_not.mpr hstarted)] at hok ⊢
    refine ⟨fun _ => ?_, fun h => absurd hstarted (of_decide_eq_false h)⟩
    exact fetch_request_of_ok r.eventsCache _ _ token
      Call.GenerateChildWorkflowTasks tg.GenerateChildWorkflowTasks
      (fun c => c.isGetEvent || c.isGenerateChildWorkflowTasks) rfl (fun _ => rfl) _ hok
  · rw [if_pos hstarted]
    exact ⟨fun h => absurd (of_decide_eq_true h) hstarted, fun _ => rfl⟩

/-- A run of the child workflow stage that returns nil: the fetches from the
events cache and the requests for child workflow tasks are, for each pending
child without started event id in order, the fetch of its initiated event
under its initiated event id, version and batch id, and the request with that
event. -/
theorem refreshTasksForChildWorkflow_fetchedEach {σ : Type} (r : TaskRefresherImpl σ)
    (ms : MutableState σ) (tg : TaskGenerator σ) (s : σ)
    (hok : (r.refreshTasksForChildWorkflow ms tg s).err = none) :
    ∃ token, ms.GetCurrentBranchToken s = .ok token ∧
      FetchedEach r.eventsCache
        (fun a : persistencespb.ChildExecutionInfo =>
          events.keyOf (ms.GetExecutionInfo s) (ms.GetExecutionState s)
            a.InitiatedEventId a.Version)
        (fun a => a.InitiatedEventBatchId) token Call.GenerateChildWorkflowTasks
        ((ms.GetPendingChildExecutionInfos s).filter
          fun a => decide (a.StartedEventId = common.EmptyEventID))
        (callsWhere (fun c => c.isGetEvent || c.isGenerateChildWorkflowTasks)
          (r.refreshTasksForChildWorkflow ms tg s).log) := by
  unfold TaskRefresherImpl.refreshTasksForChildWorkflow at hok ⊢
  simp only [Run.read_err, Run.read_log] at hok ⊢
  obtain ⟨token, htoken, hloop, hl1, -⟩ := Run.fetch_err_eq_none _ _ _ hok
  refine ⟨token, htoken, ?_⟩
  have hloopCalls := forEach_fetchedEach r.eventsCache
    (fun a : persistencespb.ChildExecutionInfo =>
      events.keyOf (ms.GetExecutionInfo s) (ms.GetExecutionState s)
        a.InitiatedEventId a.Version)
    (fun a => a.InitiatedEventBatchId) token Call.GenerateChildWorkflowTasks
    (fun c => c.isGetEvent || c.isGenerateChildWorkflowTasks)
    (fun a => decide (a.StartedEventId = common.EmptyEventID))
    (TaskRefresherImpl.refreshTasksForChildWorkflow.body r tg (ms.GetExecutionInfo s)
      (ms.GetExecutionState s) token)
    (fun x t h => refreshTasksForChildWorkflow_body_fetched r tg _ _ token x t h) _ _ hloop
  rw [hl1]
  simp only [callsWhere_cons, callsWhere_append]
  simpa [Entry.ok, callsWhere, Call.isGetEvent, Call.isGenerateChildWorkflowTasks]
    using hloopCalls

/-- A run of the request cancel stage that returns nil: the fetches from the events
cache and the requests of the stage are, for each pending info in order, the
fetch of its initiated event under its initiated event id, version and batch
id, and the request with that event. -/
theorem refreshTasksForRequestCancelExternalWorkflow_fetchedEach {σ : Type}
    (r : TaskRefresherImpl σ) (ms : MutableState σ) (tg : TaskGenerator σ) (s : σ)
    (hok : (r.refreshTasksForRequestCancelExternalWorkflow ms tg s).err = none) :
    ∃ token, ms.GetCurrentBranchToken s = .ok token ∧
      FetchedEach r.eventsCache
        (fun a : persistencespb.RequestCancelInfo =>
          events.keyOf (ms.GetExecutionInfo s) (ms.GetExecutionState s)
            a.InitiatedEventId a.Version)
        (fun a => a.InitiatedEventBatchId) token Call.GenerateRequestCancelExternalTasks
        (ms.GetPendingRequestCancelExternalInfos s)
        (callsWhere (fun c => c.isGetEvent || c.isGenerateRequestCancelExternalTasks)
          (r.refreshTasksForRequestCancelExternalWorkflow ms tg s).log) := by
  unfold TaskRefresherImpl.refreshTasksForRequestCancelExternalWorkflow at hok ⊢
  simp only [Run.read_err, Run.read_log] at hok ⊢
  obtain ⟨token, htoken, hloop, hl1, -⟩ := Run.fetch_err_eq_none _ _ _ hok
  refine ⟨token, htoken, ?_⟩
  have hloopCalls := forEach_fetchedEach r.eventsCache
    (fun a : persistencespb.RequestCancelInfo =>
      events.keyOf (ms.GetExecutionInfo s) (ms.GetExecutionState s)
        a.InitiatedEventId a.Version)
    (fun a => a.InitiatedEventBatchId) token Call.GenerateRequestCancelExternalTasks
    (fun c => c.isGetEvent || c.isGenerateRequestCancelExternalTasks)
    (fun _ => true)
    (TaskRefresherImpl.refreshTasksForRequestCancelExternalWorkflow.body r tg (ms.GetExecutionInfo s)
      (ms.GetExecutionState s) token)
    (fun x t h =>
      ⟨fun _ => fetch_request_of_ok r.eventsCache _ _ token Call.GenerateRequestCancelExternalTasks
        tg.GenerateRequestCancelExternalTasks (fun c => c.isGetEvent || c.isGenerateRequestCancelExternalTasks) rfl (fun _ => rfl) _ h,
        fun h => nomatch h⟩) _ _ hloop
  rw [List.filter_true] at hloopCalls
  rw [hl1]
  simp only [callsWhere_cons, callsWhere_append]
  simpa [Entry.ok, callsWhere, Call.isGetEvent, Call.isGenerateRequestCancelExternalTasks]
    using hloopCalls

/-- A run of the signal stage that returns nil: the fetches from the events
cache and the requests of the stage are, for each pending info in order, the
fetch of its initiated event under its initiated event id, version and batch
id, and the request with that event. -/
theorem refreshTasksForSignalExternalWorkflow_fetchedEach {σ : Type}
    (r : TaskRefresherImpl σ) (ms : MutableState σ) (tg : TaskGenerator σ) (s : σ)
    (hok : (r.refreshTasksForSignalExternalWorkflow ms tg s).err = none) :
    ∃ token, ms.GetCurrentBranchToken s = .ok token ∧
      FetchedEach r.eventsCache
        (fun a : persistencespb.SignalInfo =>
          events.keyOf (ms.GetExecutionInfo s) (ms.GetExecutionState s)
            a.InitiatedEventId a.Version)
        (fun a => a.InitiatedEventBatchId) token Call.GenerateSignalExternalTasks
        (ms.GetPendingSignalExternalInfos s)
        (callsWhere (fun c => c.isGetEvent || c.isGenerateSignalExternalTasks)
          (r.refreshTasksForSignalExternalWorkflow ms tg s).log) := by
  unfold TaskRefresherImpl.refreshTasksForSignalExternalWorkflow at hok ⊢
  simp only [Run.read_err, Run.read_log] at hok ⊢
  obtain ⟨token, htoken, hloop, hl1, -⟩ := Run.fetch_err_eq_none _ _ _ hok
  refine ⟨token, htoken, ?_⟩
  have hloopCalls := forEach_fetchedEach r.eventsCache
    (fun a : persistencespb.SignalInfo =>
      events.keyOf (ms.GetExecutionInfo s) (ms.GetExecutionState s)
        a.InitiatedEventId a.Version)
    (fun a => a.InitiatedEventBatchId) token Call.GenerateSignalExternalTasks
    (fun c => c.isGetEvent || c.isGenerateSignalExternalTasks)
    (fun _ => true)
    (TaskRefresherImpl.refreshTasksForSignalExternalWorkflow.body r tg (ms.GetExecutionInfo s)
      (ms.GetExecutionState s) token)
    (fun x t h =>
      ⟨fun _ => fetch_request_of_ok r.eventsCache _ _ token Call.GenerateSignalExternalTasks
        tg.GenerateSignalExternalTasks (fun c => c.isGetEvent || c.isGenerateSignalExternalTasks) rfl (fun _ => rfl) _ h,
        fun h => nomatch h⟩) _ _ hloop
  rw [List.filter_true] at hloopCalls
  rw [hl1]
  simp only [callsWhere_cons, callsWhere_append]
  simpa [Entry.ok, callsWhere, Call.isGetEvent, Call.isGenerateSignalExternalTasks]
    using hloopCalls

/-! ## The close and record-started stages -/

/-- The run of the workflow close stage in each of its cases. -/
theorem refreshTasksForWorkflowClose_eq {σ : Type} (r : TaskRefresherImpl σ)
    (ms : MutableState σ) (tg : TaskGenerator σ) (t : σ) :
    ((ms.GetExecutionState t).Status = .RUNNING →
      r.refreshTasksForWorkflowClose ms tg t =
        { err := none, state := t, log := [Entry.ok .GetExecutionState] }) ∧
    ((ms.GetExecutionState t).Status ≠ .RUNNING →
      (∀ err, (ms.GetCompletionEvent t).1 = .error err →
        r.refreshTasksForWorkflowClose ms tg t =
          { err := some err, state := (ms.GetCompletionEvent t).2
            log := [Entry.ok .GetExecutionState,
              { call := .GetCompletionEvent, err := some err }] }) ∧
      (∀ closeEvent, (ms.GetCompletionEvent t).1 = .ok closeEvent →
        r.refreshTasksForWorkflowClose ms tg t =
          { err := (tg.GenerateWorkflowCloseTasks closeEvent false
              (ms.GetCompletionEvent t).2).1
            state := (tg.GenerateWorkflowCloseTasks closeEvent false
              (ms.GetCompletionEvent t).2).2
            log := [Entry.ok .GetExecutionState, Entry.ok .GetCompletionEvent,
              { call := .GenerateWorkflowCloseTasks closeEvent false
                err := (tg.GenerateWorkflowCloseTasks closeEvent false
                  (ms.GetCompletionEvent t).2).1 }] })) := by
  refine ⟨fun hrun => ?_, fun hrun => ⟨fun err herr => ?_, fun closeEvent hok => ?_⟩⟩
  · simp [TaskRefresherImpl.refreshTasksForWorkflowClose, hrun, Run.read, Run.after, Run.done,
      Entry.ok]
  · have heq : ms.GetCompletionEvent t = (.error err, (ms.GetCompletionEvent t).2) :=
      Prod.ext herr rfl
    unfold TaskRefresherImpl.refreshTasksForWorkflowClose
    dsimp only
    rw [if_pos hrun, heq, Run.fetch_error]
    rfl
  · have heq : ms.GetCompletionEvent t = (.ok closeEvent, (ms.GetCompletionEvent t).2) :=
      Prod.ext hok rfl
    unfold TaskRefresherImpl.refreshTasksForWorkflowClose
    dsimp only
    rw [if_pos hrun, heq, Run.fetch_ok, Run.call_done]
    rfl

/-- The run of the record-workflow-started stage in each of its cases. -/
theorem refreshTasksForRecordWorkflowStarted_eq {σ : Type} (r : TaskRefresherImpl σ)
    (ms : MutableState σ) (tg : TaskGenerator σ) (t : σ) :
    (∀ err, (ms.GetStartEvent t).1 = .error err →
      r.refreshTasksForRecordWorkflowStarted ms tg t =
        { err := some err, state := (ms.GetStartEvent t).2
          log := [{ call := .GetStartEvent, err := some err }] }) ∧
    (∀ startEvent, (ms.GetStartEvent t).1 = .ok startEvent →
      ((ms.GetExecutionState (ms.GetStartEvent t).2).Status ≠ .RUNNING →
        r.refreshTasksForRecordWorkflowStarted ms tg t =
          { err := none, state := (ms.GetStartEvent t).2
            log := [Entry.ok .GetStartEvent, Entry.ok .GetExecutionState] }) ∧
      ((ms.GetExecutionState (ms.GetStartEvent t).2).Status = .RUNNING →
        r.refreshTasksForRecordWorkflowStarted ms tg t =
          { err := (tg.GenerateRecordWorkflowStartedTasks startEvent (ms.GetStartEvent t).2).1
            state :=
              (tg.GenerateRecordWorkflowStartedTasks startEvent (ms.GetStartEvent t).2).2
            log := [Entry.ok .GetStartEvent, Entry.ok .GetExecutionState,
              { call := .GenerateRecordWorkflowStartedTasks startEvent
                err := (tg.GenerateRecordWorkflowStartedTasks startEvent
                  (ms.GetStartEvent t).2).1 }] })) := by
  refine ⟨fun err herr => ?_, fun startEvent hok => ⟨fun hrun => ?_, fun hrun => ?_⟩⟩
  · have heq : ms.GetStartEvent t = (.error err, (ms.GetStartEvent t).2) := Prod.ext herr rfl
    unfold TaskRefresherImpl.refreshTasksForRecordWorkflowStarted
    rw [heq, Run.fetch_error]
  · have heq : ms.GetStartEvent t = (.ok startEvent, (ms.GetStartEvent t).2) :=
      Prod.ext hok rfl
    unfold TaskRefresherImpl.refreshTasksForRecordWorkflowStarted
    rw [heq, Run.fetch_ok]
    dsimp only
    rw [if_neg hrun]
    rfl
  · have heq : ms.GetStartEvent t = (.ok startEvent, (ms.GetStartEvent t).2) :=
      Prod.ext hok rfl
    unfold TaskRefresherImpl.refreshTasksForRecordWorkflowStarted
    rw [heq, Run.fetch_ok]
    dsimp only
    rw [if_pos hrun, Run.call_done]
    rfl

/-- With calls that do not change the execution state, a trace leaves the
execution state it started with. -/
theorem Trace.executionState_eq {σ : Type} {r : TaskRefresherImpl σ}
    {ctors : Constructors σ} {ms : MutableState σ} {s t : σ} {l : List Entry}
    (h : Trace r ctors ms s l t)
    (hstatus : ∀ (c : Call) (u : σ),
      ms.GetExecutionState (c.effect r ctors ms u) = ms.GetExecutionState u) :
    ms.GetExecutionState t = ms.GetExecutionState s := by
  induction h with
  | nil s => rfl
  | last s c err h => exact hstatus c s
  | cons s t c rest h hrest ih => rw [ih, hstatus c s]

/-- The close stage and the stages after it, from a state whose completion
and start events can be fetched, with calls that do not change the execution
state: the close request is made when the workflow is not running, and only
then; the record-started request is made when it is running, and only
then. -/
theorem close_or_record_started {σ : Type} (r : TaskRefresherImpl σ)
    (ctors : Constructors σ) (ms : MutableState σ)
    (hstatus : ∀ (c : Call) (u : σ),
      ms.GetExecutionState (c.effect r ctors ms u) = ms.GetExecutionState u)
    (t : σ) (rest : Run σ)
    (hrest : rest =
      ((r.refreshTasksForWorkflowClose ms (ctors.NewTaskGenerator r.shard) t).andThen fun s =>
        (r.refreshTasksForRecordWorkflowStarted ms (ctors.NewTaskGenerator r.shard) s).andThen
          fun s =>
        (r.refreshWorkflowTaskTasks ms (ctors.NewTaskGenerator r.shard) s).andThen fun s =>
        (r.refreshTasksForActivity ctors ms (ctors.NewTaskGenerator r.shard) s).andThen fun s =>
        (r.refreshTasksForTimer ctors ms s).andThen fun s =>
        (r.refreshTasksForChildWorkflow ms (ctors.NewTaskGenerator r.shard) s).andThen fun s =>
        (r.refreshTasksForRequestCancelExternalWorkflow ms (ctors.NewTaskGenerator r.shard)
          s).andThen fun s =>
        (r.refreshTasksForSignalExternalWorkflow ms (ctors.NewTaskGenerator r.shard)
          s).andThen fun s =>
        r.refreshTasksForWorkflowSearchAttr (ctors.NewTaskGenerator r.shard) s))
    (hfetch : ∀ x ∈ rest.log,
      x.call = .GetStartEvent ∨ x.call = .GetCompletionEvent → x.err = none) :
    ((ms.GetExecutionState t).Status ≠ .RUNNING →
      (∃ closeEvent, (ms.GetCompletionEvent t).1 = .ok closeEvent ∧
        callsWhere Call.isGenerateWorkflowCloseTasks rest.log =
          [.GenerateWorkflowCloseTasks closeEvent false]) ∧
      callsWhere Call.isGenerateRecordWorkflowStartedTasks rest.log = []) ∧
    ((ms.GetExecutionState t).Status = .RUNNING →
      callsWhere Call.isGenerateWorkflowCloseTasks rest.log = [] ∧
      ∃ startEvent, (ms.GetStartEvent t).1 = .ok startEvent ∧
        callsWhere Call.isGenerateRecordWorkflowStartedTasks rest.log =
          [.GenerateRecordWorkflowStartedTasks startEvent]) := by
  have tailClose := stages_from_workflow_task_all r ctors ms
    (fun c => Call.isGenerateWorkflowCloseTasks c = false)
    (fun c k hk h => by
      cases c <;> simp_all [Call.allowedIn, Call.stage, Call.isGenerateWorkflowCloseTasks]
      omega)
  have tailRecord := stages_from_workflow_task_all r ctors ms
    (fun c => Call.isGenerateRecordWorkflowStartedTasks c = false)
    (fun c k hk h => by
      cases c <;>
        simp_all [Call.allowedIn, Call.stage, Call.isGenerateRecordWorkflowStartedTasks]
      omega)
  have closeNoRecord : ∀ u, ∀ x ∈
      (r.refreshTasksForWorkflowClose ms (ctors.NewTaskGenerator r.shard) u).log,
      Call.isGenerateRecordWorkflowStartedTasks x.call = false := by
    intro u x hx
    have := (refreshTasksForWorkflowClose_good r ctors ms u).2 x hx
    revert this
    cases x.call <;> simp [Call.allowedIn, Call.stage, Call.isGenerateRecordWorkflowStartedTasks]
  have recordNoClose : ∀ u, ∀ x ∈
      (r.refreshTasksForRecordWorkflowStarted ms (ctors.NewTaskGenerator r.shard) u).log,
      Call.isGenerateWorkflowCloseTasks x.call = false := by
    intro u x hx
    have := (refreshTasksForRecordWorkflowStarted_good r ctors ms u).2 x hx
    revert this
    cases x.call <;> simp [Call.allowedIn, Call.stage, Call.isGenerateWorkflowCloseTasks]
  have hclose := refreshTasksForWorkflowClose_eq r ms (ctors.NewTaskGenerator r.shard) t
  have allClose := @andThen_all σ (fun c => Call.isGenerateWorkflowCloseTasks c = false)
  have allRecord := @andThen_all σ
    (fun c => Call.isGenerateRecordWorkflowStartedTasks c = false)
  subst hrest
  constructor
  · intro hrun
    cases hce : (ms.GetCompletionEvent t).1 with
    | error err =>
      exfalso
      have heq := (hclose.2 hrun).1 err hce
      have hmem := hfetch { call := .GetCompletionEvent, err := some err }
        (by
          rw [Run.andThen_error _ _ err (by rw [heq]), heq]
          simp)
        (Or.inr rfl)
      cases hmem
    | ok closeEvent =>
      have heq := (hclose.2 hrun).2 closeEvent hce
      refine ⟨⟨closeEvent, rfl, ?_⟩, ?_⟩
      · rw [callsWhere_andThen]
        · rw [heq]
          simp [callsWhere, Entry.ok, Call.isGenerateWorkflowCloseTasks]
        · intro _
          exact allClose _ _ (recordNoClose _) (tailClose _)
      · refine callsWhere_eq_nil _ _ (allRecord _ _ (closeNoRecord t) ?_)
        refine allRecord _ _ ?_ (tailRecord _)
        have hrec := refreshTasksForRecordWorkflowStarted_eq r ms
          (ctors.NewTaskGenerator r.shard)
          (r.refreshTasksForWorkflowClose ms (ctors.NewTaskGenerator r.shard) t).state
        cases hse : (ms.GetStartEvent
            (r.refreshTasksForWorkflowClose ms (ctors.NewTaskGenerator r.shard) t).state).1 with
        | error err =>
          rw [hrec.1 err hse]
          simp [Call.isGenerateRecordWorkflowStartedTasks]
        | ok startEvent =>
          have hsame : ms.GetExecutionState (ms.GetStartEvent
              (r.refreshTasksForWorkflowClose ms (ctors.NewTaskGenerator r.shard)
                t).state).2 = ms.GetExecutionState t := by
            rw [show (ms.GetStartEvent
                (r.refreshTasksForWorkflowClose ms (ctors.NewTaskGenerator r.shard)
                  t).state).2 = Call.effect r ctors ms .GetStartEvent
                (r.refreshTasksForWorkflowClose ms (ctors.NewTaskGenerator r.shard)
                  t).state from rfl, hstatus]
            exact (refreshTasksForWorkflowClose_good r ctors ms t).1.1.executionState_eq hstatus
          rw [(hrec.2 startEvent hse).1 (by rw [hsame]; exact hrun)]
          simp [Entry.ok, Call.isGenerateRecordWorkflowStartedTasks]
  · intro hrun
    have heq := hclose.1 hrun
    have hok : (r.refreshTasksForWorkflowClose ms (ctors.NewTaskGenerator r.shard) t).err =
        none := by rw [heq]
    have hstate : (r.refreshTasksForWorkflowClose ms (ctors.NewTaskGenerator r.shard)
        t).state = t := by rw [heq]
    constructor
    · refine callsWhere_eq_nil _ _ (allClose _ _ ?_ ?_)
      · rw [heq]
        simp [Entry.ok, Call.isGenerateWorkflowCloseTasks]
      · exact allClose _ _ (recordNoClose _) (tailClose _)
    · have hrec := refreshTasksForRecordWorkflowStarted_eq r ms
        (ctors.NewTaskGenerator r.shard) t
      rw [Run.andThen_ok _ _ hok, hstate] at hfetch ⊢
      cases hse : (ms.GetStartEvent t).1 with
      | error err =>
        exfalso
        have heq3 := hrec.1 err hse
        have hmem := hfetch { call := .GetStartEvent, err := some err }
          (by
            rw [Run.after_log, Run.andThen_error _ _ err (by rw [heq3]), heq3]
            simp)
          (Or.inl rfl)
        cases hmem
      | ok startEvent =>
        have hsame : ms.GetExecutionState (ms.GetStartEvent t).2 = ms.GetExecutionState t :=
          hstatus .GetStartEvent t
        have heq3 := (hrec.2 startEvent hse).2 (by rw [hsame]; exact hrun)
        refine ⟨startEvent, rfl, ?_⟩
        rw [Run.after_log, callsWhere_append, callsWhere_eq_nil _ _ (closeNoRecord t),
          List.nil_append, callsWhere_andThen]
        · rw [heq3]
          simp [callsWhere, Entry.ok, Call.isGenerateRecordWorkflowStartedTasks]
        · intro _
          exact tailRecord _

/-- No call of the sample world changes the execution state. -/
theorem sample_executionState_kept (c : Call) (u : sample.State) :
    sample.mutableState.GetExecutionState (c.effect sample.refresher sample.ctors
      sample.mutableState u) = sample.mutableState.GetExecutionState u := by
  cases c <;>
    simp [Call.effect, sample.refresher, sample.ctors, sample.mutableState,
      sample.taskGenerator, sample.timerSequence, sample.eventsCache, sample.load,
      sample.enqueue]
  all_goals (split <;> try split) <;> simp

/-- The start stage requests neither workflow-close tasks nor
record-workflow-started tasks. -/
theorem start_stage_not_close_or_record (c : Call) (h : c.allowedIn 1 = true) :
    c.isGenerateWorkflowCloseTasks = false ∧
      c.isGenerateRecordWorkflowStartedTasks = false := by
  cases c <;>
    simp_all [Call.allowedIn, Call.stage, Call.isGenerateWorkflowCloseTasks,
      Call.isGenerateRecordWorkflowStartedTasks]

/-- A run of the activity stage, whatever it returns, fetches from the events
cache only the scheduled event of a pending activity without started event
id, under the scheduled event id, version and batch id of that activity. -/
theorem refreshTasksForActivity_fetches_unstarted {σ : Type} (r : TaskRefresherImpl σ)
    (ctors : Constructors σ) (ms : MutableState σ) (s : σ) :
    Good r ctors ms
      (fun c => ∀ key firstEventID branchToken, c = .GetEvent key firstEventID branchToken →
        ∃ a ∈ ms.GetPendingActivityInfos s, a.StartedEventId = common.EmptyEventID ∧
          key = events.keyOf (ms.GetExecutionInfo s) (ms.GetExecutionState s)
            a.ScheduledEventId a.Version ∧ firstEventID = a.ScheduledEventBatchId) s
      (r.refreshTasksForActivity ctors ms (ctors.NewTaskGenerator r.shard) s) := by
  have other : ∀ c : Call, c.isGetEvent = false →
      ∀ key firstEventID branchToken, c = .GetEvent key firstEventID branchToken →
        ∃ a ∈ ms.GetPendingActivityInfos s, a.StartedEventId = common.EmptyEventID ∧
          key = events.keyOf (ms.GetExecutionInfo s) (ms.GetExecutionState s)
            a.ScheduledEventId a.Version ∧ firstEventID = a.ScheduledEventBatchId := by
    intro c h key firstEventID branchToken hc
    rw [hc] at h
    cases h
  unfold TaskRefresherImpl.refreshTasksForActivity
  refine Good.read _ (other _ rfl) rfl rfl ?_
  refine Good.read _ (other _ rfl) rfl rfl ?_
  refine Good.read _ (other _ rfl) rfl rfl ?_
  refine Good.fetch _ _ _ (other _ rfl) rfl rfl (fun token _ => ?_)
  refine Good.andThen (Good.forEach _ _ (fun x hx t => ?_) _) (fun _ => ?_)
  · unfold TaskRefresherImpl.refreshTasksForActivity.body
    refine Good.call _ _ _ (other _ rfl) rfl rfl (fun _ => ?_)
    split
    · exact Good.done _
    · rename_i hstarted
      refine Good.fetch _ _ _ ?_ rfl rfl (fun scheduleEvent _ => ?_)
      · intro key firstEventID branchToken hcall
        cases hcall
        exact ⟨x, hx, not_not.mp hstarted, rfl, rfl⟩
      · exact Good.call _ _ _ (other _ rfl) rfl rfl (fun _ => Good.done _)
  · refine Good.read _ (other _ rfl) rfl rfl ?_
    exact Good.fetch _ _ _ (other _ rfl) rfl rfl (fun _ _ => Good.done _)

/-- The request for activity tasks is allowed in the activity stage only. -/
theorem Call.stage_of_isGenerateActivityTasks (c : Call) (k : Nat)
    (h : c.allowedIn k = true) (hp : c.isGenerateActivityTasks = true) : k = 5 := by
  cases c <;> simp [Call.isGenerateActivityTasks] at hp
  simpa [Call.allowedIn, Call.stage, eq_comm] using h

/-- The calls of the start stage when the start event is fetched: the fetch,
`GenerateWorkflowStartTasks`, and when that returns nil, the read of
`HadOrHasWorkflowTask` and, on a first workflow task backoff without any
workflow task, `GenerateDelayedWorkflowTasks`. -/
theorem refreshTasksForWorkflowStart_calls {σ : Type} (r : TaskRefresherImpl σ)
    (ms : MutableState σ) (tg : TaskGenerator σ) (s : σ)
    (startEvent : historypb.HistoryEvent) (hstart : (ms.GetStartEvent s).1 = .ok startEvent) :
    callsWhere Call.isGenerateWorkflowStartTasks (r.refreshTasksForWorkflowStart ms tg s).log =
        [.GenerateWorkflowStartTasks startEvent] ∧
    callsWhere Call.isGenerateDelayedWorkflowTasks
        (r.refreshTasksForWorkflowStart ms tg s).log =
      if (tg.GenerateWorkflowStartTasks startEvent (ms.GetStartEvent s).2).1 = none ∧
          ms.HadOrHasWorkflowTask
            (tg.GenerateWorkflowStartTasks startEvent (ms.GetStartEvent s).2).2 = false ∧
          0 < timestamp.DurationValue (historypb.GetFirstWorkflowTaskBackoff
            startEvent.GetWorkflowExecutionStartedEventAttributes)
      then [.GenerateDelayedWorkflowTasks startEvent] else [] := by
  have heq : ms.GetStartEvent s = (.ok startEvent, (ms.GetStartEvent s).2) :=
    Prod.ext hstart rfl
  unfold TaskRefresherImpl.refreshTasksForWorkflowStart
  rw [heq, Run.fetch_ok, Run.after_log, Run.call_log]
  simp only [List.singleton_append]
  cases ha : (tg.GenerateWorkflowStartTasks startEvent (ms.GetStartEvent s).2).1 with
  | some e =>
    simp [callsWhere, Call.isGenerateWorkflowStartTasks, Call.isGenerateDelayedWorkflowTasks]
  | none =>
    simp only [Run.read_log]
    by_cases hhad : ms.HadOrHasWorkflowTask
        (tg.GenerateWorkflowStartTasks startEvent (ms.GetStartEvent s).2).2 = true
    · simp [callsWhere, Call.isGenerateWorkflowStartTasks,
        Call.isGenerateDelayedWorkflowTasks, hhad, Run.done]
    · simp only [Bool.not_eq_true] at hhad
      by_cases hback : 0 < timestamp.DurationValue (historypb.GetFirstWorkflowTaskBackoff
          startEvent.GetWorkflowExecutionStartedEventAttributes)
      · simp [callsWhere, Call.isGenerateWorkflowStartTasks,
          Call.isGenerateDelayedWorkflowTasks, hhad, hback, Run.call_done]
      · simp [callsWhere, Call.isGenerateWorkflowStartTasks,
          Call.isGenerateDelayedWorkflowTasks, hhad, hback, Run.done]

/-- The requests for child workflow tasks, for request cancel tasks and for
signal tasks are allowed in the stage of their collection only. -/
theorem Call.stage_of_external_request (c : Call) (k : Nat) (h : c.allowedIn k = true) :
    (c.isGenerateChildWorkflowTasks = true → k = 7) ∧
    (c.isGenerateRequestCancelExternalTasks = true → k = 8) ∧
    (c.isGenerateSignalExternalTasks = true → k = 9) := by
  cases c <;>
    simp [Call.isGenerateChildWorkflowTasks, Call.isGenerateRequestCancelExternalTasks,
      Call.isGenerateSignalExternalTasks]
  all_goals simpa [Call.allowedIn, Call.stage, eq_comm] using h

/-! ## Fetches from the events cache -/

/-- A run of the child workflow stage, whatever it returns, fetches from the events
cache only the initiated event of a pending child execution without started event id,
under the initiated event id, version and batch id of that info. -/
theorem refreshTasksForChildWorkflow_fetches_pending {σ : Type}
    (r : TaskRefresherImpl σ) (ctors : Constructors σ) (ms : MutableState σ) (s : σ) :
    Good r ctors ms
      (fun c => ∀ key firstEventID branchToken, c = .GetEvent key firstEventID branchToken →
        ∃ a ∈ ms.GetPendingChildExecutionInfos s, a.StartedEventId = common.EmptyEventID ∧
          key = events.keyOf (ms.GetExecutionInfo s) (ms.GetExecutionState s)
            a.InitiatedEventId a.Version ∧ firstEventID = a.InitiatedEventBatchId) s
      (r.refreshTasksForChildWorkflow ms (ctors.NewTaskGenerator r.shard) s) := by
  have other : ∀ c : Call, c.isGetEvent = false →
      ∀ key firstEventID branchToken, c = .GetEvent key firstEventID branchToken →
        ∃ a ∈ ms.GetPendingChildExecutionInfos s, a.StartedEventId = common.EmptyEventID ∧
          key = events.keyOf (ms.GetExecutionInfo s) (ms.GetExecutionState s)
            a.InitiatedEventId a.Version ∧ firstEventID = a.InitiatedEventBatchId := by
    intro c h key firstEventID branchToken hc
    rw [hc] at h
    cases h
  unfold TaskRefresherImpl.refreshTasksForChildWorkflow
  refine Good.read _ (other _ rfl) rfl rfl ?_
  refine Good.read _ (other _ rfl) rfl rfl ?_
  refine Good.read _ (other _ rfl) rfl rfl ?_
  refine Good.fetch _ _ _ (other _ rfl) rfl rfl (fun token _ => ?_)
  refine Good.forEach _ _ (fun x hx t => ?_) _
  unfold TaskRefresherImpl.refreshTasksForChildWorkflow.body
  split
  · exact Good.done _
  · rename_i hstarted
    refine Good.fetch _ _ _ ?_ rfl rfl (fun initiateEvent _ => ?_)
    · intro key firstEventID branchToken hcall
      cases hcall
      exact ⟨x, hx, not_not.mp hstarted, rfl, rfl⟩
    · exact Good.call _ _ _ (other _ rfl) rfl rfl (fun _ => Good.done _)

/-- A run of the request cancel stage, whatever it returns, fetches from the events
cache only the initiated event of a pending request cancel info,
under the initiated event id, version and batch id of that info. -/
theorem refreshTasksForRequestCancelExternalWorkflow_fetches_pending {σ : Type}
    (r : TaskRefresherImpl σ) (ctors : Constructors σ) (ms : MutableState σ) (s : σ) :
    Good r ctors ms
      (fun c => ∀ key firstEventID branchToken, c = .GetEvent key firstEventID branchToken →
        ∃ a ∈ ms.GetPendingRequestCancelExternalInfos s, key = events.keyOf (ms.GetExecutionInfo s) (ms.GetExecutionState s)
            a.InitiatedEventId a.Version ∧ firstEventID = a.InitiatedEventBatchId) s
      (r.refreshTasksForRequestCancelExternalWorkflow ms (ctors.NewTaskGenerator r.shard) s) := by
  have other : ∀ c : Call, c.isGetEvent = false →
      ∀ key firstEventID branchToken, c = .GetEvent key firstEventID branchToken →
        ∃ a ∈ ms.GetPendingRequestCancelExternalInfos s, key = events.keyOf (ms.GetExecutionInfo s) (ms.GetExecutionState s)
            a.InitiatedEventId a.Version ∧ firstEventID = a.InitiatedEventBatchId := by
    intro c h key firstEventID branchToken hc
    rw [hc] at h
    cases h
  unfold TaskRefresherImpl.refreshTasksForRequestCancelExternalWorkflow
  refine Good.read _ (other _ rfl) rfl rfl ?_
  refine Good.read _ (other _ rfl) rfl rfl ?_
  refine Good.read _ (other _ rfl) rfl rfl ?_
  refine Good.fetch _ _ _ (other _ rfl) rfl rfl (fun token _ => ?_)
  refine Good.forEach _ _ (fun x hx t => ?_) _
  unfold TaskRefresherImpl.refreshTasksForRequestCancelExternalWorkflow.body
  refine Good.fetch _ _ _ ?_ rfl rfl (fun initiateEvent _ => ?_)
  · intro key firstEventID branchToken hcall
    cases hcall
    exact ⟨x, hx, rfl, rfl⟩
  · exact Good.call _ _ _ (other _ rfl) rfl rfl (fun _ => Good.done _)

/-- A run of the signal stage, whatever it returns, fetches from the events
cache only the initiated event of a pending signal info,
under the initiated event id, version and batch id of that info. -/
theorem refreshTasksForSignalExternalWorkflow_fetches_pending {σ : Type}
    (r : TaskRefresherImpl σ) (ctors : Constructors σ) (ms : MutableState σ) (s : σ) :
    Good r ctors ms
      (fun c => ∀ key firstEventID branchToken, c = .GetEvent key firstEventID branchToken →
        ∃ a ∈ ms.GetPendingSignalExternalInfos s, key = events.keyOf (ms.GetExecutionInfo s) (ms.GetExecutionState s)
            a.InitiatedEventId a.Version ∧ firstEventID = a.InitiatedEventBatchId) s
      (r.refreshTasksForSignalExternalWorkflow ms (ctors.NewTaskGenerator r.shard) s) := by
  have other : ∀ c : Call, c.isGetEvent = false →
      ∀ key firstEventID branchToken, c = .GetEvent key firstEventID branchToken →
        ∃ a ∈ ms.GetPendingSignalExternalInfos s, key = events.keyOf (ms.GetExecutionInfo s) (ms.GetExecutionState s)
            a.InitiatedEventId a.Version ∧ firstEventID = a.InitiatedEventBatchId := by
    intro c h key firstEventID branchToken hc
    rw [hc] at h
    cases h
  unfold TaskRefresherImpl.refreshTasksForSignalExternalWorkflow
  refine Good.read _ (other _ rfl) rfl rfl ?_
  refine Good.read _ (other _ rfl) rfl rfl ?_
  refine Good.read _ (other _ rfl) rfl rfl ?_
  refine Good.fetch _ _ _ (other _ rfl) rfl rfl (fun token _ => ?_)
  refine Good.forEach _ _ (fun x hx t => ?_) _
  unfold TaskRefresherImpl.refreshTasksForSignalExternalWorkflow.body
  refine Good.fetch _ _ _ ?_ rfl rfl (fun initiateEvent _ => ?_)
  · intro key firstEventID branchToken hcall
    cases hcall
    exact ⟨x, hx, rfl, rfl⟩
  · exact Good.call _ _ _ (other _ rfl) rfl rfl (fun _ => Good.done _)

/-- A stage that is not allowed to fetch from the events cache makes no such
fetch. -/
theorem not_getEvent_of_allowedIn (k : Nat) (hk : k ≠ 5 ∧ k ≠ 7 ∧ k ≠ 8 ∧ k ≠ 9) (c : Call)
    (h : c.allowedIn k = true) (key : events.EventKey) (firstEventID : Int)
    (branchToken : List Nat) : c ≠ .GetEvent key firstEventID branchToken := by
  intro hc
  rw [hc] at h
  simp [Call.allowedIn] at h
  omega

/-- In any run of `RefreshTasks`, whatever it returns, every fetch from the
events cache is the fetch of the scheduled event of an activity without
started event id that is pending when the activity stage starts, or of the
initiated event of a child execution without started event id, of a request
cancel info or of a signal info that is pending when the stage of its
collection starts, under the event id, version and batch id of that info. -/
theorem RefreshTasks_fetches_pending {σ : Type} (r : TaskRefresherImpl σ)
    (ctors : Constructors σ) (ms : MutableState σ) (s : σ) :
    let tg := ctors.NewTaskGenerator r.shard
    let run1 := r.refreshTasksForWorkflowStart ms tg s
    let run2 := r.refreshTasksForWorkflowClose ms tg run1.state
    let run3 := r.refreshTasksForRecordWorkflowStarted ms tg run2.state
    let run4 := r.refreshWorkflowTaskTasks ms tg run3.state
    let run5 := r.refreshTasksForActivity ctors ms tg run4.state
    let run6 := r.refreshTasksForTimer ctors ms run5.state
    let run7 := r.refreshTasksForChildWorkflow ms tg run6.state
    let run8 := r.refreshTasksForRequestCancelExternalWorkflow ms tg run7.state
    ∀ x ∈ (r.RefreshTasks ctors ms s).log, ∀ key firstEventID branchToken,
      x.call = .GetEvent key firstEventID branchToken →
        (∃ a ∈ ms.GetPendingActivityInfos run4.state,
          a.StartedEventId = common.EmptyEventID ∧
          key = events.keyOf (ms.GetExecutionInfo run4.state)
            (ms.GetExecutionState run4.state) a.ScheduledEventId a.Version ∧
          firstEventID = a.ScheduledEventBatchId) ∨
        (∃ a ∈ ms.GetPendingChildExecutionInfos run6.state,
          a.StartedEventId = common.EmptyEventID ∧
          key = events.keyOf (ms.GetExecutionInfo run6.state)
            (ms.GetExecutionState run6.state) a.InitiatedEventId a.Version ∧
          firstEventID = a.InitiatedEventBatchId) ∨
        (∃ a ∈ ms.GetPendingRequestCancelExternalInfos run7.state,
          key = events.keyOf (ms.GetExecutionInfo run7.state)
            (ms.GetExecutionState run7.state) a.InitiatedEventId a.Version ∧
          firstEventID = a.InitiatedEventBatchId) ∨
        (∃ a ∈ ms.GetPendingSignalExternalInfos run8.state,
          key = events.keyOf (ms.GetExecutionInfo run8.state)
            (ms.GetExecutionState run8.state) a.InitiatedEventId a.Version ∧
          firstEventID = a.InitiatedEventBatchId) := by
  intro tg run1 run2 run3 run4 run5 run6 run7 run8
  obtain ⟨P, hP⟩ : ∃ P : Call → Prop, P = fun c =>
      ∀ key firstEventID branchToken, c = .GetEvent key firstEventID branchToken →
      (∃ a ∈ ms.GetPendingActivityInfos run4.state,
        a.StartedEventId = common.EmptyEventID ∧
        key = events.keyOf (ms.GetExecutionInfo run4.state)
          (ms.GetExecutionState run4.state) a.ScheduledEventId a.Version ∧
        firstEventID = a.ScheduledEventBatchId) ∨
      (∃ a ∈ ms.GetPendingChildExecutionInfos run6.state,
        a.StartedEventId = common.EmptyEventID ∧
        key = events.keyOf (ms.GetExecutionInfo run6.state)
          (ms.GetExecutionState run6.state) a.InitiatedEventId a.Version ∧
        firstEventID = a.InitiatedEventBatchId) ∨
      (∃ a ∈ ms.GetPendingRequestCancelExternalInfos run7.state,
        key = events.keyOf (ms.GetExecutionInfo run7.state)
          (ms.GetExecutionState run7.state) a.InitiatedEventId a.Version ∧
        firstEventID = a.InitiatedEventBatchId) ∨
      (∃ a ∈ ms.GetPendingSignalExternalInfos run8.state,
        key = events.keyOf (ms.GetExecutionInfo run8.state)
          (ms.GetExecutionState run8.state) a.InitiatedEventId a.Version ∧
        firstEventID = a.InitiatedEventBatchId) := ⟨_, rfl⟩
  have none : ∀ (k : Nat) (l : List Entry), k ≠ 5 ∧ k ≠ 7 ∧ k ≠ 8 ∧ k ≠ 9 →
      (∀ x ∈ l, x.call.allowedIn k = true) → ∀ x ∈ l, P x.call := by
    intro k l hk h x hx
    rw [hP]
    exact fun key firstEventID branchToken hcall =>
      absurd hcall (not_getEvent_of_allowedIn k hk _ (h x hx) key firstEventID branchToken)
  have all : ∀ x ∈ (r.RefreshTasks ctors ms s).log, P x.call := by
    rw [RefreshTasks_unfold, Run.read_log]
    intro x hx
    rcases List.mem_cons.mp hx with hx | hx
    · rw [hP, hx]
      intro key firstEventID branchToken hcall
      cases hcall
    · refine (?_ : ∀ y ∈ (Run.andThen _ _).log, P y.call) x hx
      refine andThen_all P _ _
        (none 1 _ (by omega) (refreshTasksForWorkflowStart_good r ctors ms _).2) ?_
      refine andThen_all P _ _
        (none 2 _ (by omega) (refreshTasksForWorkflowClose_good r ctors ms _).2) ?_
      refine andThen_all P _ _
        (none 3 _ (by omega) (refreshTasksForRecordWorkflowStarted_good r ctors ms _).2) ?_
      refine andThen_all P _ _
        (none 4 _ (by omega) (refreshWorkflowTaskTasks_good r ctors ms _).2) ?_
      refine andThen_all P _ _ (fun x hx => ?_) ?_
      · rw [hP]
        exact fun key firstEventID branchToken hcall => Or.inl
          ((refreshTasksForActivity_fetches_unstarted r ctors ms _).2 x hx key firstEventID
            branchToken hcall)
      refine andThen_all P _ _
        (none 6 _ (by omega) (refreshTasksForTimer_good r ctors ms _).2) ?_
      refine andThen_all P _ _ (fun x hx => ?_) ?_
      · rw [hP]
        exact fun key firstEventID branchToken hcall => Or.inr (Or.inl
          ((refreshTasksForChildWorkflow_fetches_pending r ctors ms _).2 x hx key firstEventID
            branchToken hcall))
      refine andThen_all P _ _ (fun x hx => ?_) ?_
      · rw [hP]
        exact fun key firstEventID branchToken hcall => Or.inr (Or.inr (Or.inl
          ((refreshTasksForRequestCancelExternalWorkflow_fetches_pending r ctors ms _).2 x hx
            key firstEventID branchToken hcall)))
      refine andThen_all P _ _ (fun x hx => ?_) ?_
      · rw [hP]
        exact fun key firstEventID branchToken hcall => Or.inr (Or.inr (Or.inr
          ((refreshTasksForSignalExternalWorkflow_fetches_pending r ctors ms _).2 x hx
            key firstEventID branchToken hcall)))
      exact none 10 _ (by omega) (refreshTasksForWorkflowSearchAttr_good r ctors ms _).2
  intro x hx
  have h := all x hx
  rw [hP] at h
  exact h

/-! ## The state a run leaves in the concrete world -/

/-- C14: on a state on which every stage succeeds, the run of `RefreshTasks`
is the construction of the task generator followed by the runs of the ten
stage functions in the order workflow start, workflow close,
record-workflow-started, workflow task, activities, user timers, child
workflows, request-cancel-external, signal-external, search attributes: each
stage starts in the state the stage before it has left and its calls come
after all the calls of that stage.  So the writing calls of the run are in
the order of their stages, and the upsert-visibility request is made exactly
once, as the last call. -/
theorem C14_stages_run_in_fixed_order {σ : Type} (r : TaskRefresherImpl σ)
    (ctors : Constructors σ) (ms : MutableState σ) (s : σ)
    (hok : (r.RefreshTasks ctors ms s).err = none) :
    let tg := ctors.NewTaskGenerator r.shard
    let run1 := r.refreshTasksForWorkflowStart ms tg s
    let run2 := r.refreshTasksForWorkflowClose ms tg run1.state
    let run3 := r.refreshTasksForRecordWorkflowStarted ms tg run2.state
    let run4 := r.refreshWorkflowTaskTasks ms tg run3.state
    let run5 := r.refreshTasksForActivity ctors ms tg run4.state
    let run6 := r.refreshTasksForTimer ctors ms run5.state
    let run7 := r.refreshTasksForChildWorkflow ms tg run6.state
    let run8 := r.refreshTasksForRequestCancelExternalWorkflow ms tg run7.state
    let run9 := r.refreshTasksForSignalExternalWorkflow ms tg run8.state
    let run10 := r.refreshTasksForWorkflowSearchAttr tg run9.state
    (run1.err = none ∧ run2.err = none ∧ run3.err = none ∧ run4.err = none ∧
      run5.err = none ∧ run6.err = none ∧ run7.err = none ∧ run8.err = none ∧
      run9.err = none ∧ run10.err = none) ∧
    (r.RefreshTasks ctors ms s).log =
      Entry.ok (.NewTaskGenerator r.shard) ::
        (run1.log ++ (run2.log ++ (run3.log ++ (run4.log ++ (run5.log ++ (run6.log ++
          (run7.log ++ (run8.log ++ (run9.log ++ run10.log))))))))) ∧
    (r.RefreshTasks ctors ms s).state = run10.state ∧
    (stagesOf (r.RefreshTasks ctors ms s).log).Pairwise (· ≤ ·) ∧
    run10.log = [Entry.ok .GenerateUpsertVisibilityTask] ∧
    (r.RefreshTasks ctors ms s).log.getLast? = some (Entry.ok .GenerateUpsertVisibilityTask) ∧
    timesCalled .GenerateUpsertVisibilityTask (r.RefreshTasks ctors ms s).log = 1 := by
  intro tg run1 run2 run3 run4 run5 run6 run7 run8 run9 run10
  have hstate0 := congrArg Run.state (RefreshTasks_unfold r ctors ms s)
  have hlog0 := congrArg Run.log (RefreshTasks_unfold r ctors ms s)
  rw [Run.read_state] at hstate0
  rw [Run.read_log] at hlog0
  rw [RefreshTasks_unfold, Run.read_err] at hok
  obtain ⟨h1, hok, hl1, hs1⟩ := Run.andThen_err_eq_none _ _ hok
  obtain ⟨h2, hok, hl2, hs2⟩ := Run.andThen_err_eq_none _ _ hok
  obtain ⟨h3, hok, hl3, hs3⟩ := Run.andThen_err_eq_none _ _ hok
  obtain ⟨h4, hok, hl4, hs4⟩ := Run.andThen_err_eq_none _ _ hok
  obtain ⟨h5, hok, hl5, hs5⟩ := Run.andThen_err_eq_none _ _ hok
  obtain ⟨h6, hok, hl6, hs6⟩ := Run.andThen_err_eq_none _ _ hok
  obtain ⟨h7, hok, hl7, hs7⟩ := Run.andThen_err_eq_none _ _ hok
  obtain ⟨h8, hok, hl8, hs8⟩ := Run.andThen_err_eq_none _ _ hok
  obtain ⟨h9, hok, hl9, hs9⟩ := Run.andThen_err_eq_none _ _ hok
  have h10 : run10.log = [Entry.ok .GenerateUpsertVisibilityTask] := by
    have hrun : run10 = _ := Run.call_done .GenerateUpsertVisibilityTask
      (tg.GenerateUpsertVisibilityTask run9.state)
    have herr : run10.err = none := hok
    rw [hrun] at herr ⊢
    simp only at herr
    simp only [herr, Entry.ok]
  have hlog : (r.RefreshTasks ctors ms s).log =
      Entry.ok (.NewTaskGenerator r.shard) ::
        (run1.log ++ (run2.log ++ (run3.log ++ (run4.log ++ (run5.log ++ (run6.log ++
          (run7.log ++ (run8.log ++ (run9.log ++ run10.log))))))))) := by
    rw [hlog0, hl1, hl2, hl3, hl4, hl5, hl6, hl7, hl8, hl9]
    rfl
  have a1 := (refreshTasksForWorkflowStart_good r ctors ms s).2
  have a2 := (refreshTasksForWorkflowClose_good r ctors ms run1.state).2
  have a3 := (refreshTasksForRecordWorkflowStarted_good r ctors ms run2.state).2
  have a4 := (refreshWorkflowTaskTasks_good r ctors ms run3.state).2
  have a5 := (refreshTasksForActivity_good r ctors ms run4.state).2
  have a6 := (refreshTasksForTimer_good r ctors ms run5.state).2
  have a7 := (refreshTasksForChildWorkflow_good r ctors ms run6.state).2
  have a8 := (refreshTasksForRequestCancelExternalWorkflow_good r ctors ms run7.state).2
  have a9 := (refreshTasksForSignalExternalWorkflow_good r ctors ms run8.state).2
  have a10 := (refreshTasksForWorkflowSearchAttr_good r ctors ms run9.state).2
  refine ⟨⟨h1, h2, h3, h4, h5, h6, h7, h8, h9, hok⟩, ?_, ?_, ?_, h10, ?_, ?_⟩
  · exact hlog
  · rw [hstate0, hs1, hs2, hs3, hs4, hs5, hs6, hs7, hs8, hs9]
  · rw [hlog]
    have base : (stagesOf run10.log).Pairwise (· ≤ ·) ∧
        ∀ j ∈ stagesOf run10.log, 9 + 1 ≤ j := by
      rw [h10]
      simp [stagesOf, Entry.ok, Call.stage]
    have s9 := sorted_stage_append 9 _ _ a9 base
    have s8 := sorted_stage_append 8 _ _ a8 s9
    have s7 := sorted_stage_append 7 _ _ a7 s8
    have s6 := sorted_stage_append 6 _ _ a6 s7
    have s5 := sorted_stage_append 5 _ _ a5 s6
    have s4 := sorted_stage_append 4 _ _ a4 s5
    have s3 := sorted_stage_append 3 _ _ a3 s4
    have s2 := sorted_stage_append 2 _ _ a2 s3
    have s1 := sorted_stage_append 1 _ _ a1 s2
    have hcons : stagesOf (Entry.ok (.NewTaskGenerator r.shard) ::
        (run1.log ++ (run2.log ++ (run3.log ++ (run4.log ++ (run5.log ++ (run6.log ++
          (run7.log ++ (run8.log ++ (run9.log ++ run10.log)))))))))) =
        stagesOf (run1.log ++ (run2.log ++ (run3.log ++ (run4.log ++ (run5.log ++ (run6.log ++
          (run7.log ++ (run8.log ++ (run9.log ++ run10.log))))))))) := by
      simp [stagesOf, Entry.ok, Call.stage]
    rw [hcons]
    exact s1.1
  · rw [hlog, h10]
    simp [List.getLast?_cons, List.getLast?_append]
  · rw [hlog, ← List.singleton_append]
    simp only [timesCalled_append]
    rw [timesCalled_upsert_of_allowedIn 1 (by omega) _ a1,
      timesCalled_upsert_of_allowedIn 2 (by omega) _ a2,
      timesCalled_upsert_of_allowedIn 3 (by omega) _ a3,
      timesCalled_upsert_of_allowedIn 4 (by omega) _ a4,
      timesCalled_upsert_of_allowedIn 5 (by omega) _ a5,
      timesCalled_upsert_of_allowedIn 6 (by omega) _ a6,
      timesCalled_upsert_of_allowedIn 7 (by omega) _ a7,
      timesCalled_upsert_of_allowedIn 8 (by omega) _ a8,
      timesCalled_upsert_of_allowedIn 9 (by omega) _ a9, h10]
    simp [timesCalled, Entry.ok]

/-- C14 at the sample state, on which every stage succeeds: the stages of the
writing calls are in order and the upsert request is the last call, made
once. -/
theorem C14_stages_run_in_fixed_order_witness :
    (stagesOf (sample.refresher.RefreshTasks sample.ctors sample.mutableState
        sample.state).log).Pairwise (· ≤ ·) ∧
    (sample.refresher.RefreshTasks sample.ctors sample.mutableState
        sample.state).log.getLast? = some (Entry.ok .GenerateUpsertVisibilityTask) ∧
    timesCalled .GenerateUpsertVisibilityTask
      (sample.refresher.RefreshTasks sample.ctors sample.mutableState sample.state).log = 1 :=
  ⟨(C14_stages_run_in_fixed_order sample.refresher sample.ctors sample.mutableState
      sample.state rfl).2.2.2.1,
    (C14_stages_run_in_fixed_order sample.refresher sample.ctors sample.mutableState
      sample.state rfl).2.2.2.2.2⟩

/-- C16: if in a run of `RefreshTasks` the fetch of the start event, of the
completion event, or of the scheduled or initiated event of a pending info
answers an error, then `RefreshTasks` returns exactly that error, the failing
fetch is the last call of the run (no later statement and no later stage is
executed), and the upsert-visibility task is not generated. -/
theorem C16_fetch_error_is_returned {σ : Type} (r : TaskRefresherImpl σ)
    (ctors : Constructors σ) (ms : MutableState σ) (s : σ)
    (before after : List Entry) (x : Entry) (e : updateworkflow.Error)
    (hlog : (r.RefreshTasks ctors ms s).log = before ++ x :: after)
    (hx : x.err = some e)
    (hfetch : x.call = .GetStartEvent ∨ x.call = .GetCompletionEvent ∨
      ∃ key firstEventID branchToken, x.call = .GetEvent key firstEventID branchToken) :
    (r.RefreshTasks ctors ms s).err = some e ∧ after = [] ∧
      ∀ y ∈ (r.RefreshTasks ctors ms s).log, y.call ≠ .GenerateUpsertVisibilityTask := by
  have hfrom := RefreshTasks_from r ctors ms s
  obtain ⟨hafter, hlast⟩ := hfrom.1.error_is_last before after x e hlog hx
  refine ⟨?_, hafter, ?_⟩
  · rcases hfrom.2 with h | h
    · rw [hlast] at h
      cases h
    · rw [h, hlast]
  · intro y hy hcall
    obtain ⟨b2, a2, hsplit⟩ := List.append_of_mem hy
    have ha2 := RefreshTasks_upsert_is_last r ctors ms s b2 a2 y hsplit hcall
    subst ha2 hafter
    rw [hlog] at hsplit
    have hxy : x = y := by
      have := congrArg List.getLast? hsplit
      simpa using this
    subst hxy
    rcases hfetch with h | h | ⟨_, _, _, h⟩ <;> rw [h] at hcall <;> cases hcall

/-- C16 at the sample state in which the scheduled event of the second
pending activity cannot be loaded: `RefreshTasks` returns the `Unavailable`
of the fetch, which is its last call, and makes no upsert request. -/
theorem C16_fetch_error_is_returned_witness :
    (sample.refresher.RefreshTasks sample.ctors sample.mutableState
        (sample.without [6])).err = some .Unavailable ∧
      ([] : List Entry) = [] ∧
      ∀ y ∈ (sample.refresher.RefreshTasks sample.ctors sample.mutableState
          (sample.without [6])).log, y.call ≠ .GenerateUpsertVisibilityTask :=
  C16_fetch_error_is_returned sample.refresher sample.ctors sample.mutableState
    (sample.without [6])
    (sample.refresher.RefreshTasks sample.ctors sample.mutableState
      (sample.without [6])).log.dropLast []
    { call := .GetEvent
        { NamespaceID := "ns", WorkflowID := "wf", RunID := "run", EventID := 6, Version := 1 }
        6 [7]
      err := some .Unavailable }
    .Unavailable (by decide) rfl (Or.inr (Or.inr ⟨_, _, _, rfl⟩))

/-- C17, counterexample: in the sample world the scheduled event of the
second pending activity cannot be loaded; `RefreshTasks` fails with the error
of the fetch and leaves a state that differs from the one before the call:
the first two activities carry the cleared status written back with
`UpdateActivity`, and the tasks generated before the failing fetch are
queued. -/
theorem C17_mutation_not_discarded_counterexample :
    (sample.refresher.RefreshTasks sample.ctors sample.mutableState
        (sample.without [6])).err = some .Unavailable ∧
    (sample.refresher.RefreshTasks sample.ctors sample.mutableState
        (sample.without [6])).state ≠ sample.without [6] ∧
    (sample.refresher.RefreshTasks sample.ctors sample.mutableState
        (sample.without [6])).state.activities =
      [(sample.activity 5 0).cleared, (sample.activity 6 0).cleared, sample.activity 7 8] ∧
    (sample.refresher.RefreshTasks sample.ctors sample.mutableState
        (sample.without [6])).state.tasks =
      (sample.without [6]).tasks ++
        [.GenerateWorkflowStartTasks (sample.event 1),
          .GenerateRecordWorkflowStartedTasks (sample.event 1),
          .GenerateActivityTasks (sample.event 5)] := by
  refine ⟨rfl, by decide, rfl, rfl⟩

/-- C17, amended: when a run of `RefreshTasks` fails because a scheduled or
initiated event cannot be fetched, it returns the error of the fetch, the
failing fetch is its last call, and nothing is undone: the state it leaves is
the state before the call with the effects of the calls made up to and
including the failing fetch applied in order. -/
theorem C17_failed_refresh_keeps_its_writes {σ : Type} (r : TaskRefresherImpl σ)
    (ctors : Constructors σ) (ms : MutableState σ) (s : σ)
    (before after : List Entry) (key : events.EventKey) (firstEventID : Int)
    (branchToken : List Nat) (e : updateworkflow.Error)
    (hlog : (r.RefreshTasks ctors ms s).log =
      before ++ { call := .GetEvent key firstEventID branchToken, err := some e } :: after) :
    (r.RefreshTasks ctors ms s).err = some e ∧ after = [] ∧
      (r.RefreshTasks ctors ms s).state =
        (r.eventsCache.GetEvent key firstEventID branchToken
          (before.foldl (fun u y => y.call.effect r ctors ms u) s)).2 := by
  have hfrom := RefreshTasks_from r ctors ms s
  obtain ⟨hafter, hlast⟩ := hfrom.1.error_is_last before after _ e hlog rfl
  refine ⟨?_, hafter, ?_⟩
  · rcases hfrom.2 with h | h
    · rw [hlast] at h
      cases h
    · rw [h, hlast]
  · rw [hfrom.1.state_eq_foldl, hlog, List.foldl_append]
    subst hafter
    rfl

/-- C17, amended, at the sample state in which the scheduled event of the
second pending activity cannot be loaded: the state left is the one the calls
before the failing fetch, and the fetch, have left. -/
theorem C17_failed_refresh_keeps_its_writes_witness :
    (sample.refresher.RefreshTasks sample.ctors sample.mutableState
        (sample.without [6])).err = some .Unavailable ∧
      ([] : List Entry) = [] ∧
      (sample.refresher.RefreshTasks sample.ctors sample.mutableState
        (sample.without [6])).state =
        (sample.refresher.eventsCache.GetEvent
          { NamespaceID := "ns", WorkflowID := "wf", RunID := "run", EventID := 6,
            Version := 1 } 6 [7]
          ((sample.refresher.RefreshTasks sample.ctors sample.mutableState
              (sample.without [6])).log.dropLast.foldl
            (fun u y => y.call.effect sample.refresher sample.ctors sample.mutableState u)
            (sample.without [6]))).2 :=
  C17_failed_refresh_keeps_its_writes sample.refresher sample.ctors sample.mutableState
    (sample.without [6])
    (sample.refresher.RefreshTasks sample.ctors sample.mutableState
      (sample.without [6])).log.dropLast []
    { NamespaceID := "ns", WorkflowID := "wf", RunID := "run", EventID := 6, Version := 1 }
    6 [7] .Unavailable (by decide)

/-- C18: in a run of `RefreshTasks` in which the stages up to and including
the user timer stage return nil, the activity stage has written back every
pending activity info (started or not) with its timer task status cleared,
through `UpdateActivity`, before `CreateNextActivityTimer` is called, and the
user timer stage has written back every pending timer info with its task
status cleared, through `UpdateUserTimer`, before `CreateNextUserTimer` is
called; each of the two timer-sequence calls is the last call of its stage
and is made exactly once in the run, whatever the collection holds. -/
theorem C18_statuses_cleared_before_next_timer {σ : Type} (r : TaskRefresherImpl σ)
    (ctors : Constructors σ) (ms : MutableState σ) (s : σ) :
    let tg := ctors.NewTaskGenerator r.shard
    let run1 := r.refreshTasksForWorkflowStart ms tg s
    let run2 := r.refreshTasksForWorkflowClose ms tg run1.state
    let run3 := r.refreshTasksForRecordWorkflowStarted ms tg run2.state
    let run4 := r.refreshWorkflowTaskTasks ms tg run3.state
    let run5 := r.refreshTasksForActivity ctors ms tg run4.state
    let run6 := r.refreshTasksForTimer ctors ms run5.state
    run1.err = none → run2.err = none → run3.err = none → run4.err = none →
    run5.err = none → run6.err = none →
    (∃ loopLog, run5.log =
        [Entry.ok .GetExecutionInfo, Entry.ok .GetExecutionState,
          Entry.ok .GetPendingActivityInfos, Entry.ok .GetCurrentBranchToken] ++ loopLog ++
          [Entry.ok .NewTimerSequence, Entry.ok .CreateNextActivityTimer] ∧
      updatedActivities loopLog =
        (ms.GetPendingActivityInfos run4.state).map persistencespb.ActivityInfo.cleared ∧
      (∀ a ∈ updatedActivities loopLog, a.TimerTaskStatus = TimerTaskStatusNone) ∧
      timesCalled .CreateNextActivityTimer loopLog = 0) ∧
    (∃ loopLog, run6.log =
        [Entry.ok .GetPendingTimerInfos] ++ loopLog ++
          [Entry.ok .NewTimerSequence, Entry.ok .CreateNextUserTimer] ∧
      updatedTimers loopLog =
        (ms.GetPendingTimerInfos run5.state).map persistencespb.TimerInfo.cleared ∧
      (∀ t ∈ updatedTimers loopLog, t.TaskStatus = TimerTaskStatusNone) ∧
      timesCalled .CreateNextUserTimer loopLog = 0) ∧
    (∃ later, (r.RefreshTasks ctors ms s).log =
      Entry.ok (.NewTaskGenerator r.shard) ::
        (run1.log ++ (run2.log ++ (run3.log ++ (run4.log ++ (run5.log ++ (run6.log ++
          later))))))) ∧
    timesCalled .CreateNextActivityTimer (r.RefreshTasks ctors ms s).log = 1 ∧
    timesCalled .CreateNextUserTimer (r.RefreshTasks ctors ms s).log = 1 := by
  intro tg run1 run2 run3 run4 run5 run6 h1 h2 h3 h4 h5 h6
  have hA := (timer_stages_of_ok r ctors ms tg run4.state).1 h5
  have hT := (timer_stages_of_ok r ctors ms tg run5.state).2 h6
  have hlog : (r.RefreshTasks ctors ms s).log =
      Entry.ok (.NewTaskGenerator r.shard) ::
        (run1.log ++ (run2.log ++ (run3.log ++ (run4.log ++ (run5.log ++ (run6.log ++
          ((r.refreshTasksForChildWorkflow ms tg run6.state).andThen fun s =>
            (r.refreshTasksForRequestCancelExternalWorkflow ms tg s).andThen fun s =>
            (r.refreshTasksForSignalExternalWorkflow ms tg s).andThen fun s =>
            r.refreshTasksForWorkflowSearchAttr tg s).log)))))) := by
    rw [RefreshTasks_unfold, Run.read_log, Run.andThen_ok _ _ h1, Run.after_log,
      Run.andThen_ok _ _ h2, Run.after_log, Run.andThen_ok _ _ h3, Run.after_log,
      Run.andThen_ok _ _ h4, Run.after_log, Run.andThen_ok _ _ h5, Run.after_log,
      Run.andThen_ok _ _ h6, Run.after_log]
    rfl
  have a1 := (refreshTasksForWorkflowStart_good r ctors ms s).2
  have a2 := (refreshTasksForWorkflowClose_good r ctors ms run1.state).2
  have a3 := (refreshTasksForRecordWorkflowStarted_good r ctors ms run2.state).2
  have a4 := (refreshWorkflowTaskTasks_good r ctors ms run3.state).2
  have a5 := (refreshTasksForActivity_good r ctors ms run4.state).2
  have a6 := (refreshTasksForTimer_good r ctors ms run5.state).2
  have a7 := (late_stages_good r ctors ms run6.state).2
  have zero : ∀ (c : Call) (k : Nat) (l : List Entry), c.allowedIn k = false →
      (∀ x ∈ l, x.call.allowedIn k = true) → timesCalled c l = 0 :=
    fun c k l hc h =>
      timesCalled_of_not_allowedIn c (fun c => c.allowedIn k = true) (by simp [hc]) l h
  refine ⟨hA.1, hT.1, ⟨_, hlog⟩, ?_, ?_⟩
  · rw [hlog, ← List.singleton_append]
    simp only [timesCalled_append]
    rw [zero .CreateNextActivityTimer 1 _ rfl a1, zero .CreateNextActivityTimer 2 _ rfl a2,
      zero .CreateNextActivityTimer 3 _ rfl a3, zero .CreateNextActivityTimer 4 _ rfl a4,
      hA.2, zero .CreateNextActivityTimer 6 _ rfl a6,
      timesCalled_of_not_allowedIn .CreateNextActivityTimer
        (fun c => ∃ k, 7 ≤ k ∧ c.allowedIn k = true)
        (by rintro ⟨k, hk, h⟩; simp [Call.allowedIn, Call.stage] at h; omega) _ a7]
    simp [timesCalled, Entry.ok]
  · rw [hlog, ← List.singleton_append]
    simp only [timesCalled_append]
    rw [zero .CreateNextUserTimer 1 _ rfl a1, zero .CreateNextUserTimer 2 _ rfl a2,
      zero .CreateNextUserTimer 3 _ rfl a3, zero .CreateNextUserTimer 4 _ rfl a4,
      zero .CreateNextUserTimer 5 _ rfl a5, hT.2,
      timesCalled_of_not_allowedIn .CreateNextUserTimer
        (fun c => ∃ k, 7 ≤ k ∧ c.allowedIn k = true)
        (by rintro ⟨k, hk, h⟩; simp [Call.allowedIn, Call.stage] at h; omega) _ a7]
    simp [timesCalled, Entry.ok]

/-- C18 at the sample state, where the first six stages return nil: each of
the two timer-sequence calls is made exactly once in the run. -/
theorem C18_statuses_cleared_before_next_timer_witness :
    timesCalled .CreateNextActivityTimer
        (sample.refresher.RefreshTasks sample.ctors sample.mutableState sample.state).log = 1 ∧
      timesCalled .CreateNextUserTimer
        (sample.refresher.RefreshTasks sample.ctors sample.mutableState sample.state).log = 1 :=
  (C18_statuses_cleared_before_next_timer sample.refresher sample.ctors sample.mutableState
    sample.state rfl rfl rfl rfl rfl rfl).2.2.2

/-- C19, counterexample: in the sample world a task is queued before the
call; `RefreshTasks` succeeds, does not request that task again, and the task
is still queued afterwards, in front of the tasks the run generated. -/
theorem C19_queued_task_remains_counterexample :
    (sample.refresher.RefreshTasks sample.ctors sample.mutableState sample.state).err = none ∧
    Call.GenerateActivityTasks (sample.event 3) ∈ sample.state.tasks ∧
    Call.GenerateActivityTasks (sample.event 3) ∉
      requests (sample.refresher.RefreshTasks sample.ctors sample.mutableState
        sample.state).log ∧
    (sample.refresher.RefreshTasks sample.ctors sample.mutableState sample.state).state.tasks =
      Call.GenerateActivityTasks (sample.event 3) ::
        requests (sample.refresher.RefreshTasks sample.ctors sample.mutableState
          sample.state).log := by
  refine ⟨rfl, by decide, by decide, by decide⟩

/-- C19, amended: `RefreshTasks` clears no queued task.  For any observation
`queued` of the tasks queued in the state: if no call to a collaborator
removes a queued task, then every task queued before the call is still queued
after `RefreshTasks`, whether the run succeeds or fails. -/
theorem C19_refresh_keeps_queued_tasks {σ T : Type} (r : TaskRefresherImpl σ)
    (ctors : Constructors σ) (ms : MutableState σ) (queued : σ → List T)
    (hkeep : ∀ (c : Call) (s : σ) (t : T), t ∈ queued s →
      t ∈ queued (c.effect r ctors ms s))
    (s : σ) (t : T) (ht : t ∈ queued s) :
    t ∈ queued (r.RefreshTasks ctors ms s).state := by
  rw [(RefreshTasks_from r ctors ms s).1.state_eq_foldl]
  generalize (r.RefreshTasks ctors ms s).log = log
  induction log generalizing s with
  | nil => exact ht
  | cons x rest ih => exact ih _ (hkeep x.call s t ht)

/-- C19, amended, in the sample world, whose calls remove no queued task: the
task queued before the refresh is still queued after it. -/
theorem C19_refresh_keeps_queued_tasks_witness :
    Call.GenerateActivityTasks (sample.event 3) ∈
      (sample.refresher.RefreshTasks sample.ctors sample.mutableState sample.state).state.tasks :=
  C19_refresh_keeps_queued_tasks sample.refresher sample.ctors sample.mutableState
    (fun s => s.tasks) sample_effect_keeps_tasks sample.state
    (.GenerateActivityTasks (sample.event 3)) (by decide)

/-- C20: the workflow-task stage makes no request when the state reports no
pending workflow task; fails with an Internal error, making no request, when
a pending task is reported but none is retrieved; makes no request when the
pending task is speculative (started or not); makes the single request
`GenerateStartWorkflowTaskTasks(scheduled event id)` when a non-speculative
task has a started event id; and the single request
`GenerateScheduleWorkflowTaskTasks(scheduled event id, false)` when it is only
scheduled.  In the last two cases it returns what the request answers. -/
theorem C20_workflow_task_stage {σ : Type} (r : TaskRefresherImpl σ)
    (ms : MutableState σ) (tg : TaskGenerator σ) (s : σ) :
    (ms.HasPendingWorkflowTask s = false →
      r.refreshWorkflowTaskTasks ms tg s =
        { err := none, state := s, log := [Entry.ok .HasPendingWorkflowTask] }) ∧
    (ms.HasPendingWorkflowTask s = true → ms.GetPendingWorkflowTask s = none →
      r.refreshWorkflowTaskTasks ms tg s =
        { err := some (.Internal "it could be a bug, cannot get pending workflow task")
          state := s
          log := [Entry.ok .HasPendingWorkflowTask, Entry.ok .GetPendingWorkflowTask] }) ∧
    (∀ workflowTask, ms.HasPendingWorkflowTask s = true →
      ms.GetPendingWorkflowTask s = some workflowTask →
      (workflowTask.Type_ = .SPECULATIVE →
        r.refreshWorkflowTaskTasks ms tg s =
          { err := none, state := s
            log := [Entry.ok .HasPendingWorkflowTask, Entry.ok .GetPendingWorkflowTask] }) ∧
      (workflowTask.Type_ ≠ .SPECULATIVE →
        workflowTask.StartedEventID ≠ common.EmptyEventID →
        r.refreshWorkflowTaskTasks ms tg s =
          { err := (tg.GenerateStartWorkflowTaskTasks workflowTask.ScheduledEventID s).1
            state := (tg.GenerateStartWorkflowTaskTasks workflowTask.ScheduledEventID s).2
            log := [Entry.ok .HasPendingWorkflowTask, Entry.ok .GetPendingWorkflowTask,
              { call := .GenerateStartWorkflowTaskTasks workflowTask.ScheduledEventID
                err :=
                  (tg.GenerateStartWorkflowTaskTasks workflowTask.ScheduledEventID s).1 }] }) ∧
      (workflowTask.Type_ ≠ .SPECULATIVE →
        workflowTask.StartedEventID = common.EmptyEventID →
        r.refreshWorkflowTaskTasks ms tg s =
          { err :=
              (tg.GenerateScheduleWorkflowTaskTasks workflowTask.ScheduledEventID false s).1
            state :=
              (tg.GenerateScheduleWorkflowTaskTasks workflowTask.ScheduledEventID false s).2
            log := [Entry.ok .HasPendingWorkflowTask, Entry.ok .GetPendingWorkflowTask,
              { call := .GenerateScheduleWorkflowTaskTasks workflowTask.ScheduledEventID false
                err :=
                  (tg.GenerateScheduleWorkflowTaskTasks workflowTask.ScheduledEventID
                    false s).1 }] })) := by
  refine ⟨?_, ?_, ?_⟩
  · intro h
    simp [TaskRefresherImpl.refreshWorkflowTaskTasks, h, Run.read, Run.after, Run.done,
      Entry.ok]
  · intro h hnone
    simp [TaskRefresherImpl.refreshWorkflowTaskTasks, h, hnone, Run.read, Run.after, Run.fail,
      Entry.ok]
  · intro workflowTask h hsome
    refine ⟨?_, ?_, ?_⟩
    · intro hspec
      simp [TaskRefresherImpl.refreshWorkflowTaskTasks, h, hsome, hspec, Run.read, Run.after,
        Run.done, Entry.ok]
    · intro hspec hstarted
      simp [TaskRefresherImpl.refreshWorkflowTaskTasks, h, hsome, hspec, hstarted, Run.read,
        Run.after, Run.call_done, Entry.ok]
    · intro hspec hstarted
      simp [TaskRefresherImpl.refreshWorkflowTaskTasks, h, hsome, hspec, hstarted, Run.read,
        Run.after, Run.call_done, Entry.ok]

/-- C20 at five sample states, one for each case of the workflow-task
stage. -/
theorem C20_workflow_task_stage_witness :
    (requests (sample.refresher.refreshWorkflowTaskTasks sample.mutableState
        sample.taskGenerator sample.state).log = []) ∧
    ((sample.refresher.refreshWorkflowTaskTasks sample.mutableState
        sample.taskGenerator sample.inconsistent).err =
      some (.Internal "it could be a bug, cannot get pending workflow task")) ∧
    (requests (sample.refresher.refreshWorkflowTaskTasks sample.mutableState
        sample.taskGenerator (sample.withWorkflowTask .SPECULATIVE 21)).log = []) ∧
    (requests (sample.refresher.refreshWorkflowTaskTasks sample.mutableState
        sample.taskGenerator (sample.withWorkflowTask .NORMAL 21)).log =
      [.GenerateStartWorkflowTaskTasks 20]) ∧
    (requests (sample.refresher.refreshWorkflowTaskTasks sample.mutableState
        sample.taskGenerator (sample.withWorkflowTask .NORMAL 0)).log =
      [.GenerateScheduleWorkflowTaskTasks 20 false]) := by
  refine ⟨?_, ?_, ?_, ?_, ?_⟩
  · rw [(C20_workflow_task_stage sample.refresher sample.mutableState sample.taskGenerator
      sample.state).1 rfl]
    rfl
  · rw [(C20_workflow_task_stage sample.refresher sample.mutableState sample.taskGenerator
      sample.inconsistent).2.1 rfl rfl]
  · rw [((C20_workflow_task_stage sample.refresher sample.mutableState sample.taskGenerator
      (sample.withWorkflowTask .SPECULATIVE 21)).2.2 _ rfl rfl).1 rfl]
    rfl
  · rw [((C20_workflow_task_stage sample.refresher sample.mutableState sample.taskGenerator
      (sample.withWorkflowTask .NORMAL 21)).2.2 _ rfl rfl).2.1 (by decide) (by decide)]
    rfl
  · rw [((C20_workflow_task_stage sample.refresher sample.mutableState sample.taskGenerator
      (sample.withWorkflowTask .NORMAL 0)).2.2 _ rfl rfl).2.2 (by decide) rfl]
    rfl

/-- C21, counterexample: the sample refresher of shard 1 and the one of shard 2
have the same events cache and run on the same mutable state, with
constructors whose task generator depends on the shard: the first returns
nil, the second returns the error of its task generator. -/
theorem C21_shard_changes_result_counterexample :
    (sample.refresherOfShard 2).eventsCache = sample.refresher.eventsCache ∧
    (sample.refresher.RefreshTasks sample.ctorsByShard sample.mutableState sample.state).err =
      none ∧
    ((sample.refresherOfShard 2).RefreshTasks sample.ctorsByShard sample.mutableState
      sample.state).err = some (.Internal "cannot generate") :=
  ⟨rfl, rfl, rfl⟩

/-- C21, amended: `RefreshTasks` is a function of the mutable state, of what
the events cache answers to `GetEvent`, and of the shard of the refresher,
which it passes to the constructor of the task generator: two refreshers with
the same shard whose events caches answer every `GetEvent` identically,
whatever their config, namespace registry and logger are, run identically on
equal mutable states: the same calls in the same order, the same state left,
the same error, and the same requests to the task generator and the timer
sequence.  Every fetch from the events cache in the run is the fetch of the
scheduled event of an activity without started event id that is pending when
the activity stage starts, or of the initiated event of a child execution
without started event id, of a request cancel info or of a signal info that
is pending when the stage of its collection starts. -/
theorem C21_result_depends_on_state_cache_and_shard {σ : Type}
    (r1 r2 : TaskRefresherImpl σ) (ctors : Constructors σ) (ms : MutableState σ) (s : σ)
    (hshard : r1.shard = r2.shard)
    (hcache : ∀ key firstEventID branchToken t,
      r1.eventsCache.GetEvent key firstEventID branchToken t =
        r2.eventsCache.GetEvent key firstEventID branchToken t) :
    let tg := ctors.NewTaskGenerator r1.shard
    let run1 := r1.refreshTasksForWorkflowStart ms tg s
    let run2 := r1.refreshTasksForWorkflowClose ms tg run1.state
    let run3 := r1.refreshTasksForRecordWorkflowStarted ms tg run2.state
    let run4 := r1.refreshWorkflowTaskTasks ms tg run3.state
    let run5 := r1.refreshTasksForActivity ctors ms tg run4.state
    let run6 := r1.refreshTasksForTimer ctors ms run5.state
    let run7 := r1.refreshTasksForChildWorkflow ms tg run6.state
    let run8 := r1.refreshTasksForRequestCancelExternalWorkflow ms tg run7.state
    r1.RefreshTasks ctors ms s = r2.RefreshTasks ctors ms s ∧
      (r1.RefreshTasks ctors ms s).err = (r2.RefreshTasks ctors ms s).err ∧
      (requests (r1.RefreshTasks ctors ms s).log).Perm
        (requests (r2.RefreshTasks ctors ms s).log) ∧
      ∀ x ∈ (r1.RefreshTasks ctors ms s).log, ∀ key firstEventID branchToken,
        x.call = .GetEvent key firstEventID branchToken →
          (∃ a ∈ ms.GetPendingActivityInfos run4.state,
            a.StartedEventId = common.EmptyEventID ∧
            key = events.keyOf (ms.GetExecutionInfo run4.state)
              (ms.GetExecutionState run4.state) a.ScheduledEventId a.Version ∧
            firstEventID = a.ScheduledEventBatchId) ∨
          (∃ a ∈ ms.GetPendingChildExecutionInfos run6.state,
            a.StartedEventId = common.EmptyEventID ∧
            key = events.keyOf (ms.GetExecutionInfo run6.state)
              (ms.GetExecutionState run6.state) a.InitiatedEventId a.Version ∧
            firstEventID = a.InitiatedEventBatchId) ∨
          (∃ a ∈ ms.GetPendingRequestCancelExternalInfos run7.state,
            key = events.keyOf (ms.GetExecutionInfo run7.state)
              (ms.GetExecutionState run7.state) a.InitiatedEventId a.Version ∧
            firstEventID = a.InitiatedEventBatchId) ∨
          (∃ a ∈ ms.GetPendingSignalExternalInfos run8.state,
            key = events.keyOf (ms.GetExecutionInfo run8.state)
              (ms.GetExecutionState run8.state) a.InitiatedEventId a.Version ∧
            firstEventID = a.InitiatedEventBatchId) := by
  intro tg run1 run2 run3 run4 run5 run6 run7 run8
  have hfetches := RefreshTasks_fetches_pending r1 ctors ms s
  have hc : r1.eventsCache = r2.eventsCache := by
    cases h1 : r1.eventsCache with
    | mk g1 =>
      cases h2 : r2.eventsCache with
      | mk g2 =>
        have : g1 = g2 := by
          funext key firstEventID branchToken t
          have := hcache key firstEventID branchToken t
          rw [h1, h2] at this
          exact this
        rw [this]
  have hrun : r1.RefreshTasks ctors ms s = r2.RefreshTasks ctors ms s := by
    obtain ⟨sh1, c1, n1, e1, l1⟩ := r1
    obtain ⟨sh2, c2, n2, e2, l2⟩ := r2
    simp only at hshard hc
    subst hshard hc
    rfl
  exact ⟨hrun, by rw [hrun], by rw [hrun], hfetches⟩

/-- C21, amended, in the sample world: the sample refresher and the refresher
of the same shard with another config, namespace registry and logger return
the same error and make the same requests at the sample state. -/
theorem C21_result_depends_on_state_cache_and_shard_witness :
    (sample.refresher.RefreshTasks sample.ctors sample.mutableState sample.state).err =
      (sample.otherRefresher.RefreshTasks sample.ctors sample.mutableState sample.state).err ∧
    (requests
      (sample.refresher.RefreshTasks sample.ctors sample.mutableState sample.state).log).Perm
      (requests
        (sample.otherRefresher.RefreshTasks sample.ctors sample.mutableState
          sample.state).log) :=
  (C21_result_depends_on_state_cache_and_shard sample.refresher sample.otherRefresher
    sample.ctors sample.mutableState sample.state rfl (fun _ _ _ _ => rfl)).2.imp_right
    And.left

/-- C24, counterexample: in the sample world the start and completion events
of a running workflow can be fetched, but the task generator answers an error
to `GenerateWorkflowStartTasks`: `RefreshTasks` returns in the start stage and
generates neither workflow-close tasks nor record-workflow-started tasks. -/
theorem C24_neither_close_nor_record_started_counterexample :
    (sample.mutableState.GetStartEvent sample.state).1 = .ok (sample.event 1) ∧
    (sample.mutableState.GetCompletionEvent sample.state).1 = .ok (sample.event 2) ∧
    (sample.mutableState.GetExecutionState sample.state).Status = .RUNNING ∧
    callsWhere Call.isGenerateWorkflowCloseTasks
      (sample.refresher.RefreshTasks sample.failingCtors sample.mutableState
        sample.state).log = [] ∧
    callsWhere Call.isGenerateRecordWorkflowStartedTasks
      (sample.refresher.RefreshTasks sample.failingCtors sample.mutableState
        sample.state).log = [] := by
  refine ⟨rfl, rfl, rfl, rfl, rfl⟩

/-- C24, amended: when the start stage returns nil and every fetch of the
start event and of the completion event in the run succeeds, `RefreshTasks`
generates exactly one of workflow-close tasks and record-workflow-started
tasks: for an execution status other than Running the single request
`GenerateWorkflowCloseTasks(completion event, false)` and no
`GenerateRecordWorkflowStartedTasks`; for the status Running the single
request `GenerateRecordWorkflowStartedTasks(start event)` and no
`GenerateWorkflowCloseTasks`.  The execution status is the one both stages
read: no call of the collaborators changes the execution state. -/
theorem C24_close_or_record_started {σ : Type} (r : TaskRefresherImpl σ)
    (ctors : Constructors σ) (ms : MutableState σ) (s : σ)
    (hstatus : ∀ (c : Call) (u : σ),
      ms.GetExecutionState (c.effect r ctors ms u) = ms.GetExecutionState u)
    (hstart : (r.refreshTasksForWorkflowStart ms (ctors.NewTaskGenerator r.shard) s).err = none)
    (hfetch : ∀ x ∈ (r.RefreshTasks ctors ms s).log,
      x.call = .GetStartEvent ∨ x.call = .GetCompletionEvent → x.err = none) :
    ((ms.GetExecutionState s).Status ≠ .RUNNING →
      (∃ closeEvent,
        (ms.GetCompletionEvent
          (r.refreshTasksForWorkflowStart ms (ctors.NewTaskGenerator r.shard) s).state).1 =
            .ok closeEvent ∧
        callsWhere Call.isGenerateWorkflowCloseTasks (r.RefreshTasks ctors ms s).log =
          [.GenerateWorkflowCloseTasks closeEvent false]) ∧
      callsWhere Call.isGenerateRecordWorkflowStartedTasks (r.RefreshTasks ctors ms s).log =
        []) ∧
    ((ms.GetExecutionState s).Status = .RUNNING →
      callsWhere Call.isGenerateWorkflowCloseTasks (r.RefreshTasks ctors ms s).log = [] ∧
      ∃ startEvent,
        (ms.GetStartEvent
          (r.refreshTasksForWorkflowStart ms (ctors.NewTaskGenerator r.shard) s).state).1 =
            .ok startEvent ∧
        callsWhere Call.isGenerateRecordWorkflowStartedTasks (r.RefreshTasks ctors ms s).log =
          [.GenerateRecordWorkflowStartedTasks startEvent]) := by
  have hlog := congrArg Run.log (RefreshTasks_unfold r ctors ms s)
  rw [Run.read_log, Run.andThen_ok _ _ hstart, Run.after_log] at hlog
  have hsame : ms.GetExecutionState
      (r.refreshTasksForWorkflowStart ms (ctors.NewTaskGenerator r.shard) s).state =
      ms.GetExecutionState s :=
    (refreshTasksForWorkflowStart_good r ctors ms s).1.1.executionState_eq hstatus
  have startNone : ∀ (p : Call → Bool) (rest : Run σ),
      p (.NewTaskGenerator r.shard) = false →
      (∀ c, c.allowedIn 1 = true → p c = false) →
      (r.RefreshTasks ctors ms s).log =
        { call := .NewTaskGenerator r.shard, err := none } ::
          ((r.refreshTasksForWorkflowStart ms (ctors.NewTaskGenerator r.shard) s).log ++
            rest.log) →
      callsWhere p (r.RefreshTasks ctors ms s).log = callsWhere p rest.log := by
    intro p rest hp h hl
    rw [hl, callsWhere_cons, callsWhere_append, callsWhere_eq_nil p _
      (fun x hx => h _ ((refreshTasksForWorkflowStart_good r ctors ms s).2 x hx))]
    simp [hp]
  have key := close_or_record_started r ctors ms hstatus
    (r.refreshTasksForWorkflowStart ms (ctors.NewTaskGenerator r.shard) s).state _ rfl
    (fun x hx => hfetch x (by rw [hlog]; simp [hx]))
  rw [hsame] at key
  rw [startNone Call.isGenerateWorkflowCloseTasks _ rfl
      (fun c hc => (start_stage_not_close_or_record c hc).1) hlog,
    startNone Call.isGenerateRecordWorkflowStartedTasks _ rfl
      (fun c hc => (start_stage_not_close_or_record c hc).2) hlog]
  exact key

/-- C24, amended, in the sample world: the refresh of the running sample
workflow requests record-workflow-started tasks and no workflow-close
tasks. -/
theorem C24_close_or_record_started_witness :
    callsWhere Call.isGenerateWorkflowCloseTasks
        (sample.refresher.RefreshTasks sample.ctors sample.mutableState sample.state).log =
      [] ∧
    ∃ startEvent,
      (sample.mutableState.GetStartEvent
        (sample.refresher.refreshTasksForWorkflowStart sample.mutableState
          (sample.ctors.NewTaskGenerator sample.refresher.shard) sample.state).state).1 =
          .ok startEvent ∧
      callsWhere Call.isGenerateRecordWorkflowStartedTasks
        (sample.refresher.RefreshTasks sample.ctors sample.mutableState sample.state).log =
        [.GenerateRecordWorkflowStartedTasks startEvent] :=
  (C24_close_or_record_started sample.refresher sample.ctors sample.mutableState sample.state
    sample_executionState_kept rfl (by decide)).2 rfl

/-- C25: in the activity stage of a refresh, whatever the refresh returns,
every fetch from the events cache is the fetch of the scheduled event of a
pending activity without started event id, under the scheduled event id,
version and batch id of that activity, so that a started activity causes no
read of the events cache.  When the refresh returns nil, the fetches and the
`GenerateActivityTasks` requests of the activity stage are, for each pending
activity without started event id in order, the fetch of its scheduled event
followed by one `GenerateActivityTasks` request with the fetched event; the
refresh makes no other `GenerateActivityTasks` request, so their number, and
the number of fetches of the stage, is the number of pending activities
without started event id. -/
theorem C25_activity_tasks_for_unstarted_activities {σ : Type} (r : TaskRefresherImpl σ)
    (ctors : Constructors σ) (ms : MutableState σ) (s : σ) :
    let tg := ctors.NewTaskGenerator r.shard
    let run1 := r.refreshTasksForWorkflowStart ms tg s
    let run2 := r.refreshTasksForWorkflowClose ms tg run1.state
    let run3 := r.refreshTasksForRecordWorkflowStarted ms tg run2.state
    let run4 := r.refreshWorkflowTaskTasks ms tg run3.state
    let run5 := r.refreshTasksForActivity ctors ms tg run4.state
    let unstarted := (ms.GetPendingActivityInfos run4.state).filter
      fun a => decide (a.StartedEventId = common.EmptyEventID)
    (∀ x ∈ run5.log, ∀ key firstEventID branchToken,
      x.call = .GetEvent key firstEventID branchToken →
        ∃ a ∈ unstarted,
          key = events.keyOf (ms.GetExecutionInfo run4.state) (ms.GetExecutionState run4.state)
            a.ScheduledEventId a.Version ∧ firstEventID = a.ScheduledEventBatchId) ∧
    ((r.RefreshTasks ctors ms s).err = none →
      (∃ token, ms.GetCurrentBranchToken run4.state = .ok token ∧
        FetchedEach r.eventsCache
          (fun a : persistencespb.ActivityInfo =>
            events.keyOf (ms.GetExecutionInfo run4.state) (ms.GetExecutionState run4.state)
              a.ScheduledEventId a.Version)
          (fun a => a.ScheduledEventBatchId) token Call.GenerateActivityTasks unstarted
          (callsWhere (fun c => c.isGetEvent || c.isGenerateActivityTasks) run5.log)) ∧
      callsWhere Call.isGenerateActivityTasks (r.RefreshTasks ctors ms s).log =
        callsWhere Call.isGenerateActivityTasks run5.log ∧
      (callsWhere Call.isGenerateActivityTasks (r.RefreshTasks ctors ms s).log).length =
        unstarted.length ∧
      (callsWhere Call.isGetEvent run5.log).length = unstarted.length) := by
  intro tg run1 run2 run3 run4 run5 unstarted
  constructor
  · intro x hx key firstEventID branchToken hcall
    obtain ⟨a, ha, hstarted, hkey, hbatch⟩ :=
      (refreshTasksForActivity_fetches_unstarted r ctors ms run4.state).2 x hx
        key firstEventID branchToken hcall
    exact ⟨a, List.mem_filter.mpr ⟨ha, decide_eq_true hstarted⟩, hkey, hbatch⟩
  · intro hok
    have h5 : run5.err = none := (RefreshTasks_of_ok r ctors ms s hok).1.2.2.2.2.1
    obtain ⟨token, htoken, hfetched⟩ :=
      refreshTasksForActivity_fetchedEach r ctors ms tg run4.state h5
    have hwhole := (callsWhere_of_stage r ctors ms s hok Call.isGenerateActivityTasks 5
      Call.stage_of_isGenerateActivityTasks rfl).1 rfl
    have hrequests := FetchedEach.length_eq Call.isGenerateActivityTasks _ _ hfetched
      (Or.inl ⟨fun _ _ _ => rfl, fun _ => rfl⟩)
    have hfetches := FetchedEach.length_eq Call.isGetEvent _ _ hfetched
      (Or.inr ⟨fun _ _ _ => rfl, fun _ => rfl⟩)
    rw [callsWhere_filter _ _ (fun c hc => by simp [hc])] at hrequests hfetches
    exact ⟨⟨token, htoken, hfetched⟩, hwhole, hwhole ▸ hrequests, hfetches⟩

/-- C25 at the sample state, which has three pending activities of which one
is started: the refresh returns nil and requests activity tasks twice. -/
theorem C25_activity_tasks_for_unstarted_activities_witness :
    (sample.refresher.RefreshTasks sample.ctors sample.mutableState sample.state).err = none ∧
    (sample.mutableState.GetPendingActivityInfos sample.state).length = 3 ∧
    (callsWhere Call.isGenerateActivityTasks
      (sample.refresher.RefreshTasks sample.ctors sample.mutableState sample.state).log).length =
      2 :=
  ⟨rfl, rfl,
    ((C25_activity_tasks_for_unstarted_activities sample.refresher sample.ctors
      sample.mutableState sample.state).2 rfl).2.2.1.trans (by decide)⟩

/-- C26, counterexample: in the sample world a workflow never had a workflow
task and its start event, which can be fetched, carries a first workflow task
backoff of 5, but the task generator answers an error to
`GenerateWorkflowStartTasks`: `RefreshTasks` returns that error and never
calls `GenerateDelayedWorkflowTasks`. -/
theorem C26_delayed_tasks_need_start_tasks_counterexample :
    (sample.mutableState.GetStartEvent sample.fresh).1 = .ok (sample.event 1) ∧
    sample.mutableState.HadOrHasWorkflowTask sample.fresh = false ∧
    0 < timestamp.DurationValue (historypb.GetFirstWorkflowTaskBackoff
      (sample.event 1).GetWorkflowExecutionStartedEventAttributes) ∧
    (sample.refresher.RefreshTasks sample.failingCtors sample.mutableState sample.fresh).err =
      some (.Internal "cannot generate") ∧
    callsWhere Call.isGenerateDelayedWorkflowTasks
      (sample.refresher.RefreshTasks sample.failingCtors sample.mutableState
        sample.fresh).log = [] := by
  refine ⟨rfl, rfl, by decide, rfl, rfl⟩

/-- C26, amended: for every mutable state whose start event can be fetched
(running or closed), `RefreshTasks` calls `GenerateWorkflowStartTasks` with
the start event, once; and it calls `GenerateDelayedWorkflowTasks` with the
start event, once, if and only if `GenerateWorkflowStartTasks` has returned
nil, the workflow never had and does not have a workflow task, and the first
workflow task backoff of the start event is strictly positive; otherwise it
does not call it. -/
theorem C26_start_stage_requests {σ : Type} (r : TaskRefresherImpl σ)
    (ctors : Constructors σ) (ms : MutableState σ) (s : σ)
    (startEvent : historypb.HistoryEvent) (hstart : (ms.GetStartEvent s).1 = .ok startEvent) :
    callsWhere Call.isGenerateWorkflowStartTasks (r.RefreshTasks ctors ms s).log =
        [.GenerateWorkflowStartTasks startEvent] ∧
    callsWhere Call.isGenerateDelayedWorkflowTasks (r.RefreshTasks ctors ms s).log =
      if ((ctors.NewTaskGenerator r.shard).GenerateWorkflowStartTasks startEvent
            (ms.GetStartEvent s).2).1 = none ∧
          ms.HadOrHasWorkflowTask
            ((ctors.NewTaskGenerator r.shard).GenerateWorkflowStartTasks startEvent
              (ms.GetStartEvent s).2).2 = false ∧
          0 < timestamp.DurationValue (historypb.GetFirstWorkflowTaskBackoff
            startEvent.GetWorkflowExecutionStartedEventAttributes)
      then [.GenerateDelayedWorkflowTasks startEvent] else [] := by
  have hstage := refreshTasksForWorkflowStart_calls r ms (ctors.NewTaskGenerator r.shard) s
    startEvent hstart
  rw [RefreshTasks_unfold, Run.read_log, callsWhere_cons, callsWhere_cons]
  simp only [Call.isGenerateWorkflowStartTasks, Call.isGenerateDelayedWorkflowTasks,
    Bool.false_eq_true, if_false, List.nil_append]
  rw [callsWhere_andThen, callsWhere_andThen]
  · exact hstage
  · intro _
    exact stages_after_start_all r ctors ms
      (fun c => Call.isGenerateDelayedWorkflowTasks c = false)
      (fun c k hk h => by
        cases c <;> simp_all [Call.allowedIn, Call.stage, Call.isGenerateDelayedWorkflowTasks]
        omega) _
  · intro _
    exact stages_after_start_all r ctors ms
      (fun c => Call.isGenerateWorkflowStartTasks c = false)
      (fun c k hk h => by
        cases c <;> simp_all [Call.allowedIn, Call.stage, Call.isGenerateWorkflowStartTasks]
        omega) _

/-- C26, amended, in the sample world at a workflow that never had a workflow
task and whose start event carries a backoff of 5: both requests are made
with the start event. -/
theorem C26_start_stage_requests_witness :
    callsWhere Call.isGenerateWorkflowStartTasks
        (sample.refresher.RefreshTasks sample.ctors sample.mutableState sample.fresh).log =
      [.GenerateWorkflowStartTasks (sample.event 1)] ∧
    callsWhere Call.isGenerateDelayedWorkflowTasks
        (sample.refresher.RefreshTasks sample.ctors sample.mutableState sample.fresh).log =
      [.GenerateDelayedWorkflowTasks (sample.event 1)] :=
  C26_start_stage_requests sample.refresher sample.ctors sample.mutableState sample.fresh
    (sample.event 1) rfl

/-- C27: in a refresh that returns nil, the fetches from the events cache and
the requests of the child workflow stage are, for each pending child
execution without started event id in order, the fetch of its initiated event
under its initiated event id, version and batch id followed by one
`GenerateChildWorkflowTasks` request with the fetched event; those of the
request cancel stage and of the signal stage are the same for each pending
request cancel info, with `GenerateRequestCancelExternalTasks`, and for each
pending signal info, with `GenerateSignalExternalTasks`.  The refresh makes
no other request of these three kinds, so the number of requests of each kind
is the number of eligible pending infos. -/
theorem C27_external_tasks_once_per_pending_info {σ : Type} (r : TaskRefresherImpl σ)
    (ctors : Constructors σ) (ms : MutableState σ) (s : σ)
    (hok : (r.RefreshTasks ctors ms s).err = none) :
    let tg := ctors.NewTaskGenerator r.shard
    let run1 := r.refreshTasksForWorkflowStart ms tg s
    let run2 := r.refreshTasksForWorkflowClose ms tg run1.state
    let run3 := r.refreshTasksForRecordWorkflowStarted ms tg run2.state
    let run4 := r.refreshWorkflowTaskTasks ms tg run3.state
    let run5 := r.refreshTasksForActivity ctors ms tg run4.state
    let run6 := r.refreshTasksForTimer ctors ms run5.state
    let run7 := r.refreshTasksForChildWorkflow ms tg run6.state
    let run8 := r.refreshTasksForRequestCancelExternalWorkflow ms tg run7.state
    let run9 := r.refreshTasksForSignalExternalWorkflow ms tg run8.state
    let unstarted := (ms.GetPendingChildExecutionInfos run6.state).filter
      fun a => decide (a.StartedEventId = common.EmptyEventID)
    ((∃ token, ms.GetCurrentBranchToken run6.state = .ok token ∧
        FetchedEach r.eventsCache
          (fun a : persistencespb.ChildExecutionInfo =>
            events.keyOf (ms.GetExecutionInfo run6.state) (ms.GetExecutionState run6.state)
              a.InitiatedEventId a.Version)
          (fun a => a.InitiatedEventBatchId) token Call.GenerateChildWorkflowTasks unstarted
          (callsWhere (fun c => c.isGetEvent || c.isGenerateChildWorkflowTasks) run7.log)) ∧
      callsWhere Call.isGenerateChildWorkflowTasks (r.RefreshTasks ctors ms s).log =
        callsWhere Call.isGenerateChildWorkflowTasks run7.log ∧
      (callsWhere Call.isGenerateChildWorkflowTasks (r.RefreshTasks ctors ms s).log).length =
        unstarted.length) ∧
    ((∃ token, ms.GetCurrentBranchToken run7.state = .ok token ∧
        FetchedEach r.eventsCache
          (fun a : persistencespb.RequestCancelInfo =>
            events.keyOf (ms.GetExecutionInfo run7.state) (ms.GetExecutionState run7.state)
              a.InitiatedEventId a.Version)
          (fun a => a.InitiatedEventBatchId) token Call.GenerateRequestCancelExternalTasks
          (ms.GetPendingRequestCancelExternalInfos run7.state)
          (callsWhere (fun c => c.isGetEvent || c.isGenerateRequestCancelExternalTasks)
            run8.log)) ∧
      callsWhere Call.isGenerateRequestCancelExternalTasks (r.RefreshTasks ctors ms s).log =
        callsWhere Call.isGenerateRequestCancelExternalTasks run8.log ∧
      (callsWhere Call.isGenerateRequestCancelExternalTasks
        (r.RefreshTasks ctors ms s).log).length =
        (ms.GetPendingRequestCancelExternalInfos run7.state).length) ∧
    ((∃ token, ms.GetCurrentBranchToken run8.state = .ok token ∧
        FetchedEach r.eventsCache
          (fun a : persistencespb.SignalInfo =>
            events.keyOf (ms.GetExecutionInfo run8.state) (ms.GetExecutionState run8.state)
              a.InitiatedEventId a.Version)
          (fun a => a.InitiatedEventBatchId) token Call.GenerateSignalExternalTasks
          (ms.GetPendingSignalExternalInfos run8.state)
          (callsWhere (fun c => c.isGetEvent || c.isGenerateSignalExternalTasks) run9.log)) ∧
      callsWhere Call.isGenerateSignalExternalTasks (r.RefreshTasks ctors ms s).log =
        callsWhere Call.isGenerateSignalExternalTasks run9.log ∧
      (callsWhere Call.isGenerateSignalExternalTasks (r.RefreshTasks ctors ms s).log).length =
        (ms.GetPendingSignalExternalInfos run8.state).length) := by
  intro tg run1 run2 run3 run4 run5 run6 run7 run8 run9 unstarted
  obtain ⟨-, -, -, -, -, -, h7, h8, h9, -⟩ := (RefreshTasks_of_ok r ctors ms s hok).1
  refine ⟨?_, ?_, ?_⟩
  · obtain ⟨token, htoken, hfetched⟩ :=
      refreshTasksForChildWorkflow_fetchedEach r ms tg run6.state h7
    have hwhole := (callsWhere_of_stage r ctors ms s hok Call.isGenerateChildWorkflowTasks 7
      (fun c k h => (Call.stage_of_external_request c k h).1) rfl).2.1 rfl
    have hrequests := FetchedEach.length_eq Call.isGenerateChildWorkflowTasks _ _ hfetched
      (Or.inl ⟨fun _ _ _ => rfl, fun _ => rfl⟩)
    rw [callsWhere_filter _ _ (fun c hc => by simp [hc])] at hrequests
    exact ⟨⟨token, htoken, hfetched⟩, hwhole, hwhole ▸ hrequests⟩
  · obtain ⟨token, htoken, hfetched⟩ :=
      refreshTasksForRequestCancelExternalWorkflow_fetchedEach r ms tg run7.state h8
    have hwhole := (callsWhere_of_stage r ctors ms s hok
      Call.isGenerateRequestCancelExternalTasks 8
      (fun c k h => (Call.stage_of_external_request c k h).2.1) rfl).2.2.1 rfl
    have hrequests := FetchedEach.length_eq Call.isGenerateRequestCancelExternalTasks _ _
      hfetched (Or.inl ⟨fun _ _ _ => rfl, fun _ => rfl⟩)
    rw [callsWhere_filter _ _ (fun c hc => by simp [hc])] at hrequests
    exact ⟨⟨token, htoken, hfetched⟩, hwhole, hwhole ▸ hrequests⟩
  · obtain ⟨token, htoken, hfetched⟩ :=
      refreshTasksForSignalExternalWorkflow_fetchedEach r ms tg run8.state h9
    have hwhole := (callsWhere_of_stage r ctors ms s hok Call.isGenerateSignalExternalTasks 9
      (fun c k h => (Call.stage_of_external_request c k h).2.2) rfl).2.2.2 rfl
    have hrequests := FetchedEach.length_eq Call.isGenerateSignalExternalTasks _ _ hfetched
      (Or.inl ⟨fun _ _ _ => rfl, fun _ => rfl⟩)
    rw [callsWhere_filter _ _ (fun c hc => by simp [hc])] at hrequests
    exact ⟨⟨token, htoken, hfetched⟩, hwhole, hwhole ▸ hrequests⟩

/-- C27 at the sample state, which has one pending child execution without
started event id, one pending request cancel info and one pending signal
info: the refresh returns nil and makes one request of each kind. -/
theorem C27_external_tasks_once_per_pending_info_witness :
    (callsWhere Call.isGenerateChildWorkflowTasks
      (sample.refresher.RefreshTasks sample.ctors sample.mutableState sample.state).log).length =
      1 ∧
    (callsWhere Call.isGenerateRequestCancelExternalTasks
      (sample.refresher.RefreshTasks sample.ctors sample.mutableState sample.state).log).length =
      1 ∧
    (callsWhere Call.isGenerateSignalExternalTasks
      (sample.refresher.RefreshTasks sample.ctors sample.mutableState sample.state).log).length =
      1 :=
  ⟨(C27_external_tasks_once_per_pending_info sample.refresher sample.ctors
      sample.mutableState sample.state rfl).1.2.2.trans (by decide),
    (C27_external_tasks_once_per_pending_info sample.refresher sample.ctors
      sample.mutableState sample.state rfl).2.1.2.2.trans (by decide),
    (C27_external_tasks_once_per_pending_info sample.refresher sample.ctors
      sample.mutableState sample.state rfl).2.2.2.2.trans (by decide)⟩

end workflow

/-! # Pipe: claims -/

namespace nettest

/-- C22: on a freshly created pipe, where no peer is waiting, `Connect` with
an already-cancelled token has a single outcome, which is to return
`ErrCanceled` and no connection, and so has `Accept`. -/
theorem C22_cancelled_before_rendezvous :
    Pipe.Connect NewPipe .cancelled = [.returned none (some .ErrCanceled)] ∧
    Pipe.Accept NewPipe .cancelled = [.returned none (some .ErrCanceled)] := by
  decide

end nettest
